import Mathlib

/-!
# Verification of the KKBPE bake-and-atlas pipeline (`exporting/bakematerials.py`)

This file gives a shallow embedding of the material-baking pipeline of
`exporting/bakematerials.py` and proves (or refutes) the specification
claims about it.

The Python module mutates Blender's scene graph through `bpy`.  The
embedding models the parts of that state the pipeline touches:

* an object's material slots are a list of material names (Blender keeps
  material names unique, so a name determines the material; renaming a
  material is modelled by rewriting the registry entry *and* every slot
  that referenced the old name, which is exactly what pointer-based slots
  observe);
* `bpy.data.materials`, `bpy.data.images`, `bpy.data.node_groups` are
  lists of records / names;
* fallible host operations (`links[0]` on an empty link list, subscript
  lookups such as `bpy.data.node_groups['.Geometry Nodes']`) are modelled
  in an `Except String` monad, mirroring Python's `IndexError`/`KeyError`;
* a render (`bpy.ops.render.render(write_still=True)`) appends a record of
  the observable render parameters (file path, resolution, the state of
  the `.Combine colors` group and of the current material's output link at
  render time) to the state.

Numeric render settings are modelled as rationals so that the value the
code assigns (`highest_resolution[0] * resolution_multiplier`) is recorded
exactly; the configured multiplier `bpy.context.scene.kkbp.bake_mult` is
declared outside the sources provided, the spec describes it as a float
that is at least 1, so it is a rational parameter here.
-/

namespace KKBPE

/-! ## String helpers

Python string operations used by the module, implemented over `List Char`
so that they can be reasoned about.
-/

/-- `startsWithChars p l`: `l` begins with the pattern `p` (Python `str.startswith`). -/
def startsWithChars : List Char → List Char → Bool
  | [], _ => true
  | _ :: _, [] => false
  | p :: ps, c :: cs => p == c && startsWithChars ps cs

/-- `hasSub p l`: the pattern `p` occurs as a contiguous substring of `l`
(Python `p in l`). -/
def hasSub (pat : List Char) : List Char → Bool
  | [] => startsWithChars pat []
  | c :: rest => startsWithChars pat (c :: rest) || hasSub pat rest

/-- The characters stripped by `sanitizeMaterialName`
(`['\\','`','*','<','>','.',':','?','|','/','\"']` in the source). -/
def illegalChars : List Char := "\\`*<>.:?|/\"".data

/-- `sanitizeMaterialName` from the source: for each illegal character,
`text = text.replace(ch,'')`.  Replacing single characters by the empty
string in sequence is the same as filtering all of them out at once. -/
def sanitizeMaterialName (text : String) : String :=
  String.mk (text.data.filter (fun c => ¬ illegalChars.contains c))

/-- The pattern `-ORG` used to mark retained original materials. -/
def orgPat : List Char := "-ORG".data

/-- Python `text.replace('-ORG','')`: replace every occurrence of the
four-character pattern, scanning left to right and continuing after each
replacement.  A window shorter than the pattern cannot match. -/
def stripORGChars : List Char → List Char
  | c1 :: c2 :: c3 :: c4 :: rest =>
    if [c1, c2, c3, c4] = orgPat then stripORGChars rest
    else c1 :: stripORGChars (c2 :: c3 :: c4 :: rest)
  | l => l

/-- `name.replace('-ORG','')` on strings. -/
def stripORG (s : String) : String := String.mk (stripORGChars s.data)

/-- `matname[-4:]` as a character list (used for the `'-ORG'` / `'.001'`
suffix checks in the source). -/
def lastFour (s : String) : List Char := (s.data.reverse.take 4).reverse

/-- `matname[:-4]`: drop the last four characters. -/
def dropLastFour (s : String) : String := String.mk (s.data.take (s.data.length - 4))

/-- Lines 204-205 of the source:
`matname = matname[:-4] if matname[-4:] == '-ORG' else matname`. -/
def stripOrgSuffix (s : String) : String :=
  if lastFour s = orgPat then dropLastFour s else s

/-! ## The per-material bake pass (`bake_pass`, lines 134-234)

State touched by `bake_pass`:

* the active object's material slots (list of material names, in order);
* the material registry: for each material the fields `bake_pass` reads
  or writes — the `bake` tag, the `textures` group node (its image nodes,
  the `shade` node's second input value, whether the group has outputs)
  and the link feeding `nodes['out'].inputs[0]`;
* the shared `.Combine colors` node group: whether `mix.inputs[0]` has an
  incoming link, and its `default_value`;
* the fillerplane's single material slot;
* the scene render settings (resolution, file path) and the list of
  renders performed so far.
-/

/-- An image datablock loaded into an image node (only its size matters
to `bake_pass`). -/
structure BImage where
  w : Nat
  h : Nat
deriving DecidableEq, Repr

/-- A node inside a material's `textures` group node tree.  `bake_pass`
only looks at whether `node.type == 'TEX_IMAGE'` and at `node.image`. -/
structure BImgNode where
  nodeType : String
  image : Option BImage
deriving DecidableEq, Repr

/-- The `textures` group node of a material: the nodes of its node tree,
the current `default_value` of `shade` node input 1 (`none` when the
group has no `shade` node), and whether the group node has any outputs. -/
structure BTextures where
  imgNodes : List BImgNode
  shade : Option ℚ
  texOutputs : Bool
deriving DecidableEq, Repr

/-- A material as seen by `bake_pass`: its name, the `bake` custom
property, its `textures` group (if present) and the source node of the
link into `nodes['out'].inputs[0]` (`none` when that input is unlinked). -/
structure BMaterial where
  name : String
  bake : Bool
  textures : Option BTextures
  outLink : Option String
deriving DecidableEq, Repr

/-- The `.Combine colors` node group: whether `mix.inputs[0]` has an
incoming link and the input's `default_value`. -/
structure BCombine where
  mixLinked : Bool
  mixValue : ℚ
deriving DecidableEq, Repr

/-- Observable parameters of one `bpy.ops.render.render(write_still=True)`
call: what file is written, at which resolution, and the state of the
node graphs that shape the output at that moment. -/
structure BRender where
  filepath : String
  matName : String
  resX : ℚ
  resY : ℚ
  mixLinked : Bool
  mixValue : ℚ
  outLink : Option String
  shadeValue : Option ℚ
  texOutputs : Bool
  fileFormat : String
  colorMode : String
deriving DecidableEq, Repr

/-- The scene state `bake_pass` operates on. -/
structure BState where
  slots : List String
  materials : List BMaterial
  combine : BCombine
  fillerMat : Option String
  bakeMult : ℚ
  resX : ℚ
  resY : ℚ
  filepath : String
  renders : List BRender
  logs : List String
deriving DecidableEq, Repr

/-- Look a material up by name (`bpy.data.materials[...]` / slot
dereference; Blender material names are unique). -/
def findMat (mats : List BMaterial) (n : String) : Option BMaterial :=
  mats.find? (fun m => m.name = n)

/-- Rewrite the registry entry of the material named `n`. -/
def updateMat (mats : List BMaterial) (n : String) (f : BMaterial → BMaterial) :
    List BMaterial :=
  mats.map (fun m => if m.name = n then f m else m)

/-- Set the `shade` node's input-1 `default_value` of a material's
`textures` group. -/
def setShade (v : Option ℚ) (m : BMaterial) : BMaterial :=
  { m with textures := m.textures.map (fun tg => { tg with shade := v }) }

/-- Re-link `nodes['out'].inputs[0]` of a material to a new source. -/
def setOutLink (v : Option String) (m : BMaterial) : BMaterial :=
  { m with outLink := v }

/-- Lines 176-182 of the source: scan the nodes of the `textures` group
and keep the size of the image with the largest pixel count seen so far,
starting from `[0, 0]`.  The accumulator is a Python list, compared by
`highest_resolution[0] * highest_resolution[1]`. -/
def scanHighest (nodes : List BImgNode) : List Nat :=
  nodes.foldl
    (fun best nd =>
      if nd.nodeType = "TEX_IMAGE" then
        match nd.image with
        | some img =>
          if best.getD 0 0 * best.getD 1 0 < img.w * img.h then [img.w, img.h] else best
        | none => best
      else best)
    [0, 0]

/-- Lines 196-198: set every slot whose material is not the current one to
the transparent placeholder `'KK Eyeline kage ' + c.get_name()` (a
`KeyError` if that material does not exist).  The loop reads the live
slot list while rewriting it. -/
def swapSiblingsAux (current placeholder : String) (mats : List BMaterial) :
    List Nat → List String → Except String (List String)
  | [], slots => .ok slots
  | j :: rest, slots =>
    if slots.getD j "" ≠ current then
      match findMat mats placeholder with
      | some _ => swapSiblingsAux current placeholder mats rest (slots.set j placeholder)
      | none => .error "KeyError: KK Eyeline kage material"
    else swapSiblingsAux current placeholder mats rest slots

/-- Lines 229-230: restore each slot `i` to
`bpy.data.materials[original_material_order[i]]` (a `KeyError` if a name
is no longer in the registry). -/
def restoreSlotsAux (mats : List BMaterial) :
    List String → Nat → List String → Except String (List String)
  | [], _, slots => .ok slots
  | nm :: rest, j, slots =>
    match findMat mats nm with
    | some _ => restoreSlotsAux mats rest (j + 1) (slots.set j nm)
    | none => .error "KeyError: material not found on slot restore"

/-- The skip log message of line 155. -/
def skipMsg (n : String) : String :=
  "Detected material that cannot be finalized. Skipping: " ++ n

/-- Lines 162-172: before rendering, either mute the `shade` node (non
`normal` passes) or reroute the material output to the last output of the
`textures` group (`normal` pass, when the group has outputs; removing the
link of an unlinked input is an `IndexError`). -/
def bstepPre (bakeType matName : String) (mat : BMaterial) (s : BState) :
    Except String BState :=
  match mat.textures with
  | some tg =>
    if bakeType ≠ "normal" then
      -- save original_normal_state, set shade input 1 to 0 (if the node exists)
      .ok (if tg.shade.isSome then
             { s with materials := updateMat s.materials matName (setShade (some 0)) }
           else s)
    else
      if tg.texOutputs then
        match mat.outLink with
        | some _ =>
          .ok { s with materials := updateMat s.materials matName (setOutLink (some "textures")) }
        | none => .error "IndexError: out input has no link"
      else .ok s
  | none => .ok s

/-- Lines 176-193: compute the render resolution from the scan of the
`textures` group.  Line 186 is Python `if highest_resolution:` — list
truthiness, i.e. the list is non-empty (note that `[0, 0]` is non-empty,
so the 64x64 `else` branch is unreachable). -/
def setResolution (tg : BTextures) (s : BState) : BState :=
  if scanHighest tg.imgNodes ≠ [] then
    { s with resX := ((scanHighest tg.imgNodes).getD 0 0 : ℚ) * s.bakeMult,
             resY := ((scanHighest tg.imgNodes).getD 1 0 : ℚ) * s.bakeMult }
  else
    { s with resX := 64, resY := 64 }

/-- Lines 200-214: with the siblings already swapped out (`slots'`), point
the fillerplane at the current material, set the output path (stripping a
`-ORG` suffix from the sanitized name), render as 8-bit RGBA PNG, and
reset the path. -/
def renderCore (folderpath bakeType matName srcName : String) (matNow : BMaterial)
    (tgNow : BTextures) (s1 : BState) (slots' : List String) : BState :=
  let s2 := { s1 with slots := slots',
                      fillerMat := some matName,
                      filepath := folderpath ++
                        stripOrgSuffix (sanitizeMaterialName srcName) ++ " " ++ bakeType }
  let s3 := { s2 with renders := s2.renders ++
    [({ filepath := s2.filepath,
        matName := matName,
        resX := s2.resX,
        resY := s2.resY,
        mixLinked := s2.combine.mixLinked,
        mixValue := s2.combine.mixValue,
        outLink := matNow.outLink,
        shadeValue := tgNow.shade,
        texOutputs := tgNow.texOutputs,
        fileFormat := "PNG",
        colorMode := "RGBA" } : BRender)] }
  { s3 with filepath := folderpath }

/-- Lines 174-214: when the material has a `textures` group, compute the
render resolution, isolate the material by swapping every sibling slot to
the transparent placeholder, point the fillerplane at it, set the output
path and render. -/
def bstepRender (folderpath bakeType charName matName : String) (mat : BMaterial)
    (s : BState) : Except String BState :=
  match mat.textures with
  | none => .ok s
  | some _ =>
    match findMat s.materials matName with
    | none => .error "KeyError: material"
    | some matNow =>
      match matNow.textures with
      | none => .error "textures group vanished"
      | some tgNow =>
        (swapSiblingsAux matName ("KK Eyeline kage " ++ charName)
            (setResolution tgNow s).materials
            (List.range (setResolution tgNow s).slots.length)
            (setResolution tgNow s).slots).map
          (renderCore folderpath bakeType matName mat.name matNow tgNow (setResolution tgNow s))

/-- Lines 216-226: after rendering, restore the `shade` value saved before
the render (non `normal` passes) or re-link the material output to the
`combine` node (`normal` pass). -/
def bstepPost (bakeType matName : String) (mat : BMaterial) (s : BState) :
    Except String BState :=
  match mat.textures with
  | some tg =>
    if bakeType ≠ "normal" then
      .ok (if tg.shade.isSome then
             { s with materials := updateMat s.materials matName (setShade tg.shade) }
           else s)
    else
      if tg.texOutputs then
        match findMat s.materials matName with
        | some matNow =>
          match matNow.outLink with
          | some _ =>
            .ok { s with materials := updateMat s.materials matName (setOutLink (some "combine")) }
          | none => .error "IndexError: out input has no link"
        | none => .error "KeyError: material"
      else .ok s
  | none => .ok s

/-- One iteration of the material loop of `bake_pass` (lines 152-230) for
slot index `i`.  `original` is `original_material_order`. -/
def bstep (folderpath bakeType charName : String) (original : List String)
    (s : BState) (i : Nat) : Except String BState :=
  match s.slots[i]? with
  | none => .error "IndexError: material slot"
  | some matName =>
    match findMat s.materials matName with
    | none => .error "KeyError: slot material"
    | some mat =>
      -- line 154: if not current_material.get('bake'): log and continue
      if ¬ mat.bake then .ok { s with logs := s.logs ++ [skipMsg mat.name] }
      else
        (bstepPre bakeType matName mat s).bind fun s =>
        (bstepRender folderpath bakeType charName matName mat s).bind fun s =>
        (bstepPost bakeType matName mat s).bind fun s =>
        -- lines 228-230: reset material slots to their original order
        (restoreSlotsAux s.materials original 0 s.slots).map fun slots' =>
          { s with slots := slots' }

/-- `bake_pass(folderpath, bake_type)` (lines 134-234).  `charName` is
`c.get_name()`. -/
def bake_pass (folderpath bakeType charName : String) (s : BState) :
    Except String BState :=
  -- line 142-144: remember the original slot order
  let original := s.slots
  -- lines 147-149: unconditionally detach the link feeding the
  -- `.Combine colors` mix factor (IndexError when there is none) and
  -- force it to 1 for a light pass and 0 otherwise
  if ¬ s.combine.mixLinked then
    .error "IndexError: combine mix input has no link"
  else
    let s1 := { s with combine := { mixLinked := false,
                                    mixValue := if bakeType = "light" then 1 else 0 } }
    ((List.range original.length).foldlM (bstep folderpath bakeType charName original) s1).map
      -- lines 233-234: re-create the link (the forced default_value remains)
      fun s2 => { s2 with combine := { s2.combine with mixLinked := true } }

/-- The render appended by `renderCore`. -/
def renderRecord (folderpath bakeType matName srcName : String) (matNow : BMaterial)
    (tgNow : BTextures) (s1 : BState) : BRender :=
  { filepath := folderpath ++ stripOrgSuffix (sanitizeMaterialName srcName) ++ " " ++ bakeType,
    matName := matName,
    resX := s1.resX,
    resY := s1.resY,
    mixLinked := s1.combine.mixLinked,
    mixValue := s1.combine.mixValue,
    outLink := matNow.outLink,
    shadeValue := tgNow.shade,
    texOutputs := tgNow.texOutputs,
    fileFormat := "PNG",
    colorMode := "RGBA" }

/-! ## Concrete test states for `bake_pass` -/

/-- A bake-tagged material with one 4x2 image input. -/
def wMatA : BMaterial :=
  { name := "MatA", bake := true,
    textures := some { imgNodes := [{ nodeType := "TEX_IMAGE", image := some { w := 4, h := 2 } }],
                       shade := some 1, texOutputs := true },
    outLink := some "combine" }

/-- A material without the `bake` tag. -/
def wSkip : BMaterial := { name := "MatSkip", bake := false, textures := none, outLink := none }

/-- The transparent placeholder material for character `Chara`. -/
def wPlaceholder : BMaterial :=
  { name := "KK Eyeline kage Chara", bake := false, textures := none, outLink := none }

/-- A two-slot object: one bakeable material, one skipped material. -/
def wState : BState :=
  { slots := ["MatA", "MatSkip"],
    materials := [wMatA, wSkip, wPlaceholder],
    combine := { mixLinked := true, mixValue := 0 },
    fillerMat := none, bakeMult := 2, resX := 0, resY := 0,
    filepath := "", renders := [], logs := [] }

/-- A bake-tagged material whose `textures` group holds no image node at
all (a purely procedural / solid-color material). -/
def noImgMat : BMaterial :=
  { name := "MatSolid", bake := true,
    textures := some { imgNodes := [], shade := none, texOutputs := true },
    outLink := some "combine" }

/-- A single-slot object holding only `noImgMat`. -/
def noImgState : BState :=
  { slots := ["MatSolid"], materials := [noImgMat],
    combine := { mixLinked := true, mixValue := 0 },
    fillerMat := none, bakeMult := 1, resX := 0, resY := 0,
    filepath := "", renders := [], logs := [] }

/-- A 3x5 image node. -/
def fracNode : BImgNode := { nodeType := "TEX_IMAGE", image := some { w := 3, h := 5 } }

/-- A `textures` group holding only `fracNode`. -/
def fracTex : BTextures := { imgNodes := [fracNode], shade := some 1, texOutputs := true }

/-- A bake-tagged material with the single 3x5 image input. -/
def fracMat : BMaterial :=
  { name := "MatF", bake := true, textures := some fracTex, outLink := some "combine" }

/-- A single-slot object with a 3x5 image input and the configured
resolution multiplier set to 3/2 (the spec allows any float at least 1). -/
def fracState : BState :=
  { slots := ["MatF"],
    materials := [fracMat],
    combine := { mixLinked := true, mixValue := 0 },
    fillerMat := none, bakeMult := 3 / 2, resX := 0, resY := 0,
    filepath := "", renders := [], logs := [] }

/-! ## Rig teardown (`cleanup`, lines 236-260) -/

/-- An object as seen by `cleanup`: its name, its type, whether it has a
`Flattener` modifier, the number of drivers on its animation data
(`none` when the object has no animation data at all), and its scale. -/
structure CObj where
  name : String
  otype : String
  hasFlattener : Bool
  drivers : Option Nat
  scale : ℚ × ℚ × ℚ
deriving DecidableEq, Repr

/-- The scene state `cleanup` operates on: objects, mesh and camera data
blocks with their user counts, node groups, and the current selection. -/
structure CState where
  objects : List CObj
  meshBlocks : List (String × Nat)
  camBlocks : List (String × Nat)
  nodeGroups : List String
  selected : List String
deriving DecidableEq, Repr

/-- Lines 252-259 for one object of the view layer: on a mesh with a
`Flattener` modifier, remove the modifier, remove `drivers[0]` twice (an
`AttributeError` when the object has no animation data, an `IndexError`
when fewer than two drivers remain) and reset the scale to `(1,1,1)`. -/
def cleanupMesh (o : CObj) : Except String CObj :=
  if o.otype = "MESH" ∧ o.hasFlattener = true then
    match o.drivers with
    | none => .error "AttributeError: object has no animation data"
    | some d =>
      if d = 0 then .error "IndexError: drivers[0]"
      else if d - 1 = 0 then .error "IndexError: drivers[0]"
      else .ok { o with hasFlattener := false, drivers := some (d - 2), scale := (1, 1, 1) }
  else .ok o

/-- Lines 238-251 of `cleanup`: deselect everything, remove every camera
object (line 240-241) and every object whose name contains `fillerplane`
(line 243-244), and drop the zero-user mesh and camera data blocks
(lines 246-251). -/
def cleanupScenePrefix (s : CState) : CState :=
  { s with
    selected := [],
    objects := (s.objects.filter (fun o => o.otype ≠ "CAMERA")).filter
      (fun o => ¬ hasSub "fillerplane".data o.name.data),
    meshBlocks := s.meshBlocks.filter (fun b => b.2 ≠ 0),
    camBlocks := s.camBlocks.filter (fun b => b.2 ≠ 0) }

/-- `cleanup()` (lines 236-260).  Line 260 subscripts
`bpy.data.node_groups['.Geometry Nodes']` unconditionally, which is a
`KeyError` when the group is absent. -/
def cleanup (s : CState) : Except String CState :=
  ((cleanupScenePrefix s).objects.mapM cleanupMesh).bind fun objs =>
    if ".Geometry Nodes" ∈ (cleanupScenePrefix s).nodeGroups then
      .ok { cleanupScenePrefix s with
              objects := objs,
              nodeGroups := (cleanupScenePrefix s).nodeGroups.erase ".Geometry Nodes" }
    else
      .error "KeyError: bpy.data.node_groups['.Geometry Nodes']"

/-- A clean scene: a plain mesh body whose data is in use, no camera, no
fillerplane, no `Flattener` modifier, and no `.Geometry Nodes` group. -/
def cleanScene : CState :=
  { objects := [{ name := "Body", otype := "MESH", hasFlattener := false,
                  drivers := none, scale := (1, 1, 1) }],
    meshBlocks := [("Body", 1)],
    camBlocks := [],
    nodeGroups := ["Shader"],
    selected := [] }

/-! ## Projection rig camera setup (`setup_camera`, lines 25-48) -/

/-- An object as seen by `setup_camera`: name, type, and the name of the
data block it references. -/
structure SObj where
  name : String
  otype : String
  dataName : String
deriving DecidableEq, Repr

/-- A camera data block. -/
structure CamData where
  name : String
  camType : String
  orthoScale : ℚ
deriving DecidableEq, Repr

/-- The scene state `setup_camera` operates on. -/
structure CamState where
  objects : List SObj
  cameras : List CamData
  sceneCamera : Option String
  selected : List String
  pixelAspectX : ℚ
  pixelAspectY : ℚ
deriving DecidableEq, Repr

/-- The users of a camera data block: the scene's camera objects that
reference it (the embedding assumes no fake users and no other scenes,
which is the state the pipeline runs in). -/
def camUsers (objs : List SObj) (d : CamData) : Nat :=
  (objs.filter (fun o => o.otype = "CAMERA" ∧ o.dataName = d.name)).length

/-- Number suffix in Blender's duplicate-name style (`.001`, `.002`, ...). -/
def padNum (k : Nat) : String :=
  if k < 10 then "00" ++ toString k
  else if k < 100 then "0" ++ toString k
  else toString k

/-- Fuelled search for the host's fresh-name choice. -/
def freshNameAux (taken : List String) (base : String) : Nat → Nat → String
  | 0, _ => base
  | fuel + 1, k =>
    if (if k = 0 then base else base ++ "." ++ padNum k) ∈ taken then
      freshNameAux taken base fuel (k + 1)
    else if k = 0 then base else base ++ "." ++ padNum k

/-- The host's fresh-name allocation for data-block names: `base`, then
`base.001`, `base.002`, ..., the first name not taken. -/
def freshName (taken : List String) (base : String) : String :=
  freshNameAux taken base (taken.length + 1) 0

/-- Lines 27-32: select exactly the camera objects, deselect the rest,
and delete the selection. -/
def deleteCameras (s : CamState) : CamState :=
  { s with selected := [],
           objects := s.objects.filter (fun o => o.otype ≠ "CAMERA") }

/-- Lines 33-35: remove the camera data blocks with no users. -/
def purgeCamData (s : CamState) : CamState :=
  { s with cameras := s.cameras.filter (fun d => camUsers s.objects d ≠ 0) }

/-- Line 38: `bpy.ops.object.camera_add(...)` — a new camera object with
a fresh object name and a fresh data-block name (both derived from
`Camera`), perspective type and default ortho scale; the new object
becomes the selection and the active object. -/
def addCamera (s : CamState) : CamState × String :=
  ({ s with
      objects := s.objects ++
        [{ name := freshName (s.objects.map SObj.name) "Camera",
           otype := "CAMERA",
           dataName := freshName (s.cameras.map CamData.name) "Camera" }],
      cameras := s.cameras ++
        [{ name := freshName (s.cameras.map CamData.name) "Camera",
           camType := "PERSP", orthoScale := 6 }],
      selected := [freshName (s.objects.map SObj.name) "Camera"] },
   freshName (s.objects.map SObj.name) "Camera")

/-- `setup_camera()` (lines 25-48).  Lines 44-45 subscript
`bpy.data.cameras[camera.name]` with the *object* name — a `KeyError`
when no camera data block carries that name. -/
def setup_camera (s : CamState) : Except String (CamState × String) :=
  match addCamera (purgeCamData (deleteCameras s)) with
  | (s3, objName) =>
    if (s3.cameras.map CamData.name).contains objName then
      .ok ({ s3 with
              sceneCamera := some objName,
              cameras := s3.cameras.map (fun d =>
                if d.name = objName then { d with camType := "ORTHO", orthoScale := 6 }
                else d),
              pixelAspectX := 1, pixelAspectY := 1 }, objName)
    else .error "KeyError: bpy.data.cameras[camera.name]"

/-- A scene with two user-created cameras and a mesh. -/
def camScene : CamState :=
  { objects := [{ name := "Camera", otype := "CAMERA", dataName := "Camera" },
                { name := "Camera.001", otype := "CAMERA", dataName := "Camera.001" },
                { name := "Body", otype := "MESH", dataName := "Body" }],
    cameras := [{ name := "Camera", camType := "PERSP", orthoScale := 6 },
                { name := "Camera.001", camType := "PERSP", orthoScale := 6 }],
    sceneCamera := some "Camera",
    selected := ["Body"],
    pixelAspectX := 2, pixelAspectY := 1 }

/-! ## Pipeline driver (`bake_materials.execute`, lines 553-663) -/

/-- What the operator's caller observes: the returned status, the
viewport shading mode, the reports surfaced to the UI, and the log. -/
structure DriverOut where
  status : String
  viewport : String
  reports : List (String × String)
  logs : List String
deriving DecidableEq, Repr

/-- The state threaded through the `try` body of `execute`. -/
structure DriverState where
  viewport : String
  logs : List String
deriving DecidableEq, Repr

/-- The text of `traceback.format_exc()` for an exception `e`. -/
def tracebackText (e : String) : String :=
  "Traceback (most recent call last): " ++ e

/-- `bake_materials.execute` (lines 553-663).  The whole pipeline body
runs inside a single `try`; an exception raised anywhere in it (modelled
as the body returning `.error` with the exception text and the state at
the raise point) falls through to the one bare `except` of lines
658-663: log, log the traceback, set the viewport shading to `SOLID`,
report the traceback to the UI as an `ERROR`, return `{'CANCELLED'}`.
On success line 656 sets the viewport to `SOLID` and `{'FINISHED'}` is
returned. -/
def executeDriver (body : DriverState → Except (String × DriverState) DriverState)
    (s : DriverState) : DriverOut :=
  match body s with
  | .ok s' =>
    { status := "FINISHED", viewport := "SOLID",
      reports := [], logs := s'.logs ++ ["Finished in ..s"] }
  | .error (e, se) =>
    { status := "CANCELLED", viewport := "SOLID",
      reports := [("ERROR", tracebackText e)],
      logs := se.logs ++ ["Unknown python error occurred", tracebackText e] }

/-! ## Texture-to-material rebind (`replace_all_baked_materials`, lines 262-344)

State model: material slots are again a list of material names; a
material's record carries the fields the rebind touches — the `bake` /
`simple` tags, `use_fake_user`, the blend/transparency configuration of
both host versions, and the three image nodes (`light`, `dark`,
`normal`) of its `textures` group, holding image *names*.  Renaming a
material rewrites the registry entry and the slots referencing the old
name (that is what pointer-based slots observe, names being unique).
`bpy.data.images` is the list of image datablock names. -/

/-- A material as seen by `replace_all_baked_materials`. -/
structure RMaterial where
  name : String
  bake : Bool
  simple : Bool
  fakeUser : Bool
  blendMethod : String
  showTransparentBack : Bool
  surfaceRenderMethod : String
  useTransparencyOverlap : Bool
  texGroupName : String
  texLight : Option String
  texDark : Option String
  texNormal : Option String
deriving DecidableEq, Repr

/-- The scene state `replace_all_baked_materials` operates on. -/
structure RState where
  images : List String
  materials : List RMaterial
  slots : List String
  logs : List String
  shaderDropdown : String
  appMajor : Nat
deriving DecidableEq, Repr

/-- Look a material up by name. -/
def findMatR (mats : List RMaterial) (n : String) : Option RMaterial :=
  mats.find? (fun m => m.name = n)

/-- Rewrite the registry entry of the material named `n`. -/
def updateMatR (mats : List RMaterial) (n : String) (f : RMaterial → RMaterial) :
    List RMaterial :=
  mats.map (fun m => if m.name = n then f m else m)

/-- `textures_group.nodes[bake_type].image = image`. -/
def setTex (bt img : String) (m : RMaterial) : RMaterial :=
  if bt = "light" then { m with texLight := some img }
  else if bt = "dark" then { m with texDark := some img }
  else { m with texNormal := some img }

/-- The image node a pass type reads. -/
def texOf (bt : String) (m : RMaterial) : Option String :=
  if bt = "light" then m.texLight else if bt = "dark" then m.texDark else m.texNormal

/-- One step of `image.user_remap(new)`: an image binding that referenced
`old` now references `new`. -/
def remapImg (old new : String) (x : Option String) : Option String :=
  if x = some old then some new else x

/-- `user_remap` over one material's image nodes. -/
def remapMat (old new : String) (m : RMaterial) : RMaterial :=
  { m with texLight := remapImg old new m.texLight,
           texDark := remapImg old new m.texDark,
           texNormal := remapImg old new m.texNormal }

/-- Loading one rendered PNG back in (lines 266-275).  The host names the
new datablock after the file, appending `.001`, `.002`, ... while the
name is taken.  When the resulting name ends in `.001` (line 271) and an
image with the base name exists (line 272), the code remaps users of the
old image to the new one, removes the old image and renames the new one
back to the base name (the rename is observed by name-based bindings as
the second remap). -/
def loadImage (s : RState) (f : String) : RState :=
  if lastFour (freshName s.images f) = ".001".data then
    if dropLastFour (freshName s.images f) ∈ s.images ++ [freshName s.images f] then
      { s with
        materials := (s.materials.map
            (remapMat (dropLastFour (freshName s.images f)) (freshName s.images f))).map
            (remapMat (freshName s.images f) (dropLastFour (freshName s.images f))),
        images := ((s.images ++ [freshName s.images f]).erase
            (dropLastFour (freshName s.images f))).map
            (fun x => if x = freshName s.images f then dropLastFour (freshName s.images f)
                      else x) }
    else { s with images := s.images ++ [freshName s.images f] }
  else { s with images := s.images ++ [freshName s.images f] }

/-- Lines 264-277: load every `*.png` of the output directory; a file
whose name exceeds the host's 63-character datablock name limit fails to
load and is only logged (the `except` of lines 276-277). -/
def loadPhase (files : List String) (s : RState) : RState :=
  files.foldl
    (fun st f =>
      if f.data.length ≤ 63 then loadImage st f
      else { st with logs := st.logs ++
        ["Could not load in file because the name exceeds 64 characters: " ++ f] })
    s

/-- The `KK Simple` template material from the asset library (imported by
lines 303-307 when not already present); its image slots are empty. -/
def kkSimpleTemplate : RMaterial :=
  { name := "KK Simple", bake := false, simple := false, fakeUser := false,
    blendMethod := "CLIP", showTransparentBack := true,
    surfaceRenderMethod := "DITHERED", useTransparencyOverlap := true,
    texGroupName := "KK Simple", texLight := none, texDark := none, texNormal := none }

/-- Line 282: the image name looked up for a slot material and a pass
type (`mat.material.name.replace('-ORG', '') + f' {bake_type}.png'`). -/
def imageKeyName (matName bt : String) : String :=
  stripORG matName ++ " " ++ bt ++ ".png"

/-- `bpy.data.images.get(name, '')` followed by the `if image:` check. -/
def findImage (images : List String) (key : String) : Option String :=
  if key ∈ images then some key else none

/-- The eyewhites material name checked on line 325. -/
def eyewhitesName (charName : String) : String := "KK Eyewhites (sirome) " ++ charName

/-- Lines 312-316: bind the rendered image into the pass type's node of
the new simplified material; when creating from a `light` pass, also fill
the `dark` node with the light image (it is overwritten if a dark bake
exists on a later loop iteration). -/
def bindNewImages (bt img : String) (m : RMaterial) : RMaterial :=
  if bt = "light" then { setTex bt img m with texDark := some img } else setTex bt img m

/-- `replace_mat()` (lines 320-331): swap the slot to the new material
while preserving the host's blend configuration read off the original
(`orgMat`), and tag the new material as `simple`. -/
def replaceMatFields (eyewhites : Bool) (appMajor : Nat) (orgMat : RMaterial)
    (m : RMaterial) : RMaterial :=
  if appMajor > 3 then
    { m with surfaceRenderMethod := orgMat.surfaceRenderMethod,
             useTransparencyOverlap := eyewhites,
             simple := true }
  else
    { m with blendMethod := orgMat.blendMethod,
             showTransparentBack := false,
             simple := true }

/-- The state produced by the third branch (shared by both host
versions). -/
def createSimpleCore (bt img charName : String) (i : Nat) (mat : RMaterial) (s : RState) :
    RState :=
  -- line 302: mat.material.name += '-ORG'
  (fun (orgName : String) =>
    (fun (withOrg : RState) =>
      -- lines 303-307: the template, imported when absent
      (fun (withTmpl : RState) =>
        (fun (tmpl : RMaterial) =>
          -- line 308: simple.name = mat.material.name.replace('-ORG','')
          (fun (simpleName : String) =>
            { withTmpl with
              materials :=
                (updateMatR withTmpl.materials orgName (fun m => { m with fakeUser := true }))
                  ++ [replaceMatFields
                        (hasSub (eyewhitesName charName).data simpleName.data)
                        s.appMajor mat
                        (bindNewImages bt img
                          { tmpl with name := simpleName, texGroupName := simpleName })],
              slots := withTmpl.slots.set i simpleName })
            (freshName (withTmpl.materials.map RMaterial.name) (stripORG orgName)))
          ((findMatR withTmpl.materials "KK Simple").getD kkSimpleTemplate))
        (if (findMatR withOrg.materials "KK Simple").isSome then withOrg
         else { withOrg with materials := withOrg.materials ++ [kkSimpleTemplate] }))
      { s with
        materials := updateMatR s.materials mat.name (fun m => { m with name := orgName }),
        slots := s.slots.map (fun x => if x = mat.name then orgName else x) })
    (freshName (s.materials.map RMaterial.name) (mat.name ++ "-ORG"))

/-- The fresh registry name of the renamed original (line 302). -/
def csOrgName (mat : RMaterial) (s : RState) : String :=
  freshName (s.materials.map RMaterial.name) (mat.name ++ "-ORG")

/-- The state after the rename of line 302. -/
def csWithOrg (mat : RMaterial) (s : RState) : RState :=
  { s with
    materials := updateMatR s.materials mat.name (fun m => { m with name := csOrgName mat s }),
    slots := s.slots.map (fun x => if x = mat.name then csOrgName mat s else x) }

/-- The state after lines 303-307 (template imported when absent). -/
def csWithTmpl (mat : RMaterial) (s : RState) : RState :=
  if (findMatR (csWithOrg mat s).materials "KK Simple").isSome then csWithOrg mat s
  else { csWithOrg mat s with materials := (csWithOrg mat s).materials ++ [kkSimpleTemplate] }

/-- The template record the copy of line 304/307 starts from. -/
def csTmpl (mat : RMaterial) (s : RState) : RMaterial :=
  (findMatR (csWithTmpl mat s).materials "KK Simple").getD kkSimpleTemplate

/-- The fresh registry name of the new simplified material (line 308). -/
def csSimpleName (mat : RMaterial) (s : RState) : String :=
  freshName ((csWithTmpl mat s).materials.map RMaterial.name) (stripORG (csOrgName mat s))

/-- The new simplified material (lines 308-331). -/
def csNewMat (bt img charName : String) (mat : RMaterial) (s : RState) : RMaterial :=
  replaceMatFields (hasSub (eyewhitesName charName).data (csSimpleName mat s).data)
    s.appMajor mat
    (bindNewImages bt img
      { csTmpl mat s with name := csSimpleName mat s, texGroupName := csSimpleName mat s })

/-- Lines 300-343, third branch: rename the original to `-ORG` (the host
suffixes the name on a collision), import the `KK Simple` template when
missing, clone it into a simplified material named after the original
(with its own copy of the textures group), bind the rendered image(s),
mark the original as fake-user and swap the slot over.  When the Eevee
Mod shader variant is selected (lines 334-343), the code rebinds the
local `simple` to a *node group* and calls `replace_mat()` again, whose
`mat.material = simple` assignment fails with a `TypeError` (the
partially mutated state at the raise point is not tracked here). -/
def createSimple (bt img charName : String) (i : Nat) (mat : RMaterial) (s : RState) :
    Except String RState :=
  if s.shaderDropdown = "C" then
    .error "TypeError: material slot assignment expects a Material, got a NodeTree"
  else
    .ok (createSimpleCore bt img charName i mat s)

/-- One slot of the rebind loop (lines 281-343) for pass type `bt`. -/
def slotStep (bt charName : String) (s : RState) (i : Nat) : Except String RState :=
  match s.slots[i]? with
  | none => .error "IndexError: material slot"
  | some slotName =>
    match findMatR s.materials slotName with
    | none => .error "KeyError: slot material"
    | some mat =>
      match findImage s.images (imageKeyName mat.name bt) with
      | none => .ok s
      | some img =>
        -- line 285: the simplified material is already in the slot
        if mat.simple = true then
          .ok { s with materials := updateMatR s.materials mat.name (setTex bt img) }
        -- line 292: the slot was swapped back to the -ORG original
        else if mat.bake = true ∧ hasSub orgPat mat.name.data = true ∧
            (findMatR s.materials (stripORG mat.name)).isSome then
          match findMatR s.materials (stripORG mat.name) with
          | some simpleM =>
            .ok { s with slots := s.slots.set i simpleM.name,
                         materials := updateMatR s.materials simpleM.name (setTex bt img) }
          | none => .error "unreachable: guard checked the simplified sibling"
        -- line 300: create the simplified material
        else if mat.bake = true then
          createSimple bt img charName i mat s
        else .ok s

/-- One pass type's slot loop. -/
def passPhase (bt charName : String) (s : RState) : Except String RState :=
  (List.range s.slots.length).foldlM (slotStep bt charName) s

/-- `replace_all_baked_materials(folderpath, bake_object)`
(lines 262-343): load all rendered images, then for each pass type in
`['light', 'dark', 'normal']` walk the object's material slots. -/
def replace_all_baked_materials (files : List String) (charName : String) (s : RState) :
    Except String RState :=
  (passPhase "light" charName (loadPhase files s)).bind fun s1 =>
    (passPhase "dark" charName s1).bind fun s2 =>
      passPhase "normal" charName s2

/-- A name that does not contain `-ORG`. -/
def ORGfree (n : String) : Prop := hasSub orgPat n.data = false

/-- Invariant of the rebind state: material names are unique and either
`-ORG`-free or a single `-ORG` suffix on an `-ORG`-free base; slot names
are `-ORG`-free, distinct and resolvable; every `-ORG` original has a
`simple` sibling under the base name; the template is not sitting in a
slot; and no image binding carries a stale `.001` dedup name. -/
structure RInv (s : RState) : Prop where
  nodup : (s.materials.map RMaterial.name).Nodup
  nameForm : ∀ m ∈ s.materials, ORGfree m.name ∨ ∃ b, ORGfree b ∧ m.name = b ++ "-ORG"
  slotsFree : ∀ n ∈ s.slots, ORGfree n
  slotsNodup : s.slots.Nodup
  slotsResolve : ∀ n ∈ s.slots, (findMatR s.materials n).isSome
  orgBase : ∀ m ∈ s.materials, ∀ b, m.name = b ++ "-ORG" →
    ∃ ms ∈ s.materials, ms.name = b ∧ ms.simple = true
  noTemplateSlot : "KK Simple" ∉ s.slots
  texShape : ∀ m ∈ s.materials, ∀ bt k, texOf bt m = some k → lastFour k ≠ ".001".data
  slotsSB : ∀ n ∈ s.slots, ∀ mat, findMatR s.materials n = some mat →
    mat.simple = true ∨ mat.bake = true

/-- Slot `i` already carries the simplified material with the image of
pass type `bt` bound, whenever that image exists. -/
def SlotDone (bt : String) (s : RState) (i : Nat) : Prop :=
  ∀ n, s.slots[i]? = some n →
    ∀ img, findImage s.images (imageKeyName n bt) = some img →
      ∃ m, findMatR s.materials n = some m ∧ m.simple = true ∧ texOf bt m = some img

/-- Slot `i` holds a simplified material whose `light` *and* `dark` nodes
both carry the light-pass image, whenever that image exists
(the dark-fill of lines 313-316). -/
def SlotDarkFilled (s : RState) (i : Nat) : Prop :=
  ∀ n, s.slots[i]? = some n →
    ∀ img, findImage s.images (imageKeyName n "light") = some img →
      ∃ m, findMatR s.materials n = some m ∧ m.simple = true ∧
        m.texLight = some img ∧ m.texDark = some img

/-- A fresh original material (never baked before). -/
def rMatA : RMaterial :=
  { name := "Body", bake := true, simple := false, fakeUser := false,
    blendMethod := "BLEND", showTransparentBack := true,
    surfaceRenderMethod := "BLENDED", useTransparencyOverlap := false,
    texGroupName := "Body tex", texLight := none, texDark := none, texNormal := none }

/-- A second fresh original material. -/
def rMatB : RMaterial := { rMatA with name := "Face", texGroupName := "Face tex" }

/-- A fresh rebind scene: two original bake-tagged materials, nothing
baked or simplified yet. -/
def rFreshState : RState :=
  { images := [],
    materials := [rMatA, rMatB],
    slots := ["Body", "Face"],
    logs := [], shaderDropdown := "A", appMajor := 3 }

/-- The rendered files of a light-only bake of `rFreshState`. -/
def rFiles : List String := ["Body light.png", "Face light.png"]

/-- The state `replace_all_baked_materials rFiles "Mc" rFreshState`
produces: originals renamed to `-ORG` and fake-user-tagged, the template
imported, and two simplified materials carrying the light image in the
`light` and `dark` nodes. -/
def rRun1State : RState :=
  { images := ["Body light.png", "Face light.png"],
    materials :=
      [{ rMatA with name := "Body-ORG", fakeUser := true },
       { rMatB with name := "Face-ORG", fakeUser := true },
       kkSimpleTemplate,
       { name := "Body", bake := false, simple := true, fakeUser := false,
         blendMethod := "BLEND", showTransparentBack := false,
         surfaceRenderMethod := "DITHERED", useTransparencyOverlap := true,
         texGroupName := "Body", texLight := some "Body light.png",
         texDark := some "Body light.png", texNormal := none },
       { name := "Face", bake := false, simple := true, fakeUser := false,
         blendMethod := "BLEND", showTransparentBack := false,
         surfaceRenderMethod := "DITHERED", useTransparencyOverlap := true,
         texGroupName := "Face", texLight := some "Face light.png",
         texDark := some "Face light.png", texNormal := none }],
    slots := ["Body", "Face"],
    logs := [], shaderDropdown := "A", appMajor := 3 }

/-! ## Slot bookkeeping lemmas (towards the slot-order invariant) -/

theorem swapSiblingsAux_length (current placeholder : String) (mats : List BMaterial) :
    ∀ (idxs : List Nat) (slots slots' : List String),
      swapSiblingsAux current placeholder mats idxs slots = .ok slots' →
      slots'.length = slots.length := by
  intro idxs
  induction idxs with
  | nil =>
    intro slots slots' h
    simp only [swapSiblingsAux, Except.ok.injEq] at h
    rw [← h]
  | cons j rest ih =>
    intro slots slots' h
    simp only [swapSiblingsAux] at h
    split at h
    · split at h
      · have := ih _ _ h
        simpa using this
      · cases h
    · exact ih _ _ h

theorem take_set_self {α : Type _} (l : List α) (j : Nat) (a : α) :
    (l.set j a).take j = l.take j := by
  induction l generalizing j with
  | nil => simp
  | cons c rest ih =>
    cases j with
    | zero => simp
    | succ j => simpa using ih j

theorem restoreSlotsAux_ok (mats : List BMaterial) :
    ∀ (rest : List String) (j : Nat) (slots slots' : List String),
      restoreSlotsAux mats rest j slots = .ok slots' →
      slots.length = j + rest.length →
      slots' = slots.take j ++ rest := by
  intro rest
  induction rest with
  | nil =>
    intro j slots slots' h hlen
    simp only [restoreSlotsAux, Except.ok.injEq] at h
    subst h
    simp only [List.length_nil, Nat.add_zero] at hlen
    rw [← hlen, List.take_length, List.append_nil]
  | cons nm rest ih =>
    intro j slots slots' h hlen
    simp only [restoreSlotsAux] at h
    split at h
    · have hlen' : (slots.set j nm).length = (j + 1) + rest.length := by
        simp only [List.length_set]; simp only [List.length_cons] at hlen; omega
      have hres := ih (j + 1) (slots.set j nm) slots' h hlen'
      have hj : j < slots.length := by simp only [List.length_cons] at hlen; omega
      rw [hres, List.take_succ, take_set_self]
      have hget : (slots.set j nm)[j]? = some nm := by
        rw [List.getElem?_set_self']
        simp [hj]
      rw [hget]
      simp
    · cases h

/-- `bstepPre` only rewrites the material registry. -/
theorem bstepPre_frame {bakeType matName : String} {mat : BMaterial} {s s' : BState}
    (h : bstepPre bakeType matName mat s = .ok s') :
    s'.slots = s.slots ∧ s'.combine = s.combine ∧ s'.renders = s.renders ∧
      s'.logs = s.logs := by
  unfold bstepPre at h
  split at h
  · split at h
    · simp only [Except.ok.injEq] at h
      subst h
      split <;> exact ⟨rfl, rfl, rfl, rfl⟩
    · split at h
      · split at h
        · simp only [Except.ok.injEq] at h
          subst h
          exact ⟨rfl, rfl, rfl, rfl⟩
        · cases h
      · simp only [Except.ok.injEq] at h
        subst h
        exact ⟨rfl, rfl, rfl, rfl⟩
  · simp only [Except.ok.injEq] at h
    subst h
    exact ⟨rfl, rfl, rfl, rfl⟩

/-- `bstepPost` only rewrites the material registry. -/
theorem bstepPost_frame {bakeType matName : String} {mat : BMaterial} {s s' : BState}
    (h : bstepPost bakeType matName mat s = .ok s') :
    s'.slots = s.slots ∧ s'.combine = s.combine ∧ s'.renders = s.renders ∧
      s'.logs = s.logs := by
  unfold bstepPost at h
  split at h
  · split at h
    · simp only [Except.ok.injEq] at h
      subst h
      split <;> exact ⟨rfl, rfl, rfl, rfl⟩
    · split at h
      · split at h
        · split at h
          · simp only [Except.ok.injEq] at h
            subst h
            exact ⟨rfl, rfl, rfl, rfl⟩
          · cases h
        · cases h
      · simp only [Except.ok.injEq] at h
        subst h
        exact ⟨rfl, rfl, rfl, rfl⟩
  · simp only [Except.ok.injEq] at h
    subst h
    exact ⟨rfl, rfl, rfl, rfl⟩

@[simp] theorem setResolution_slots (tg : BTextures) (s : BState) :
    (setResolution tg s).slots = s.slots := by
  unfold setResolution
  split <;> rfl

@[simp] theorem setResolution_materials (tg : BTextures) (s : BState) :
    (setResolution tg s).materials = s.materials := by
  unfold setResolution
  split <;> rfl

@[simp] theorem setResolution_combine (tg : BTextures) (s : BState) :
    (setResolution tg s).combine = s.combine := by
  unfold setResolution
  split <;> rfl

@[simp] theorem setResolution_renders (tg : BTextures) (s : BState) :
    (setResolution tg s).renders = s.renders := by
  unfold setResolution
  split <;> rfl

@[simp] theorem setResolution_logs (tg : BTextures) (s : BState) :
    (setResolution tg s).logs = s.logs := by
  unfold setResolution
  split <;> rfl

@[simp] theorem setResolution_bakeMult (tg : BTextures) (s : BState) :
    (setResolution tg s).bakeMult = s.bakeMult := by
  unfold setResolution
  split <;> rfl

@[simp] theorem renderCore_slots (fp bt mn sn : String) (matNow : BMaterial)
    (tgNow : BTextures) (s1 : BState) (slots' : List String) :
    (renderCore fp bt mn sn matNow tgNow s1 slots').slots = slots' := rfl

@[simp] theorem renderCore_materials (fp bt mn sn : String) (matNow : BMaterial)
    (tgNow : BTextures) (s1 : BState) (slots' : List String) :
    (renderCore fp bt mn sn matNow tgNow s1 slots').materials = s1.materials := rfl

@[simp] theorem renderCore_combine (fp bt mn sn : String) (matNow : BMaterial)
    (tgNow : BTextures) (s1 : BState) (slots' : List String) :
    (renderCore fp bt mn sn matNow tgNow s1 slots').combine = s1.combine := rfl

@[simp] theorem renderCore_logs (fp bt mn sn : String) (matNow : BMaterial)
    (tgNow : BTextures) (s1 : BState) (slots' : List String) :
    (renderCore fp bt mn sn matNow tgNow s1 slots').logs = s1.logs := rfl

@[simp] theorem renderCore_renders (fp bt mn sn : String) (matNow : BMaterial)
    (tgNow : BTextures) (s1 : BState) (slots' : List String) :
    (renderCore fp bt mn sn matNow tgNow s1 slots').renders =
      s1.renders ++ [renderRecord fp bt mn sn matNow tgNow s1] := rfl

/-- `bstepRender` keeps the slot count, the material registry, the
`.Combine colors` state and the log. -/
theorem bstepRender_frame {fp bt cn matName : String} {mat : BMaterial} {s s' : BState}
    (h : bstepRender fp bt cn matName mat s = .ok s') :
    s'.slots.length = s.slots.length ∧ s'.combine = s.combine ∧
      s'.materials = s.materials ∧ s'.logs = s.logs := by
  unfold bstepRender at h
  split at h
  · simp only [Except.ok.injEq] at h
    subst h
    exact ⟨rfl, rfl, rfl, rfl⟩
  · split at h
    · cases h
    · split at h
      · cases h
      · rename_i mat2 tx matNow hfind tx2 tgNow htg
        cases hsw : swapSiblingsAux matName ("KK Eyeline kage " ++ cn)
            (setResolution tgNow s).materials
            (List.range (setResolution tgNow s).slots.length)
            (setResolution tgNow s).slots with
        | error e =>
          rw [hsw] at h
          simp [Except.map] at h
        | ok slots' =>
          rw [hsw] at h
          simp only [Except.map, Except.ok.injEq] at h
          subst h
          have hlen := swapSiblingsAux_length _ _ _ _ _ _ hsw
          refine ⟨?_, by simp, by simp, by simp⟩
          simpa using hlen

/-- One loop iteration of `bake_pass` restores the slot list to
`original_material_order`. -/
theorem bstep_slots {fp bt cn : String} {original : List String} {s s' : BState} {i : Nat}
    (h : bstep fp bt cn original s i = .ok s') (hs : s.slots = original) :
    s'.slots = original := by
  unfold bstep at h
  split at h
  · cases h
  · split at h
    · cases h
    · split at h
      · simp only [Except.ok.injEq] at h
        subst h
        exact hs
      · cases h1 : bstepPre bt _ _ s with
        | error e => rw [h1] at h; simp [Except.bind] at h
        | ok t1 =>
          rw [h1] at h
          simp only [Except.bind] at h
          cases h2 : bstepRender fp bt cn _ _ t1 with
          | error e => rw [h2] at h; simp at h
          | ok t2 =>
            rw [h2] at h
            simp only at h
            cases h3 : bstepPost bt _ _ t2 with
            | error e => rw [h3] at h; simp at h
            | ok t3 =>
              rw [h3] at h
              simp only at h
              cases h4 : restoreSlotsAux t3.materials original 0 t3.slots with
              | error e => rw [h4] at h; simp [Except.map] at h
              | ok slots' =>
                rw [h4] at h
                simp only [Except.map, Except.ok.injEq] at h
                subst h
                have e1 := (bstepPre_frame h1).1
                have e2 := (bstepRender_frame h2).1
                have e3 := (bstepPost_frame h3).1
                have hlen : t3.slots.length = original.length := by
                  rw [e3, e2, e1, hs]
                have := restoreSlotsAux_ok t3.materials original 0 t3.slots slots' h4
                  (by simpa using hlen)
                simpa using this

/-- The whole material loop of `bake_pass` restores the slot list. -/
theorem bakeLoop_slots (fp bt cn : String) (original : List String) :
    ∀ (idxs : List Nat) (s s' : BState),
      List.foldlM (bstep fp bt cn original) s idxs = .ok s' →
      s.slots = original → s'.slots = original := by
  intro idxs
  induction idxs with
  | nil =>
    intro s s' h hs
    simp only [List.foldlM, pure, Except.pure, Except.ok.injEq] at h
    subst h
    exact hs
  | cons j rest ih =>
    intro s s' h hs
    simp only [List.foldlM] at h
    cases h1 : bstep fp bt cn original s j with
    | error e =>
      rw [h1] at h
      simp [bind, Except.bind] at h
    | ok t =>
      rw [h1] at h
      simp only [bind, Except.bind] at h
      exact ih t s' h (bstep_slots h1 hs)

/-- **C2** (slot-order invariant): whenever `bake_pass` completes on an
object with any number of material slots, the slot-to-material mapping
afterwards equals the mapping before the pass — the sibling slots are
swapped to the transparent placeholder only inside one iteration and are
re-assigned in their original order (lines 228-230) before the next
material is processed. -/
theorem bake_pass_preserves_slots (fp bt cn : String) (s s' : BState)
    (h : bake_pass fp bt cn s = .ok s') : s'.slots = s.slots := by
  unfold bake_pass at h
  split at h
  · cases h
  · simp only [] at h
    cases hf : List.foldlM (bstep fp bt cn s.slots)
        { s with combine := { mixLinked := false,
                              mixValue := if bt = "light" then 1 else 0 } }
        (List.range s.slots.length) with
    | error e =>
      rw [hf] at h
      simp [Except.map] at h
    | ok t =>
      rw [hf] at h
      simp only [Except.map, Except.ok.injEq] at h
      subst h
      have hl := bakeLoop_slots fp bt cn s.slots (List.range s.slots.length) _ _ hf rfl
      exact hl

/-! ## Characterizing one loop iteration of `bake_pass` -/

theorem findMat_name {mats : List BMaterial} {n : String} {m : BMaterial}
    (h : findMat mats n = some m) : m.name = n := by
  have := List.find?_some h
  simpa using this

theorem findMat_updateMat (mats : List BMaterial) (n : String) (f : BMaterial → BMaterial)
    (hf : ∀ m, (f m).name = m.name) :
    findMat (updateMat mats n f) n = (findMat mats n).map f := by
  induction mats with
  | nil => rfl
  | cons m rest ih =>
    by_cases hm : m.name = n
    · unfold updateMat findMat
      simp only [List.map_cons, if_pos hm]
      rw [List.find?_cons_of_pos _ (by simp [hf, hm]),
          List.find?_cons_of_pos _ (by simp [hm])]
      simp
    · unfold updateMat findMat
      simp only [List.map_cons, if_neg hm]
      rw [List.find?_cons_of_neg _ (by simp [hm]),
          List.find?_cons_of_neg _ (by simp [hm])]
      exact ih

theorem setShade_name (v : Option ℚ) (m : BMaterial) : (setShade v m).name = m.name := rfl

theorem setOutLink_name (v : Option String) (m : BMaterial) :
    (setOutLink v m).name = m.name := rfl

/-- What `bstepPre` can produce. -/
theorem bstepPre_spec {bakeType matName : String} {mat : BMaterial} {s s' : BState}
    (h : bstepPre bakeType matName mat s = .ok s') :
    (s' = s ∧ (mat.textures = none ∨
       ∃ tg, mat.textures = some tg ∧
         ((bakeType ≠ "normal" ∧ tg.shade = none) ∨
          (bakeType = "normal" ∧ tg.texOutputs = false)))) ∨
    (∃ tg, mat.textures = some tg ∧
       ((bakeType ≠ "normal" ∧ tg.shade.isSome = true ∧
           s' = { s with materials := updateMat s.materials matName (setShade (some 0)) }) ∨
        (bakeType = "normal" ∧ tg.texOutputs = true ∧
           s' = { s with materials := updateMat s.materials matName (setOutLink (some "textures")) }))) := by
  unfold bstepPre at h
  split at h
  · rename_i tg htg
    split at h
    · rename_i hbt
      simp only [Except.ok.injEq] at h
      subst h
      by_cases hsh : tg.shade.isSome
      · rw [if_pos hsh]
        exact Or.inr ⟨tg, htg, Or.inl ⟨hbt, hsh, rfl⟩⟩
      · rw [if_neg hsh]
        exact Or.inl ⟨rfl, Or.inr ⟨tg, htg, Or.inl ⟨hbt, Option.not_isSome_iff_eq_none.mp hsh⟩⟩⟩
    · rename_i hbt
      split at h
      · rename_i hout
        split at h
        · simp only [Except.ok.injEq] at h
          subst h
          exact Or.inr ⟨tg, htg, Or.inr ⟨by simpa using hbt, hout, rfl⟩⟩
        · cases h
      · rename_i hout
        simp only [Except.ok.injEq] at h
        subst h
        exact Or.inl ⟨rfl, Or.inr ⟨tg, htg,
          Or.inr ⟨by simpa using hbt, by simpa using hout⟩⟩⟩
  · rename_i htg
    simp only [Except.ok.injEq] at h
    subst h
    exact Or.inl ⟨rfl, Or.inl htg⟩

/-- What `bstepRender` can produce. -/
theorem bstepRender_spec {fp bt cn matName : String} {mat : BMaterial} {s s' : BState}
    (h : bstepRender fp bt cn matName mat s = .ok s') :
    (mat.textures = none ∧ s' = s) ∨
    (∃ matNow tgNow slots',
       findMat s.materials matName = some matNow ∧
       matNow.textures = some tgNow ∧
       s' = renderCore fp bt matName mat.name matNow tgNow (setResolution tgNow s) slots') := by
  unfold bstepRender at h
  split at h
  · rename_i htg
    simp only [Except.ok.injEq] at h
    subst h
    exact Or.inl ⟨htg, rfl⟩
  · split at h
    · cases h
    · rename_i matNow hfind
      split at h
      · cases h
      · rename_i tgNow htgNow
        cases hsw : swapSiblingsAux matName ("KK Eyeline kage " ++ cn)
            (setResolution tgNow s).materials
            (List.range (setResolution tgNow s).slots.length)
            (setResolution tgNow s).slots with
        | error e =>
          rw [hsw] at h
          simp [Except.map] at h
        | ok slots' =>
          rw [hsw] at h
          simp only [Except.map, Except.ok.injEq] at h
          subst h
          exact Or.inr ⟨matNow, tgNow, slots', hfind, htgNow, rfl⟩

theorem setResolution_resX (tg : BTextures) (s : BState) :
    (setResolution tg s).resX =
      if scanHighest tg.imgNodes ≠ [] then
        ((scanHighest tg.imgNodes).getD 0 0 : ℚ) * s.bakeMult
      else 64 := by
  unfold setResolution
  split <;> simp_all

theorem setResolution_resY (tg : BTextures) (s : BState) :
    (setResolution tg s).resY =
      if scanHighest tg.imgNodes ≠ [] then
        ((scanHighest tg.imgNodes).getD 1 0 : ℚ) * s.bakeMult
      else 64 := by
  unfold setResolution
  split <;> simp_all

/-- Full characterization of one loop iteration of `bake_pass` on a
bake-tagged material: the `.Combine colors` state is untouched and, when
the material has a `textures` group, exactly one render is appended whose
parameters are determined by the group's content and the pass type. -/
theorem bstep_main_spec {fp bt cn : String} {original : List String} {s s' : BState} {i : Nat}
    {matName : String} {mat : BMaterial}
    (hidx : s.slots[i]? = some matName)
    (hfind : findMat s.materials matName = some mat)
    (hbake : mat.bake = true)
    (h : bstep fp bt cn original s i = .ok s') :
    s'.combine = s.combine ∧
    ((mat.textures = none ∧ s'.renders = s.renders) ∨
     (∃ tg r, mat.textures = some tg ∧ s'.renders = s.renders ++ [r] ∧
        r.matName = matName ∧
        r.mixLinked = s.combine.mixLinked ∧
        r.mixValue = s.combine.mixValue ∧
        r.texOutputs = tg.texOutputs ∧
        (bt = "normal" → tg.texOutputs = true → r.outLink = some "textures") ∧
        (bt ≠ "normal" → r.shadeValue = none ∨ r.shadeValue = some 0) ∧
        r.resX = (if scanHighest tg.imgNodes ≠ [] then
                    ((scanHighest tg.imgNodes).getD 0 0 : ℚ) * s.bakeMult else 64) ∧
        r.resY = (if scanHighest tg.imgNodes ≠ [] then
                    ((scanHighest tg.imgNodes).getD 1 0 : ℚ) * s.bakeMult else 64))) := by
  unfold bstep at h
  simp only [hidx, hfind] at h
  rw [if_neg (by simp [hbake])] at h
  cases h1 : bstepPre bt matName mat s with
  | error e => rw [h1] at h; simp [Except.bind] at h
  | ok t1 =>
    rw [h1] at h
    simp only [Except.bind] at h
    cases h2 : bstepRender fp bt cn matName mat t1 with
    | error e => rw [h2] at h; simp at h
    | ok t2 =>
      rw [h2] at h
      simp only at h
      cases h3 : bstepPost bt matName mat t2 with
      | error e => rw [h3] at h; simp at h
      | ok t3 =>
        rw [h3] at h
        simp only at h
        cases h4 : restoreSlotsAux t3.materials original 0 t3.slots with
        | error e => rw [h4] at h; simp [Except.map] at h
        | ok slots' =>
          rw [h4] at h
          simp only [Except.map, Except.ok.injEq] at h
          subst h
          have hcomb : t3.combine = s.combine := by
            rw [(bstepPost_frame h3).2.1, (bstepRender_frame h2).2.1, (bstepPre_frame h1).2.1]
          refine ⟨hcomb, ?_⟩
          have hrend3 : t3.renders = t2.renders := (bstepPost_frame h3).2.2.1
          have hrend1 : t1.renders = s.renders := (bstepPre_frame h1).2.2.1
          have hcomb1 : t1.combine = s.combine := (bstepPre_frame h1).2.1
          rcases bstepRender_spec h2 with ⟨htgnone, ht2⟩ | ⟨matNow, tgNow, slots₂, hfindNow, htgNow, ht2⟩
          · subst ht2
            exact Or.inl ⟨htgnone, by rw [hrend3, hrend1]⟩
          · subst ht2
            -- determine matNow and tgNow from what bstepPre did
            rcases bstepPre_spec h1 with ⟨ht1, hinfo⟩ | ⟨tg, htg, hcase⟩
            · rcases hinfo with hnone | ⟨tg, htg, hsub⟩
              · rw [ht1, hfind] at hfindNow
                have hm : matNow = mat := (Option.some.inj hfindNow).symm
                rw [hm, hnone] at htgNow
                cases htgNow
              · rw [ht1, hfind] at hfindNow
                have hm : matNow = mat := (Option.some.inj hfindNow).symm
                have htgn : mat.textures = some tgNow := by rw [← hm]; exact htgNow
                have htge : tgNow = tg := by
                  rw [htg] at htgn
                  exact (Option.some.inj htgn).symm
                subst htge
                subst ht1
                refine Or.inr ⟨tgNow,
                  renderRecord fp bt matName mat.name matNow tgNow (setResolution tgNow t1),
                  htg, ?_, rfl, ?_, ?_, rfl, ?_, ?_, ?_, ?_⟩
                · rw [hrend3, renderCore_renders, setResolution_renders]
                · simp [renderRecord]
                · simp [renderRecord]
                · intro hbtn hout
                  rcases hsub with ⟨hbt', _⟩ | ⟨_, hout'⟩
                  · exact absurd hbtn hbt'
                  · rw [hout] at hout'
                    cases hout'
                · intro hbtn
                  rcases hsub with ⟨_, hsh⟩ | ⟨hbt', _⟩
                  · exact Or.inl (by simp [renderRecord, hsh])
                  · exact absurd hbt' hbtn
                · exact setResolution_resX tgNow t1
                · exact setResolution_resY tgNow t1
            · rcases hcase with ⟨hbt, hsh, ht1⟩ | ⟨hbt, hout, ht1⟩
              · -- shade muted for a non-normal pass
                subst ht1
                have hfindNow' :
                    findMat (updateMat s.materials matName (setShade (some 0))) matName =
                      some matNow := hfindNow
                rw [findMat_updateMat _ _ _ (setShade_name (some 0)), hfind] at hfindNow'
                have hm : matNow = setShade (some 0) mat := by
                  simpa using hfindNow'.symm
                have htgn : (setShade (some 0) mat).textures = some tgNow := by
                  rw [← hm]
                  exact htgNow
                rw [show (setShade (some 0) mat).textures =
                      mat.textures.map (fun tgx => { tgx with shade := some 0 }) from rfl,
                    htg] at htgn
                have htge : tgNow = { tg with shade := some 0 } := by
                  simpa using htgn.symm
                refine Or.inr ⟨tg,
                  renderRecord fp bt matName mat.name matNow tgNow
                    (setResolution tgNow { s with
                      materials := updateMat s.materials matName (setShade (some 0)) }),
                  htg, ?_, rfl, ?_, ?_, ?_, ?_, ?_, ?_, ?_⟩
                · rw [hrend3, renderCore_renders, setResolution_renders]
                · simp [renderRecord]
                · simp [renderRecord]
                · simp [renderRecord, htge]
                · intro hbtn
                  exact absurd hbtn hbt
                · intro _
                  exact Or.inr (by simp [renderRecord, htge])
                · rw [show (renderRecord fp bt matName mat.name matNow tgNow
                        (setResolution tgNow { s with
                          materials := updateMat s.materials matName (setShade (some 0)) })).resX =
                      (setResolution tgNow { s with
                        materials := updateMat s.materials matName (setShade (some 0)) }).resX
                      from rfl,
                    setResolution_resX, htge]
                · rw [show (renderRecord fp bt matName mat.name matNow tgNow
                        (setResolution tgNow { s with
                          materials := updateMat s.materials matName (setShade (some 0)) })).resY =
                      (setResolution tgNow { s with
                        materials := updateMat s.materials matName (setShade (some 0)) }).resY
                      from rfl,
                    setResolution_resY, htge]
              · -- normal pass: output rerouted to the textures passthrough
                subst ht1
                have hfindNow' :
                    findMat (updateMat s.materials matName (setOutLink (some "textures"))) matName =
                      some matNow := hfindNow
                rw [findMat_updateMat _ _ _ (setOutLink_name (some "textures")), hfind] at hfindNow'
                have hm : matNow = setOutLink (some "textures") mat := by
                  simpa using hfindNow'.symm
                have htgn : mat.textures = some tgNow := by
                  have := htgNow
                  rw [hm] at this
                  exact this
                have htge : tgNow = tg := by
                  rw [htg] at htgn
                  exact (Option.some.inj htgn).symm
                subst htge
                refine Or.inr ⟨tgNow,
                  renderRecord fp bt matName mat.name matNow tgNow
                    (setResolution tgNow { s with
                      materials := updateMat s.materials matName (setOutLink (some "textures")) }),
                  htg, ?_, rfl, ?_, ?_, ?_, ?_, ?_, ?_, ?_⟩
                · rw [hrend3, renderCore_renders, setResolution_renders]
                · simp [renderRecord]
                · simp [renderRecord]
                · rfl
                · intro _ _
                  simp [renderRecord, hm, setOutLink]
                · intro hbtn
                  exact absurd hbt hbtn
                · exact setResolution_resX tgNow _
                · exact setResolution_resY tgNow _

/-- The highest-resolution scan of lines 176-182 either stays at `[0, 0]`
(every image input has zero pixel count) or returns the size of an image
input with maximal pixel count. -/
theorem scanHighest_spec (nodes : List BImgNode) :
    (scanHighest nodes = [0, 0] ∧
       ∀ nd ∈ nodes, nd.nodeType = "TEX_IMAGE" → ∀ img, nd.image = some img →
         img.w * img.h = 0) ∨
    (∃ w h, scanHighest nodes = [w, h] ∧ 0 < w * h ∧
       (∃ nd ∈ nodes, nd.nodeType = "TEX_IMAGE" ∧ nd.image = some ⟨w, h⟩) ∧
       (∀ nd ∈ nodes, nd.nodeType = "TEX_IMAGE" → ∀ img, nd.image = some img →
         img.w * img.h ≤ w * h)) := by
  induction nodes using List.reverseRecOn with
  | nil =>
    left
    exact ⟨rfl, by simp⟩
  | append_singleton l nd ih =>
    have happ : scanHighest (l ++ [nd]) =
        (if nd.nodeType = "TEX_IMAGE" then
           match nd.image with
           | some img =>
             if (scanHighest l).getD 0 0 * (scanHighest l).getD 1 0 < img.w * img.h then
               [img.w, img.h]
             else scanHighest l
           | none => scanHighest l
         else scanHighest l) := by
      unfold scanHighest
      rw [List.foldl_append]
      rfl
    by_cases hnt : nd.nodeType = "TEX_IMAGE"
    · cases hi : nd.image with
      | none =>
        have happ2 : scanHighest (l ++ [nd]) = scanHighest l := by
          rw [happ, if_pos hnt, hi]
        rw [happ2]
        rcases ih with ⟨hz, hall⟩ | ⟨w, h, hscan, hpos, hmem, hmax⟩
        · left
          refine ⟨hz, ?_⟩
          intro x hx hxt img hximg
          rcases List.mem_append.mp hx with hx | hx
          · exact hall x hx hxt img hximg
          · have : x = nd := by simpa using hx
            subst this
            rw [hi] at hximg
            cases hximg
        · right
          refine ⟨w, h, hscan, hpos, ?_, ?_⟩
          · obtain ⟨y, hy, hyt, hyi⟩ := hmem
            exact ⟨y, List.mem_append.mpr (Or.inl hy), hyt, hyi⟩
          · intro x hx hxt img hximg
            rcases List.mem_append.mp hx with hx | hx
            · exact hmax x hx hxt img hximg
            · have : x = nd := by simpa using hx
              subst this
              rw [hi] at hximg
              cases hximg
      | some img =>
        have happ2 : scanHighest (l ++ [nd]) =
            if (scanHighest l).getD 0 0 * (scanHighest l).getD 1 0 < img.w * img.h then
              [img.w, img.h]
            else scanHighest l := by
          rw [happ, if_pos hnt, hi]
        by_cases hcmp : (scanHighest l).getD 0 0 * (scanHighest l).getD 1 0 < img.w * img.h
        · rw [happ2, if_pos hcmp]
          right
          refine ⟨img.w, img.h, rfl, ?_, ?_, ?_⟩
          · omega
          · exact ⟨nd, List.mem_append.mpr (Or.inr (by simp)), hnt, by rw [hi]⟩
          · intro x hx hxt img2 hximg2
            rcases List.mem_append.mp hx with hx | hx
            · rcases ih with ⟨hz, hall⟩ | ⟨w, h, hscan, hpos, hmem, hmax⟩
              · have := hall x hx hxt img2 hximg2
                omega
              · have hb := hmax x hx hxt img2 hximg2
                rw [hscan] at hcmp
                simp only [List.getD] at hcmp
                simp at hcmp
                omega
            · have : x = nd := by simpa using hx
              subst this
              rw [hi] at hximg2
              have : img = img2 := by simpa using hximg2
              subst this
              exact le_refl _
        · rw [happ2, if_neg hcmp]
          rcases ih with ⟨hz, hall⟩ | ⟨w, h, hscan, hpos, hmem, hmax⟩
          · left
            refine ⟨hz, ?_⟩
            intro x hx hxt img2 hximg2
            rcases List.mem_append.mp hx with hx | hx
            · exact hall x hx hxt img2 hximg2
            · have : x = nd := by simpa using hx
              subst this
              rw [hi] at hximg2
              have : img = img2 := by simpa using hximg2
              subst this
              rw [hz] at hcmp
              have h0 : (([0, 0] : List Nat).getD 0 0 * ([0, 0] : List Nat).getD 1 0) = 0 := rfl
              rw [h0] at hcmp
              exact Nat.eq_zero_of_not_pos hcmp
          · right
            refine ⟨w, h, hscan, hpos, ?_, ?_⟩
            · obtain ⟨y, hy, hyt, hyi⟩ := hmem
              exact ⟨y, List.mem_append.mpr (Or.inl hy), hyt, hyi⟩
            · intro x hx hxt img2 hximg2
              rcases List.mem_append.mp hx with hx | hx
              · exact hmax x hx hxt img2 hximg2
              · have : x = nd := by simpa using hx
                subst this
                rw [hi] at hximg2
                have : img = img2 := by simpa using hximg2
                subst this
                rw [hscan] at hcmp
                simp only [List.getD] at hcmp
                simp at hcmp
                omega
    · rw [happ, if_neg hnt]
      rcases ih with ⟨hz, hall⟩ | ⟨w, h, hscan, hpos, hmem, hmax⟩
      · left
        refine ⟨hz, ?_⟩
        intro x hx hxt img hximg
        rcases List.mem_append.mp hx with hx | hx
        · exact hall x hx hxt img hximg
        · have : x = nd := by simpa using hx
          subst this
          exact absurd hxt hnt
      · right
        refine ⟨w, h, hscan, hpos, ?_, ?_⟩
        · obtain ⟨y, hy, hyt, hyi⟩ := hmem
          exact ⟨y, List.mem_append.mpr (Or.inl hy), hyt, hyi⟩
        · intro x hx hxt img hximg
          rcases List.mem_append.mp hx with hx | hx
          · exact hmax x hx hxt img hximg
          · have : x = nd := by simpa using hx
            subst this
            exact absurd hxt hnt

/-! ## Claim C9: untagged materials are skipped without any effect -/

/-- **C9**: when the material in slot `i` lacks the `bake` tag, the loop
iteration of `bake_pass` only logs the skip message of line 155: no
render (hence no output file) is produced, and neither the slots, nor the
material registry, nor any sibling is touched. -/
theorem bake_skips_untagged_material {fp bt cn : String} {original : List String}
    {s : BState} {i : Nat} {matName : String} {mat : BMaterial}
    (hidx : s.slots[i]? = some matName)
    (hfind : findMat s.materials matName = some mat)
    (hb : mat.bake = false) :
    bstep fp bt cn original s i =
      .ok { s with logs := s.logs ++ [skipMsg mat.name] } ∧
    ({ s with logs := s.logs ++ [skipMsg mat.name] } : BState).renders = s.renders ∧
    ({ s with logs := s.logs ++ [skipMsg mat.name] } : BState).slots = s.slots ∧
    ({ s with logs := s.logs ++ [skipMsg mat.name] } : BState).materials = s.materials := by
  refine ⟨?_, rfl, rfl, rfl⟩
  unfold bstep
  simp only [hidx, hfind]
  rw [if_pos (by simp [hb])]

/-- Witness for C9 at a concrete state: slot 1 of `wState` holds the
untagged `MatSkip`. -/
theorem bake_skips_untagged_material_witness :
    bstep "out/" "light" "Chara" wState.slots wState 1 =
      .ok { wState with logs := wState.logs ++ [skipMsg wSkip.name] } :=
  (bake_skips_untagged_material (by rfl) (by rfl) (by rfl)).1

/-! ## Claim C5: render resolution for materials with image inputs -/

/-- **C5 (amended)**: for a bake-tagged material whose `textures` group
has an image input with a non-zero pixel count, the render resolution is
set to exactly `max_input_dimensions * multiplier` — the raw product of
lines 187-188, with no rounding up (`ceil`) applied — where the maximal
image is one of maximal pixel count among the group's image inputs. -/
theorem bake_resolution_is_product {fp bt cn : String} {original : List String}
    {s s' : BState} {i : Nat} {matName : String} {mat : BMaterial} {tg : BTextures}
    (h : bstep fp bt cn original s i = .ok s')
    (hidx : s.slots[i]? = some matName)
    (hfind : findMat s.materials matName = some mat)
    (hbake : mat.bake = true)
    (htg : mat.textures = some tg)
    (himg : ∃ nd ∈ tg.imgNodes, nd.nodeType = "TEX_IMAGE" ∧
              ∃ img, nd.image = some img ∧ 0 < img.w * img.h) :
    ∃ r, s'.renders = s.renders ++ [r] ∧
      ∃ (w hh : Nat), r.resX = (w : ℚ) * s.bakeMult ∧ r.resY = (hh : ℚ) * s.bakeMult ∧
        (∃ nd ∈ tg.imgNodes, nd.nodeType = "TEX_IMAGE" ∧ nd.image = some ⟨w, hh⟩) ∧
        (∀ nd ∈ tg.imgNodes, nd.nodeType = "TEX_IMAGE" → ∀ img, nd.image = some img →
          img.w * img.h ≤ w * hh) := by
  obtain ⟨-, hcase⟩ := bstep_main_spec hidx hfind hbake h
  rcases hcase with ⟨hnone, _⟩ | ⟨tg2, r, htg2, hrend, _, _, _, _, _, _, hresX, hresY⟩
  · rw [htg] at hnone
    cases hnone
  · have htge : tg2 = tg := by
      rw [htg] at htg2
      exact (Option.some.inj htg2).symm
    subst htge
    rcases scanHighest_spec tg2.imgNodes with ⟨hz, hall⟩ | ⟨w, hh, hscan, hpos, hmem, hmax⟩
    · obtain ⟨nd, hndmem, hndt, img, hndi, hposn⟩ := himg
      have := hall nd hndmem hndt img hndi
      omega
    · refine ⟨r, hrend, w, hh, ?_, ?_, hmem, hmax⟩
      · rw [hresX, hscan]
        simp
      · rw [hresY, hscan]
        simp

/-- Witness for the amended C5 at a concrete state (3x5 image input,
multiplier 3/2). -/
theorem bake_resolution_is_product_witness :
    ∃ s' r, bstep "out/" "light" "Chara" fracState.slots fracState 0 = .ok s' ∧
      s'.renders = fracState.renders ++ [r] ∧
      ∃ (w hh : Nat), r.resX = (w : ℚ) * fracState.bakeMult ∧
        r.resY = (hh : ℚ) * fracState.bakeMult ∧
        (∃ nd ∈ fracTex.imgNodes, nd.nodeType = "TEX_IMAGE" ∧ nd.image = some ⟨w, hh⟩) := by
  obtain ⟨s', hs'⟩ : ∃ s', bstep "out/" "light" "Chara" fracState.slots fracState 0 = .ok s' :=
    ⟨_, rfl⟩
  obtain ⟨r, hrend, w, hh, hx, hy, hmem, -⟩ :=
    bake_resolution_is_product hs' rfl rfl rfl rfl
      ⟨fracNode, by simp [fracTex], rfl, { w := 3, h := 5 }, rfl, by decide⟩
  exact ⟨s', r, hs', hrend, w, hh, hx, hy, hmem⟩

/-- Counterexample to **C5** as stated: with a 3x5 input image and
multiplier 3/2 the code assigns `3 * (3/2) = 9/2` to the render width
(and `15/2` to the height), and `9/2` is not `ceil(9/2) = 5`: the claimed
rounding up does not happen. -/
theorem bake_resolution_no_ceil_counterexample :
    ∃ s', bake_pass "out/" "light" "Chara" fracState = .ok s' ∧
      s'.renders.map BRender.resX = [9 / 2] ∧
      s'.renders.map BRender.resY = [15 / 2] ∧
      ¬ ((9 : ℚ) / 2 = ((⌈(9 : ℚ) / 2⌉ : ℤ) : ℚ)) := by
  refine ⟨_, rfl, ?_, ?_, ?_⟩
  · norm_num [bake_pass, bstep, bstepPre, bstepRender, bstepPost, setResolution, renderCore,
      renderRecord, swapSiblingsAux, restoreSlotsAux, updateMat, setShade, setOutLink, findMat,
      scanHighest, skipMsg, fracState, fracMat, fracTex, fracNode, Except.map, Except.bind,
      List.foldlM, List.find?, List.range, List.range.loop]
    norm_num [List.cons_ne_nil]
  · norm_num [bake_pass, bstep, bstepPre, bstepRender, bstepPost, setResolution, renderCore,
      renderRecord, swapSiblingsAux, restoreSlotsAux, updateMat, setShade, setOutLink, findMat,
      scanHighest, skipMsg, fracState, fracMat, fracTex, fracNode, Except.map, Except.bind,
      List.foldlM, List.find?, List.range, List.range.loop]
    norm_num [List.cons_ne_nil]
  · have hceil : (⌈(9 : ℚ) / 2⌉ : ℤ) = 5 := by
      norm_num [Int.ceil_eq_iff]
    rw [hceil]
    norm_num

/-! ## Claim C1: the 64x64 failsafe is dead code -/

/-- **C1 is violated by the code** (code bug): for a bake-tagged material
whose `textures` group has no image input at all, the failsafe branch of
lines 189-193 is unreachable — `highest_resolution` is the *non-empty*
list `[0, 0]`, so the Python truthiness test of line 186 succeeds and the
render resolution is set to `0 * multiplier = 0`, not to the documented
64x64.  A render is still performed (an output file is produced), but at
assigned resolution 0 (the host clamps an assigned 0 to its minimum of 4
— still not 64). -/
theorem bake_pass_no_image_resolution_is_zero :
    ∃ s', bake_pass "out/" "light" "Chara" noImgState = .ok s' ∧
      s'.renders.map (fun r => (r.resX, r.resY)) = [(0, 0)] ∧
      s'.renders.map (fun r => (r.resX, r.resY)) ≠ [(64, 64)] := by
  refine ⟨_, rfl, ?_, ?_⟩
  · norm_num [bake_pass, bstep, bstepPre, bstepRender, bstepPost, setResolution, renderCore,
      renderRecord, swapSiblingsAux, restoreSlotsAux, updateMat, setShade, setOutLink, findMat,
      scanHighest, skipMsg, noImgState, noImgMat, Except.map, Except.bind,
      List.foldlM, List.find?, List.range, List.range.loop]
    norm_num [List.cons_ne_nil]
  · norm_num [bake_pass, bstep, bstepPre, bstepRender, bstepPost, setResolution, renderCore,
      renderRecord, swapSiblingsAux, restoreSlotsAux, updateMat, setShade, setOutLink, findMat,
      scanHighest, skipMsg, noImgState, noImgMat, Except.map, Except.bind,
      List.foldlM, List.find?, List.range, List.range.loop]
    norm_num [List.cons_ne_nil]
    norm_num [Prod.ext_iff]

/-! ## Claim C4: the light-level input is forced for every pass type -/

/-- Any successful loop iteration leaves the `.Combine colors` state
unchanged, and every render it appends sees the combine state current at
the start of the pass; in a `normal` pass a render of a material whose
`textures` group has outputs sees the rerouted output link. -/
theorem bstep_combine_renders {fp bt cn : String} {original : List String}
    {s s' : BState} {i : Nat}
    (h : bstep fp bt cn original s i = .ok s') :
    s'.combine = s.combine ∧
    ∀ r ∈ s'.renders, r ∈ s.renders ∨
      (r.mixLinked = s.combine.mixLinked ∧ r.mixValue = s.combine.mixValue ∧
       (bt = "normal" → r.texOutputs = true → r.outLink = some "textures")) := by
  have h0 := h
  unfold bstep at h0
  split at h0
  · cases h0
  · rename_i matName hidx
    split at h0
    · cases h0
    · rename_i mat hfind
      split at h0
      · simp only [Except.ok.injEq] at h0
        subst h0
        exact ⟨rfl, fun r hr => Or.inl hr⟩
      · rename_i hnb
        have hbake : mat.bake = true := by simpa using hnb
        obtain ⟨hc, hcase⟩ := bstep_main_spec hidx hfind hbake h
        refine ⟨hc, ?_⟩
        rcases hcase with ⟨-, hrend⟩ |
          ⟨tg, r0, -, hrend, -, hml, hmv, hto, hnorm, -, -, -⟩
        · intro r hr
          rw [hrend] at hr
          exact Or.inl hr
        · intro r hr
          rw [hrend] at hr
          rcases List.mem_append.mp hr with hr | hr
          · exact Or.inl hr
          · have : r = r0 := by simpa using hr
            subst this
            refine Or.inr ⟨hml, hmv, fun hbt hout => ?_⟩
            rw [hto] at hout
            exact hnorm hbt hout

/-- The whole material loop preserves the combine state and all new
renders see it. -/
theorem bakeLoop_combine_renders (fp bt cn : String) (original : List String) :
    ∀ (idxs : List Nat) (s s' : BState),
      List.foldlM (bstep fp bt cn original) s idxs = .ok s' →
      s'.combine = s.combine ∧
      ∀ r ∈ s'.renders, r ∈ s.renders ∨
        (r.mixLinked = s.combine.mixLinked ∧ r.mixValue = s.combine.mixValue ∧
         (bt = "normal" → r.texOutputs = true → r.outLink = some "textures")) := by
  intro idxs
  induction idxs with
  | nil =>
    intro s s' h
    simp only [List.foldlM, pure, Except.pure, Except.ok.injEq] at h
    subst h
    exact ⟨rfl, fun r hr => Or.inl hr⟩
  | cons j rest ih =>
    intro s s' h
    simp only [List.foldlM] at h
    cases h1 : bstep fp bt cn original s j with
    | error e => rw [h1] at h; simp [bind, Except.bind] at h
    | ok t =>
      rw [h1] at h
      simp only [bind, Except.bind] at h
      obtain ⟨hc1, hr1⟩ := bstep_combine_renders h1
      obtain ⟨hc2, hr2⟩ := ih t s' h
      refine ⟨hc2.trans hc1, ?_⟩
      intro r hr
      rcases hr2 r hr with hr' | hP
      · rcases hr1 r hr' with hr'' | hP'
        · exact Or.inl hr''
        · exact Or.inr hP'
      · rw [hc1] at hP
        exact Or.inr hP

/-- **C4 (amended)**: `bake_pass` detaches the driving link of the
`.Combine colors` mix (light-level) input and forces its value for *all*
three pass types — 1.0 for `light` and 0.0 for both `dark` and `normal`
(lines 147-149 run unconditionally, before the pass-type check suggested
by their comment) — and restores the link (lines 233-234) only after the
whole loop; every render performed during the pass sees the detached link
and the forced constant.  For `pass_type == normal` the material's
shading output is additionally rerouted to the `textures` group's last
output for the duration of the render (lines 169-172). -/
theorem bake_pass_forces_light_input_every_pass (fp bt cn : String) (s s' : BState)
    (h : bake_pass fp bt cn s = .ok s') :
    (∀ r ∈ s'.renders, r ∈ s.renders ∨
       (r.mixLinked = false ∧ r.mixValue = (if bt = "light" then 1 else 0) ∧
        (bt = "normal" → r.texOutputs = true → r.outLink = some "textures"))) ∧
    s'.combine.mixLinked = true ∧
    s'.combine.mixValue = (if bt = "light" then 1 else 0) := by
  unfold bake_pass at h
  split at h
  · cases h
  · simp only [] at h
    cases hf : List.foldlM (bstep fp bt cn s.slots)
        { s with combine := { mixLinked := false,
                              mixValue := if bt = "light" then 1 else 0 } }
        (List.range s.slots.length) with
    | error e => rw [hf] at h; simp [Except.map] at h
    | ok t =>
      rw [hf] at h
      simp only [Except.map, Except.ok.injEq] at h
      subst h
      obtain ⟨hc, hr⟩ := bakeLoop_combine_renders fp bt cn s.slots _ _ _ hf
      refine ⟨?_, rfl, ?_⟩
      · intro r hrm
        rcases hr r hrm with hin | hP
        · exact Or.inl hin
        · exact Or.inr hP
      · rw [show ({ t with combine :=
              { mixLinked := true, mixValue := t.combine.mixValue } } : BState).combine.mixValue =
            t.combine.mixValue from rfl, hc]

/-- Witness for the amended C4 at a concrete state (a `dark` pass). -/
theorem bake_pass_forces_light_input_every_pass_witness :
    ∃ s', bake_pass "out/" "dark" "Chara" wState = .ok s' ∧
      s'.combine.mixLinked = true ∧
      s'.combine.mixValue = (if "dark" = "light" then (1 : ℚ) else 0) := by
  obtain ⟨s', hs'⟩ : ∃ s', bake_pass "out/" "dark" "Chara" wState = .ok s' := ⟨_, rfl⟩
  obtain ⟨-, hB, hC⟩ := bake_pass_forces_light_input_every_pass _ _ _ _ _ hs'
  exact ⟨s', hs', hB, hC⟩

/-- Counterexample to **C4** as stated: in a `normal` pass the
`.Combine colors` mix input is *also* forced — at render time its driving
link is detached and its value is 0, while the claim says the forcing
happens only for the `light` and `dark` pass types. -/
theorem bake_pass_normal_also_forces_counterexample :
    ∃ s', bake_pass "out/" "normal" "Chara" wState = .ok s' ∧
      s'.renders.map (fun r => (r.mixLinked, r.mixValue, r.outLink)) =
        [(false, 0, some "textures")] := by
  refine ⟨_, rfl, ?_⟩
  norm_num [bake_pass, bstep, bstepPre, bstepRender, bstepPost, setResolution, renderCore,
    renderRecord, swapSiblingsAux, restoreSlotsAux, updateMat, setShade, setOutLink, findMat,
    scanHighest, skipMsg, wState, wMatA, wSkip, wPlaceholder, Except.map, Except.bind,
    List.foldlM, List.find?, List.range, List.range.loop]
  norm_num [List.cons_ne_nil]
  decide

/-- Witness for C2 at a concrete state. -/
theorem bake_pass_preserves_slots_witness :
    ∃ s', bake_pass "out/" "light" "Chara" wState = .ok s' ∧ s'.slots = wState.slots := by
  obtain ⟨s', hs'⟩ : ∃ s', bake_pass "out/" "light" "Chara" wState = .ok s' := ⟨_, rfl⟩
  exact ⟨s', hs', bake_pass_preserves_slots _ _ _ _ _ hs'⟩

/-! ## Claim C3: cleanup on an already-clean scene -/

/-- Counterexample to **C3** as stated: invoking `cleanup()` on an
already-clean scene (no camera, no fillerplane, no `Flattener`, no
flattening node-graph asset) is *not* an error-free no-op — line 260
unconditionally subscripts `bpy.data.node_groups['.Geometry Nodes']`,
which raises a `KeyError` because the asset is absent. -/
theorem cleanup_on_clean_scene_raises :
    cleanup cleanScene = .error "KeyError: bpy.data.node_groups['.Geometry Nodes']" := by
  rfl

theorem mapM_cleanupMesh_id (objs : List CObj)
    (h : ∀ o ∈ objs, ¬ (o.otype = "MESH" ∧ o.hasFlattener = true)) :
    objs.mapM cleanupMesh = .ok objs := by
  induction objs with
  | nil => rfl
  | cons o rest ih =>
    have ho : cleanupMesh o = .ok o := by
      unfold cleanupMesh
      rw [if_neg (h o (by simp))]
    have ht := ih (fun x hx => h x (List.mem_cons_of_mem o hx))
    simp only [List.mapM_cons, ho, ht, bind, Except.bind, pure, Except.pure]

/-- **C3 (amended)**: on a scene that is clean except possibly for the
flattening node-graph asset, `cleanup()` removes exactly that asset and
changes nothing else; when the asset is absent as well — the fully clean
scene of the claim — line 260 raises a `KeyError` instead of completing
as a no-op. -/
theorem cleanup_clean_scene_spec (s : CState)
    (hsel : s.selected = [])
    (hcam : ∀ o ∈ s.objects, o.otype ≠ "CAMERA")
    (hfill : ∀ o ∈ s.objects, hasSub "fillerplane".data o.name.data = false)
    (hflat : ∀ o ∈ s.objects, ¬ (o.otype = "MESH" ∧ o.hasFlattener = true))
    (hmesh : ∀ b ∈ s.meshBlocks, b.2 ≠ 0)
    (hcamb : ∀ b ∈ s.camBlocks, b.2 ≠ 0) :
    (".Geometry Nodes" ∈ s.nodeGroups →
       cleanup s = .ok { s with nodeGroups := s.nodeGroups.erase ".Geometry Nodes" }) ∧
    (".Geometry Nodes" ∉ s.nodeGroups →
       cleanup s = .error "KeyError: bpy.data.node_groups['.Geometry Nodes']") := by
  have hpre : cleanupScenePrefix s = s := by
    unfold cleanupScenePrefix
    have h1 : s.objects.filter (fun o => o.otype ≠ "CAMERA") = s.objects := by
      rw [List.filter_eq_self]
      intro a ha
      simpa using hcam a ha
    have h2 : (s.objects.filter (fun o => o.otype ≠ "CAMERA")).filter
        (fun o => ¬ hasSub "fillerplane".data o.name.data) = s.objects := by
      rw [h1, List.filter_eq_self]
      intro a ha
      simpa using hfill a ha
    have h3 : s.meshBlocks.filter (fun b => b.2 ≠ 0) = s.meshBlocks := by
      rw [List.filter_eq_self]
      intro a ha
      simpa using hmesh a ha
    have h4 : s.camBlocks.filter (fun b => b.2 ≠ 0) = s.camBlocks := by
      rw [List.filter_eq_self]
      intro a ha
      simpa using hcamb a ha
    rw [h2, h3, h4, ← hsel]
  have hmap : s.objects.mapM cleanupMesh = .ok s.objects :=
    mapM_cleanupMesh_id s.objects hflat
  constructor
  · intro hin
    unfold cleanup
    rw [hpre, hmap]
    simp only [bind, Except.bind]
    rw [if_pos hin]
  · intro hout
    unfold cleanup
    rw [hpre, hmap]
    simp only [bind, Except.bind]
    rw [if_neg hout]

/-- Witness for the amended C3: a clean scene that still has the
`.Geometry Nodes` group loses exactly that group. -/
theorem cleanup_clean_scene_spec_witness :
    cleanup { cleanScene with nodeGroups := [".Geometry Nodes"] } =
      .ok { cleanScene with
            nodeGroups := ([".Geometry Nodes"] : List String).erase ".Geometry Nodes" } := by
  have h := (cleanup_clean_scene_spec { cleanScene with nodeGroups := [".Geometry Nodes"] }
      rfl (by decide) (by decide) (by decide) (by decide) (by decide)).1 (by decide)
  exact h

/-! ## Claim C10: setup_camera leaves exactly one orthographic camera -/

theorem freshName_of_not_mem (taken : List String) (base : String)
    (h : base ∉ taken) : freshName taken base = base := by
  unfold freshName freshNameAux
  simp [h]

/-- **C10**: `setup_camera` deletes every pre-existing camera object
(lines 27-32), removes the then-orphaned camera data blocks (lines
33-35) and creates a fresh camera, so afterwards the scene contains
exactly one camera object, that object is the scene's active camera, and
its data block is orthographic with `ortho_scale` 6 — including when the
scene contained user-created cameras beforehand.  Hypothesis: no
surviving non-camera object is named `Camera` (the code looks the new
data block up under the *object* name, lines 44-45, so an object-name
collision would shift the fresh object name away from the fresh data
name and raise a `KeyError`). -/
theorem setup_camera_spec (s : CamState)
    (hname : ∀ o ∈ s.objects, o.otype ≠ "CAMERA" → o.name ≠ "Camera") :
    ∃ s' camName, setup_camera s = .ok (s', camName) ∧
      (s'.objects.filter (fun o => o.otype = "CAMERA")).length = 1 ∧
      (∀ o ∈ s'.objects, o.otype = "CAMERA" → o.name = camName) ∧
      s'.sceneCamera = some camName ∧
      ∃ d ∈ s'.cameras, d.name = camName ∧ d.camType = "ORTHO" ∧ d.orthoScale = 6 := by
  have hobj1 : (purgeCamData (deleteCameras s)).objects =
      s.objects.filter (fun o => o.otype ≠ "CAMERA") := rfl
  have hcams : (purgeCamData (deleteCameras s)).cameras = [] := by
    unfold purgeCamData
    rw [List.filter_eq_nil]
    intro d hd
    simp only [decide_eq_true_eq, Decidable.not_not]
    unfold camUsers
    rw [List.length_eq_zero, List.filter_eq_nil]
    intro o ho
    have ho2 := List.mem_filter.mp ho
    simp only [decide_eq_true_eq] at ho2 ⊢
    intro hco
    exact ho2.2 hco.1
  have hdata : freshName ((purgeCamData (deleteCameras s)).cameras.map CamData.name)
      "Camera" = "Camera" := by
    rw [hcams]
    exact freshName_of_not_mem [] _ (by simp)
  have hobjfresh : freshName ((purgeCamData (deleteCameras s)).objects.map SObj.name)
      "Camera" = "Camera" := by
    apply freshName_of_not_mem
    intro hmem
    obtain ⟨o, ho, hno⟩ := List.mem_map.mp hmem
    rw [hobj1] at ho
    have ho2 := List.mem_filter.mp ho
    exact hname o ho2.1 (by simpa using ho2.2) hno
  refine ⟨{ purgeCamData (deleteCameras s) with
             objects := (purgeCamData (deleteCameras s)).objects ++
               [({ name := "Camera", otype := "CAMERA", dataName := "Camera" } : SObj)],
             cameras := (((purgeCamData (deleteCameras s)).cameras ++
               [({ name := "Camera", camType := "PERSP", orthoScale := 6 } : CamData)]).map
                 (fun d : CamData => if d.name = "Camera" then
                     { d with camType := "ORTHO", orthoScale := 6 }
                   else d)),
             selected := ["Camera"],
             sceneCamera := some "Camera",
             pixelAspectX := 1, pixelAspectY := 1 }, "Camera", ?_, ?_, ?_, ?_, ?_⟩
  · unfold setup_camera addCamera
    rw [hobjfresh, hdata, hcams]
    simp [List.contains]
  · show ((((purgeCamData (deleteCameras s)).objects ++
        [({ name := "Camera", otype := "CAMERA", dataName := "Camera" } : SObj)]).filter
        (fun o : SObj => o.otype = "CAMERA")).length) = 1
    rw [List.filter_append]
    have hnil : ((purgeCamData (deleteCameras s)).objects.filter
        (fun o => o.otype = "CAMERA")) = [] := by
      rw [List.filter_eq_nil_iff]
      intro o ho
      rw [hobj1] at ho
      have ho2 := List.mem_filter.mp ho
      simp only [decide_eq_true_eq] at ho2 ⊢
      exact ho2.2
    rw [hnil]
    rfl
  · intro o ho hoc
    rcases List.mem_append.mp ho with ho | ho
    · rw [hobj1] at ho
      have ho2 := List.mem_filter.mp ho
      simp only [decide_eq_true_eq] at ho2
      exact absurd hoc ho2.2
    · have : o = ({ name := "Camera", otype := "CAMERA", dataName := "Camera" } : SObj) := by
        simpa using ho
      rw [this]
  · rfl
  · refine ⟨({ name := "Camera", camType := "ORTHO", orthoScale := 6 } : CamData), ?_, rfl, rfl, rfl⟩
    show _ ∈ (((purgeCamData (deleteCameras s)).cameras ++
        [({ name := "Camera", camType := "PERSP", orthoScale := 6 } : CamData)]).map
        (fun d : CamData => if d.name = "Camera" then { d with camType := "ORTHO", orthoScale := 6 }
                  else d))
    rw [hcams]
    simp

/-- Witness for C10 at a scene holding two user cameras and a mesh. -/
theorem setup_camera_spec_witness :
    ∃ s' camName, setup_camera camScene = .ok (s', camName) ∧
      (s'.objects.filter (fun o => o.otype = "CAMERA")).length = 1 ∧
      (∀ o ∈ s'.objects, o.otype = "CAMERA" → o.name = camName) ∧
      s'.sceneCamera = some camName ∧
      ∃ d ∈ s'.cameras, d.name = camName ∧ d.camType = "ORTHO" ∧ d.orthoScale = 6 :=
  setup_camera_spec camScene (by decide)

/-! ## Claim C8: the driver catches every pipeline exception -/

/-- **C8**: any exception raised anywhere in the pipeline body of
`execute` is caught by the operator's single top-level handler (lines
658-663): the traceback is logged in full, the traceback is reported to
the invoking user interface as an `ERROR`, the viewport shading is
restored to `SOLID`, and `{'CANCELLED'}` is returned instead of the
exception propagating. -/
theorem execute_catches_all (body : DriverState → Except (String × DriverState) DriverState)
    (s : DriverState) (e : String) (se : DriverState)
    (h : body s = .error (e, se)) :
    (executeDriver body s).status = "CANCELLED" ∧
    (executeDriver body s).viewport = "SOLID" ∧
    ("ERROR", tracebackText e) ∈ (executeDriver body s).reports ∧
    tracebackText e ∈ (executeDriver body s).logs := by
  unfold executeDriver
  rw [h]
  exact ⟨rfl, rfl, by simp, by simp⟩

/-- Witness for C8: a body that raises at once. -/
theorem execute_catches_all_witness :
    (executeDriver (fun st => .error ("boom", st)) { viewport := "RENDERED", logs := [] }).status
        = "CANCELLED" ∧
    (executeDriver (fun st => .error ("boom", st)) { viewport := "RENDERED", logs := [] }).viewport
        = "SOLID" :=
  ⟨(execute_catches_all _ _ "boom" _ rfl).1, (execute_catches_all _ _ "boom" _ rfl).2.1⟩

/-! ## String lemmas for the rebind proofs -/

theorem orgPat_chars : orgPat = ['-', 'O', 'R', 'G'] := rfl

theorem stripORGChars_cons_ne (c1 c2 c3 c4 : Char) (rest : List Char)
    (h : ¬ [c1, c2, c3, c4] = orgPat) :
    stripORGChars (c1 :: c2 :: c3 :: c4 :: rest) =
      c1 :: stripORGChars (c2 :: c3 :: c4 :: rest) := by
  rw [stripORGChars, if_neg h]

theorem stripORGChars_cons_eq (c1 c2 c3 c4 : Char) (rest : List Char)
    (h : [c1, c2, c3, c4] = orgPat) :
    stripORGChars (c1 :: c2 :: c3 :: c4 :: rest) = stripORGChars rest := by
  rw [stripORGChars, if_pos h]

theorem startsWithChars_refl (l : List Char) : startsWithChars l l = true := by
  induction l with
  | nil => rfl
  | cons c rest ih => simp [startsWithChars, ih]

theorem hasSub_self (pat : List Char) (h : pat ≠ []) : hasSub pat pat = true := by
  cases pat with
  | nil => exact absurd rfl h
  | cons c rest => simp [hasSub, startsWithChars_refl]

theorem hasSub_append_left (pat xs l : List Char) (h : hasSub pat l = true) :
    hasSub pat (xs ++ l) = true := by
  induction xs with
  | nil => simpa using h
  | cons c rest ih => simp [hasSub, ih]

theorem hasSub_org_suffix (b : String) : hasSub orgPat (b ++ "-ORG").data = true := by
  rw [String.data_append]
  exact hasSub_append_left _ _ _ (hasSub_self _ (by decide))

theorem ne_org_suffix_of_free {x b : String} (hx : ORGfree x) : x ≠ b ++ "-ORG" := by
  intro h
  unfold ORGfree at hx
  rw [h, hasSub_org_suffix] at hx
  cases hx

theorem startsWith_orgPat_iff (c1 c2 c3 c4 : Char) (t : List Char) :
    startsWithChars orgPat (c1 :: c2 :: c3 :: c4 :: t) = true ↔
      [c1, c2, c3, c4] = orgPat := by
  rw [orgPat_chars]
  constructor
  · intro h
    simp only [startsWithChars, Bool.and_eq_true, beq_iff_eq, Bool.and_true] at h
    obtain ⟨h1, h2, h3, h4⟩ := h
    subst h1
    subst h2
    subst h3
    subst h4
    rfl
  · intro h
    injection h with h1 h
    injection h with h2 h
    injection h with h3 h
    injection h with h4 h
    subst h1
    subst h2
    subst h3
    subst h4
    rfl

theorem stripORGChars_eq_self (l : List Char) (h : hasSub orgPat l = false) :
    stripORGChars l = l := by
  induction l using stripORGChars.induct with
  | case1 c1 c2 c3 c4 rest hguard ih =>
    exfalso
    have hsw : startsWithChars orgPat (c1 :: c2 :: c3 :: c4 :: rest) = true :=
      (startsWith_orgPat_iff c1 c2 c3 c4 rest).mpr hguard
    unfold hasSub at h
    simp [hsw] at h
  | case2 c1 c2 c3 c4 rest hguard ih =>
    have htail : hasSub orgPat (c2 :: c3 :: c4 :: rest) = false := by
      unfold hasSub at h
      exact (Bool.or_eq_false_iff.mp h).2
    unfold stripORGChars
    rw [if_neg (by simpa using hguard)]
    rw [ih htail]
  | case3 l hshape =>
    unfold stripORGChars
    split
    · rename_i c1 c2 c3 c4 rest
      exact absurd rfl (hshape c1 c2 c3 c4 rest)
    · rfl

theorem stripORGChars_append_org (b : List Char) (h : hasSub orgPat b = false) :
    stripORGChars (b ++ orgPat) = b := by
  induction b with
  | nil => rfl
  | cons c bt ih =>
    have htail : hasSub orgPat bt = false := by
      unfold hasSub at h
      exact (Bool.or_eq_false_iff.mp h).2
    match bt with
    | [] =>
      rw [show (([c] ++ orgPat : List Char)) = c :: '-' :: 'O' :: 'R' :: 'G' :: [] from rfl]
      rw [stripORGChars_cons_ne _ _ _ _ _ (by simp [orgPat_chars])]
      rfl
    | [d] =>
      rw [show (([c, d] ++ orgPat : List Char)) =
            c :: d :: '-' :: 'O' :: 'R' :: 'G' :: [] from rfl]
      rw [stripORGChars_cons_ne _ _ _ _ _ (by simp [orgPat_chars])]
      rw [stripORGChars_cons_ne _ _ _ _ _ (by simp [orgPat_chars])]
      rfl
    | [d, e] =>
      rw [show (([c, d, e] ++ orgPat : List Char)) =
            c :: d :: e :: '-' :: 'O' :: 'R' :: 'G' :: [] from rfl]
      rw [stripORGChars_cons_ne _ _ _ _ _ (by simp [orgPat_chars])]
      rw [stripORGChars_cons_ne _ _ _ _ _ (by simp [orgPat_chars])]
      rw [stripORGChars_cons_ne _ _ _ _ _ (by simp [orgPat_chars])]
      rfl
    | d :: e :: f :: bt3 =>
      have hguard : ¬ [c, d, e, f] = orgPat := by
        intro hg
        have hsw : startsWithChars orgPat (c :: d :: e :: f :: bt3) = true :=
          (startsWith_orgPat_iff c d e f bt3).mpr hg
        unfold hasSub at h
        simp [hsw] at h
      rw [show (((c :: d :: e :: f :: bt3) ++ orgPat : List Char)) =
            c :: d :: e :: f :: (bt3 ++ orgPat) from rfl]
      rw [stripORGChars_cons_ne _ _ _ _ _ hguard]
      rw [show ((d :: e :: f :: (bt3 ++ orgPat) : List Char)) =
            (d :: e :: f :: bt3) ++ orgPat from rfl]
      rw [ih htail]

theorem stripORG_eq_self {nm : String} (h : ORGfree nm) : stripORG nm = nm := by
  unfold stripORG
  rw [stripORGChars_eq_self nm.data h]

theorem stripORG_append_org {b : String} (h : ORGfree b) :
    stripORG (b ++ "-ORG") = b := by
  unfold stripORG
  rw [String.data_append, show "-ORG".data = orgPat from rfl,
      stripORGChars_append_org b.data h]

theorem append_org_inj {a b : String} (h : a ++ "-ORG" = b ++ "-ORG") : a = b := by
  have hd := congrArg String.data h
  rw [String.data_append, String.data_append] at hd
  have := List.append_cancel_right hd
  cases a
  cases b
  exact congrArg String.mk this

theorem ne_append_of_ne_nil (n y : String) (hy : y.data ≠ []) : n ++ y ≠ n := by
  intro h
  have hd := congrArg (fun x : String => x.data.length) h
  simp only [String.data_append, List.length_append] at hd
  have : y.data.length ≠ 0 := fun h0 => hy (List.length_eq_zero.mp h0)
  omega

theorem ne_append_org (n : String) : n ++ "-ORG" ≠ n :=
  ne_append_of_ne_nil n "-ORG" (by decide)

theorem lastFour_append (x y : String) (h : 4 ≤ y.data.length) :
    lastFour (x ++ y) = lastFour y := by
  unfold lastFour
  rw [String.data_append, List.reverse_append,
      List.take_append_of_le_length (by simpa using h)]

theorem imageKeyName_lastFour (n bt : String) : lastFour (imageKeyName n bt) = ".png".data := by
  unfold imageKeyName
  rw [lastFour_append _ ".png" (by decide)]
  rfl

theorem key_ne_dot001 (n bt : String) : lastFour (imageKeyName n bt) ≠ ".001".data := by
  rw [imageKeyName_lastFour]
  decide

theorem not_org_form_of_lastFour (x : String) (h : lastFour x ≠ "-ORG".data) :
    ∀ b, x ≠ b ++ "-ORG" := by
  intro b hb
  exact h (by rw [hb]; exact lastFour_append b "-ORG" (by decide))

theorem dropLastFour_append (x y : String) (h : y.data.length = 4) :
    dropLastFour (x ++ y) = x := by
  unfold dropLastFour
  rw [String.data_append]
  have hlen : (x.data ++ y.data).length - 4 = x.data.length := by
    simp [h]
  rw [hlen, List.take_left]

/-! ## Image and registry lookup lemmas -/

theorem findImage_some (images : List String) (key img : String)
    (h : findImage images key = some img) : img = key ∧ key ∈ images := by
  unfold findImage at h
  split at h
  · cases h
    exact ⟨rfl, by assumption⟩
  · cases h

theorem findImage_mem (images : List String) (key : String) (h : key ∈ images) :
    findImage images key = some key := by
  unfold findImage
  rw [if_pos h]

theorem findImage_not_mem (images : List String) (key : String) (h : key ∉ images) :
    findImage images key = none := by
  unfold findImage
  rw [if_neg h]

theorem findMatR_name {ms : List RMaterial} {n : String} {m : RMaterial}
    (h : findMatR ms n = some m) : m.name = n := by
  have := List.find?_some h
  simpa using this

theorem findMatR_mem {ms : List RMaterial} {n : String} {m : RMaterial}
    (h : findMatR ms n = some m) : m ∈ ms :=
  List.mem_of_find?_eq_some h

theorem findMatR_unique {ms : List RMaterial} {n : String} {m : RMaterial}
    (hnodup : (ms.map RMaterial.name).Nodup)
    (hf : findMatR ms n = some m) : ∀ m2 ∈ ms, m2.name = n → m2 = m := by
  induction ms with
  | nil => cases hf
  | cons a t ih =>
    simp only [List.map_cons, List.nodup_cons] at hnodup
    unfold findMatR at hf
    intro m2 hm2 hname
    by_cases ha : a.name = n
    · rw [List.find?_cons_of_pos _ (by simpa using ha)] at hf
      cases hf
      rcases List.mem_cons.mp hm2 with h2 | h2
      · exact h2
      · refine absurd ?_ hnodup.1
        rw [ha, ← hname]
        exact List.mem_map_of_mem RMaterial.name h2
    · rw [List.find?_cons_of_neg _ (by simpa using ha)] at hf
      rcases List.mem_cons.mp hm2 with h2 | h2
      · exact absurd (h2 ▸ hname) ha
      · exact ih hnodup.2 hf m2 h2 hname

theorem findMatR_map {g : RMaterial → RMaterial} (hg : ∀ m, (g m).name = m.name)
    (ms : List RMaterial) (n : String) :
    findMatR (ms.map g) n = (findMatR ms n).map g := by
  induction ms with
  | nil => rfl
  | cons a t ih =>
    unfold findMatR at *
    rw [List.map_cons]
    by_cases ha : a.name = n
    · rw [List.find?_cons_of_pos _ (by simp [hg, ha]),
          List.find?_cons_of_pos _ (by simp [ha])]
      rfl
    · rw [List.find?_cons_of_neg _ (by simp [hg, ha]),
          List.find?_cons_of_neg _ (by simp [ha])]
      exact ih

theorem updateMatR_map_eq (ms : List RMaterial) (n : String) (f : RMaterial → RMaterial) :
    updateMatR ms n f = ms.map (fun m => if m.name = n then f m else m) := rfl

theorem updateMatR_id (ms : List RMaterial) (n : String) (f : RMaterial → RMaterial)
    (h : ∀ m ∈ ms, m.name = n → f m = m) : updateMatR ms n f = ms := by
  induction ms with
  | nil => rfl
  | cons a t ih =>
    unfold updateMatR at *
    rw [List.map_cons]
    by_cases ha : a.name = n
    · rw [if_pos ha, h a (by simp) ha, ih (fun m hm => h m (by simp [hm]))]
    · rw [if_neg ha, ih (fun m hm => h m (by simp [hm]))]

theorem updateMatR_names (ms : List RMaterial) (n : String) (f : RMaterial → RMaterial)
    (hf : ∀ m, (f m).name = m.name) :
    (updateMatR ms n f).map RMaterial.name = ms.map RMaterial.name := by
  unfold updateMatR
  rw [List.map_map]
  apply List.map_congr_left
  intro m hm
  by_cases h : m.name = n <;> simp [h, hf]

theorem mem_updateMatR {ms : List RMaterial} {n : String} {f : RMaterial → RMaterial}
    {m : RMaterial} (hm : m ∈ ms) :
    (if m.name = n then f m else m) ∈ updateMatR ms n f :=
  List.mem_map_of_mem _ hm

theorem mem_updateMatR_inv {ms : List RMaterial} {n : String} {f : RMaterial → RMaterial}
    {m : RMaterial} (hm : m ∈ updateMatR ms n f) :
    ∃ m0 ∈ ms, m = (if m0.name = n then f m0 else m0) := by
  obtain ⟨m0, hm0, he⟩ := List.mem_map.mp hm
  exact ⟨m0, hm0, he.symm⟩

/-! ## Record-field lemmas for the material transformers -/

@[simp] theorem setTex_name (bt img : String) (m : RMaterial) :
    (setTex bt img m).name = m.name := by
  unfold setTex
  split <;> try rfl
  split <;> rfl

@[simp] theorem setTex_simple (bt img : String) (m : RMaterial) :
    (setTex bt img m).simple = m.simple := by
  unfold setTex
  split <;> try rfl
  split <;> rfl

@[simp] theorem setTex_bake (bt img : String) (m : RMaterial) :
    (setTex bt img m).bake = m.bake := by
  unfold setTex
  split <;> try rfl
  split <;> rfl

theorem setTex_self (bt img : String) (m : RMaterial) (h : texOf bt m = some img) :
    setTex bt img m = m := by
  unfold setTex texOf at *
  by_cases h1 : bt = "light"
  · rw [if_pos h1] at h ⊢
    rw [← h]
  · rw [if_neg h1] at h ⊢
    by_cases h2 : bt = "dark"
    · rw [if_pos h2] at h ⊢
      rw [← h]
    · rw [if_neg h2] at h ⊢
      rw [← h]

theorem texOf_setTex_self (bt img : String) (m : RMaterial) :
    texOf bt (setTex bt img m) = some img := by
  unfold setTex texOf
  by_cases h1 : bt = "light"
  · simp [h1]
  · by_cases h2 : bt = "dark" <;> simp [h1, h2]

theorem texOf_setTex_ne (bt bt2 img : String) (m : RMaterial)
    (hbt : bt = "light" ∨ bt = "dark" ∨ bt = "normal")
    (hbt2 : bt2 = "light" ∨ bt2 = "dark" ∨ bt2 = "normal")
    (hne : bt2 ≠ bt) :
    texOf bt2 (setTex bt img m) = texOf bt2 m := by
  rcases hbt with rfl | rfl | rfl <;> rcases hbt2 with rfl | rfl | rfl <;>
    first
      | exact absurd rfl hne
      | simp [setTex, texOf]

theorem texOf_setTex_cases (bt bt2 img k : String) (m : RMaterial)
    (h : texOf bt2 (setTex bt img m) = some k) :
    k = img ∨ texOf bt2 m = some k := by
  unfold setTex texOf at *
  by_cases h1 : bt = "light" <;> by_cases h2 : bt2 = "light" <;>
    by_cases h3 : bt = "dark" <;> by_cases h4 : bt2 = "dark" <;>
    simp only [h1, h2, h3, h4, if_pos, if_neg, if_true, if_false, reduceIte] at h ⊢ <;>
    simp_all

@[simp] theorem bindNewImages_name (bt img : String) (m : RMaterial) :
    (bindNewImages bt img m).name = m.name := by
  unfold bindNewImages
  split <;> simp

@[simp] theorem bindNewImages_bake (bt img : String) (m : RMaterial) :
    (bindNewImages bt img m).bake = m.bake := by
  unfold bindNewImages
  split <;> simp

@[simp] theorem bindNewImages_simple (bt img : String) (m : RMaterial) :
    (bindNewImages bt img m).simple = m.simple := by
  unfold bindNewImages
  split <;> simp

theorem texOf_bindNewImages_self (bt img : String) (m : RMaterial)
    (hbt : bt = "light" ∨ bt = "dark" ∨ bt = "normal") :
    texOf bt (bindNewImages bt img m) = some img := by
  unfold bindNewImages
  rcases hbt with rfl | rfl | rfl <;> simp [texOf, setTex]

theorem texOf_bindNewImages_cases (bt bt2 img k : String) (m : RMaterial)
    (h : texOf bt2 (bindNewImages bt img m) = some k) :
    k = img ∨ texOf bt2 m = some k := by
  unfold bindNewImages at h
  by_cases hl : bt = "light"
  · rw [if_pos hl] at h
    by_cases hd : bt2 = "dark"
    · subst hd
      subst hl
      simp [texOf] at h
      exact .inl h.symm
    · have h2 : texOf bt2 (setTex bt img m) = some k := by
        unfold texOf at h ⊢
        by_cases h2l : bt2 = "light"
        · rw [if_pos h2l] at h ⊢
          simpa using h
        · rw [if_neg h2l, if_neg hd] at h ⊢
          simpa [h2l, hd] using h
      exact texOf_setTex_cases bt bt2 img k m h2
  · rw [if_neg hl] at h
    exact texOf_setTex_cases bt bt2 img k m h

theorem bindNewImages_texDark_light (img : String) (m : RMaterial) :
    (bindNewImages "light" img m).texDark = some img := by
  unfold bindNewImages
  rw [if_pos rfl]

@[simp] theorem replaceMatFields_name (ew : Bool) (v : Nat) (om m : RMaterial) :
    (replaceMatFields ew v om m).name = m.name := by
  unfold replaceMatFields
  split <;> rfl

@[simp] theorem replaceMatFields_simple (ew : Bool) (v : Nat) (om m : RMaterial) :
    (replaceMatFields ew v om m).simple = true := by
  unfold replaceMatFields
  split <;> rfl

@[simp] theorem replaceMatFields_texLight (ew : Bool) (v : Nat) (om m : RMaterial) :
    (replaceMatFields ew v om m).texLight = m.texLight := by
  unfold replaceMatFields
  split <;> rfl

@[simp] theorem replaceMatFields_texDark (ew : Bool) (v : Nat) (om m : RMaterial) :
    (replaceMatFields ew v om m).texDark = m.texDark := by
  unfold replaceMatFields
  split <;> rfl

@[simp] theorem replaceMatFields_texNormal (ew : Bool) (v : Nat) (om m : RMaterial) :
    (replaceMatFields ew v om m).texNormal = m.texNormal := by
  unfold replaceMatFields
  split <;> rfl

theorem texOf_replaceMatFields (bt2 : String) (ew : Bool) (v : Nat) (om m : RMaterial) :
    texOf bt2 (replaceMatFields ew v om m) = texOf bt2 m := by
  unfold texOf
  split
  · simp
  · split <;> simp

/-! ## Rename and slot-list lemmas -/

theorem find_rename_other (ms : List RMaterial) (n n2 x : String)
    (hx : x ≠ n) (hx2 : x ≠ n2) :
    findMatR (updateMatR ms n (fun m => { m with name := n2 })) x = findMatR ms x := by
  induction ms with
  | nil => rfl
  | cons a t ih =>
    show findMatR ((if a.name = n then _ else a) :: updateMatR t n _) x = _
    by_cases ha : a.name = n
    · rw [if_pos ha]
      unfold findMatR
      rw [List.find?_cons_of_neg _ (by simp [Ne.symm hx2]),
          List.find?_cons_of_neg _ (by simp [ha, Ne.symm hx])]
      exact ih
    · rw [if_neg ha]
      by_cases hax : a.name = x
      · unfold findMatR
        rw [List.find?_cons_of_pos _ (by simp [hax]),
            List.find?_cons_of_pos _ (by simp [hax])]
      · unfold findMatR
        rw [List.find?_cons_of_neg _ (by simp [hax]),
            List.find?_cons_of_neg _ (by simp [hax])]
        exact ih

theorem find_rename_gone (ms : List RMaterial) (n n2 : String) (h : n2 ≠ n) :
    findMatR (updateMatR ms n (fun m => { m with name := n2 })) n = none := by
  induction ms with
  | nil => rfl
  | cons a t ih =>
    show findMatR ((if a.name = n then _ else a) :: updateMatR t n _) n = _
    by_cases ha : a.name = n
    · rw [if_pos ha]
      unfold findMatR
      rw [List.find?_cons_of_neg _ (by simp [h])]
      exact ih
    · rw [if_neg ha]
      unfold findMatR
      rw [List.find?_cons_of_neg _ (by simp [ha])]
      exact ih

theorem names_rename (ms : List RMaterial) (n n2 : String) :
    (updateMatR ms n (fun m => { m with name := n2 })).map RMaterial.name
      = (ms.map RMaterial.name).map (fun x => if x = n then n2 else x) := by
  unfold updateMatR
  rw [List.map_map, List.map_map]
  apply List.map_congr_left
  intro m hm
  by_cases h : m.name = n <;> simp [h]

theorem nodup_subst {l : List String} (n n2 : String) (hl : l.Nodup) (h2 : n2 ∉ l) :
    (l.map (fun x => if x = n then n2 else x)).Nodup := by
  refine List.Nodup.map_on ?_ hl
  intro x hx y hy hxy
  by_cases hxn : x = n <;> by_cases hyn : y = n
  · rw [hxn, hyn]
  · rw [if_pos hxn, if_neg hyn] at hxy
    exact absurd (hxy ▸ hy) h2
  · rw [if_neg hxn, if_pos hyn] at hxy
    exact absurd (hxy ▸ hx) h2
  · rwa [if_neg hxn, if_neg hyn] at hxy

theorem mem_subst_self {l : List String} {x n n2 : String} (hx : x ∈ l) (hxn : x ≠ n) :
    x ∈ l.map (fun y => if y = n then n2 else y) := by
  have := List.mem_map_of_mem (fun y => if y = n then n2 else y) hx
  simpa [hxn] using this

theorem not_mem_subst {l : List String} {n n2 : String} (hne : n2 ≠ n) :
    n ∉ l.map (fun y => if y = n then n2 else y) := by
  intro h
  obtain ⟨y, hy, he⟩ := List.mem_map.mp h
  by_cases hyn : y = n
  · rw [if_pos hyn] at he
    exact hne he
  · rw [if_neg hyn] at he
    exact hyn he

theorem mem_subst_inv {l : List String} {x n n2 : String}
    (h : x ∈ l.map (fun y => if y = n then n2 else y)) :
    x ∈ l ∨ x = n2 := by
  obtain ⟨y, hy, he⟩ := List.mem_map.mp h
  by_cases hyn : y = n
  · rw [if_pos hyn] at he
    exact .inr he.symm
  · rw [if_neg hyn] at he
    exact .inl (he ▸ hy)

theorem map_rename_eq_set {l : List String} {i : Nat} {n : String} (y : String)
    (hnd : l.Nodup) (hi : l[i]? = some n) :
    l.map (fun x => if x = n then y else x) = l.set i y := by
  induction l generalizing i with
  | nil => cases hi
  | cons a t ih =>
    rw [List.nodup_cons] at hnd
    cases i with
    | zero =>
      simp only [List.getElem?_cons_zero, Option.some.injEq] at hi
      subst hi
      rw [List.map_cons, if_pos rfl, List.set_cons_zero]
      congr 1
      have : ∀ x ∈ t, (fun x => if x = a then y else x) x = x := by
        intro x hx
        show (if x = a then y else x) = x
        rw [if_neg]
        intro hxa
        exact hnd.1 (hxa ▸ hx)
      rw [List.map_congr_left this]
      exact List.map_id' t
    | succ i =>
      simp only [List.getElem?_cons_succ] at hi
      have han : a ≠ n := by
        intro h
        have : n ∈ t := List.getElem?_mem hi
        exact hnd.1 (h ▸ this)
      rw [List.map_cons, if_neg han, List.set_cons_succ]
      congr 1
      exact ih hnd.2 hi

theorem set_getElem_self {α : Type _} {l : List α} {i : Nat} {a : α}
    (h : l[i]? = some a) : l.set i a = l := by
  induction l generalizing i with
  | nil => cases h
  | cons c t ih =>
    cases i with
    | zero =>
      simp only [List.getElem?_cons_zero, Option.some.injEq] at h
      rw [h, List.set_cons_zero]
    | succ i =>
      simp only [List.getElem?_cons_succ] at h
      rw [List.set_cons_succ, ih h]

theorem findMatR_append (l1 l2 : List RMaterial) (x : String) :
    findMatR (l1 ++ l2) x =
      match findMatR l1 x with
      | some m => some m
      | none => findMatR l2 x := by
  induction l1 with
  | nil => rfl
  | cons a t ih =>
    unfold findMatR at *
    rw [List.cons_append]
    by_cases ha : a.name = x
    · rw [List.find?_cons_of_pos _ (by simp [ha]), List.find?_cons_of_pos _ (by simp [ha])]
    · rw [List.find?_cons_of_neg _ (by simp [ha]), List.find?_cons_of_neg _ (by simp [ha])]
      exact ih

theorem findMatR_singleton_ne (m : RMaterial) (x : String) (h : m.name ≠ x) :
    findMatR [m] x = none := by
  unfold findMatR
  rw [List.find?_cons_of_neg _ (by simp [h])]
  rfl

theorem findMatR_singleton_eq (m : RMaterial) (x : String) (h : m.name = x) :
    findMatR [m] x = some m := by
  unfold findMatR
  rw [List.find?_cons_of_pos _ (by simp [h])]

theorem findMatR_none_of_not_mem (ms : List RMaterial) (x : String)
    (h : x ∉ ms.map RMaterial.name) : findMatR ms x = none := by
  induction ms with
  | nil => rfl
  | cons a t ih =>
    simp only [List.map_cons, List.mem_cons, not_or] at h
    unfold findMatR
    rw [List.find?_cons_of_neg _ (by simp [Ne.symm h.1])]
    exact ih h.2

theorem findMatR_isSome_mem (ms : List RMaterial) (x : String)
    (h : (findMatR ms x).isSome = true) : x ∈ ms.map RMaterial.name := by
  obtain ⟨m, hm⟩ := Option.isSome_iff_exists.mp h
  rw [← findMatR_name hm]
  exact List.mem_map_of_mem RMaterial.name (findMatR_mem hm)

/-! ## Fresh-name allocation lemmas -/

theorem freshName_of_mem_succ (taken : List String) (base : String)
    (h0 : base ∈ taken) (h1 : base ++ ".001" ∉ taken) :
    freshName taken base = base ++ ".001" := by
  have hne : taken ≠ [] := List.ne_nil_of_mem h0
  have hpad : base ++ "." ++ padNum 1 = base ++ ".001" := by
    rw [String.append_assoc]
    rfl
  unfold freshName
  cases htk : taken.length with
  | zero => exact absurd (List.length_eq_zero.mp htk) hne
  | succ k =>
    show freshNameAux taken base (k + 1 + 1) 0 = base ++ ".001"
    unfold freshNameAux
    rw [if_pos (by simpa using h0)]
    unfold freshNameAux
    rw [if_neg (by simp only [if_neg (Nat.one_ne_zero)]; rw [hpad]; simpa using h1)]
    rw [if_neg (Nat.one_ne_zero), hpad]

/-! ## Image-loading lemmas (lines 264-277) -/

theorem remapImg_double (a b : String) (x : Option String) (hx : x ≠ some b) :
    remapImg b a (remapImg a b x) = x := by
  unfold remapImg
  by_cases h : x = some a
  · rw [if_pos h, if_pos rfl, h]
  · rw [if_neg h, if_neg hx]

theorem remapMat_double (a b : String) (m : RMaterial)
    (hL : m.texLight ≠ some b) (hD : m.texDark ≠ some b) (hN : m.texNormal ≠ some b) :
    remapMat b a (remapMat a b m) = m := by
  unfold remapMat
  simp only [remapImg_double a b _ hL, remapImg_double a b _ hD, remapImg_double a b _ hN]

theorem map_remap_double (a b : String) (ms : List RMaterial)
    (h : ∀ m ∈ ms, m.texLight ≠ some b ∧ m.texDark ≠ some b ∧ m.texNormal ≠ some b) :
    (ms.map (remapMat a b)).map (remapMat b a) = ms := by
  induction ms with
  | nil => rfl
  | cons m t ih =>
    obtain ⟨h1, h2, h3⟩ := h m (by simp)
    rw [List.map_cons, List.map_cons, remapMat_double a b m h1 h2 h3,
        ih (fun m2 hm2 => h m2 (by simp [hm2]))]

theorem texShape_fields {ms : List RMaterial}
    (htex : ∀ m ∈ ms, ∀ bt k, texOf bt m = some k → lastFour k ≠ ".001".data)
    {m : RMaterial} (hm : m ∈ ms) {b : String} (hb : lastFour b = ".001".data) :
    m.texLight ≠ some b ∧ m.texDark ≠ some b ∧ m.texNormal ≠ some b := by
  refine ⟨fun h => ?_, fun h => ?_, fun h => ?_⟩
  · exact htex m hm "light" b (show texOf "light" m = some b from h) hb
  · exact htex m hm "dark" b (show texOf "dark" m = some b from h) hb
  · exact htex m hm "normal" b (show texOf "normal" m = some b from h) hb

theorem loadImage_frame (s : RState) (f : String)
    (htex : ∀ m ∈ s.materials, ∀ bt k, texOf bt m = some k → lastFour k ≠ ".001".data) :
    (loadImage s f).materials = s.materials ∧ (loadImage s f).slots = s.slots ∧
    (loadImage s f).shaderDropdown = s.shaderDropdown ∧
    (loadImage s f).appMajor = s.appMajor := by
  unfold loadImage
  by_cases h1 : lastFour (freshName s.images f) = ".001".data
  · rw [if_pos h1]
    by_cases h2 : dropLastFour (freshName s.images f) ∈ s.images ++ [freshName s.images f]
    · rw [if_pos h2]
      refine ⟨?_, rfl, rfl, rfl⟩
      exact map_remap_double _ _ _ (fun m hm => texShape_fields htex hm h1)
    · rw [if_neg h2]
      exact ⟨rfl, rfl, rfl, rfl⟩
  · rw [if_neg h1]
    exact ⟨rfl, rfl, rfl, rfl⟩

theorem loadPhase_cons (f : String) (t : List String) (s : RState) :
    loadPhase (f :: t) s = loadPhase t
      (if f.data.length ≤ 63 then loadImage s f
       else { s with logs := s.logs ++
         ["Could not load in file because the name exceeds 64 characters: " ++ f] }) := by
  unfold loadPhase
  rw [List.foldl_cons]

theorem loadPhase_frame (files : List String) (s : RState)
    (htex : ∀ m ∈ s.materials, ∀ bt k, texOf bt m = some k → lastFour k ≠ ".001".data) :
    (loadPhase files s).materials = s.materials ∧ (loadPhase files s).slots = s.slots ∧
    (loadPhase files s).shaderDropdown = s.shaderDropdown ∧
    (loadPhase files s).appMajor = s.appMajor := by
  induction files generalizing s with
  | nil => exact ⟨rfl, rfl, rfl, rfl⟩
  | cons f t ih =>
    rw [loadPhase_cons]
    by_cases hf : f.data.length ≤ 63
    · rw [if_pos hf]
      obtain ⟨hm, hs, hd, ha⟩ := loadImage_frame s f htex
      obtain ⟨im, is2, id2, ia⟩ := ih (loadImage s f) (by rw [hm]; exact htex)
      exact ⟨by rw [im, hm], by rw [is2, hs], by rw [id2, hd], by rw [ia, ha]⟩
    · rw [if_neg hf]
      exact ih _ htex

theorem loadImage_images_mem (s : RState) (f : String)
    (hf : lastFour f = ".png".data) (hno : f ++ ".001" ∉ s.images) :
    ∀ x ∈ (loadImage s f).images, x ∈ s.images ∨ x = f := by
  unfold loadImage
  by_cases hfm : f ∈ s.images
  · have hfresh : freshName s.images f = f ++ ".001" := freshName_of_mem_succ _ _ hfm hno
    have hlast : lastFour (f ++ ".001") = ".001".data := by
      rw [lastFour_append f ".001" (by decide)]
      decide
    have hdrop : dropLastFour (f ++ ".001") = f := dropLastFour_append f ".001" (by decide)
    rw [hfresh, if_pos hlast]
    rw [if_pos (by
      rw [hdrop]
      exact List.mem_append_left _ hfm)]
    intro x hx
    simp only [hdrop] at hx
    obtain ⟨y, hy, he⟩ := List.mem_map.mp hx
    by_cases hy1 : y = f ++ ".001"
    · rw [if_pos hy1] at he
      exact .inr he.symm
    · rw [if_neg hy1] at he
      subst he
      have hy2 := List.mem_of_mem_erase hy
      rcases List.mem_append.mp hy2 with h | h
      · exact .inl h
      · exact absurd (List.mem_singleton.mp h) hy1
  · have hfresh : freshName s.images f = f := freshName_of_not_mem _ _ hfm
    rw [hfresh]
    rw [if_neg (by
      rw [hf]
      decide)]
    intro x hx
    rcases List.mem_append.mp hx with h | h
    · exact .inl h
    · exact .inr (List.mem_singleton.mp h)

theorem loadImage_self_mem (s : RState) (f : String)
    (hf : lastFour f = ".png".data) (hno : f ++ ".001" ∉ s.images) :
    f ∈ (loadImage s f).images := by
  unfold loadImage
  by_cases hfm : f ∈ s.images
  · have hfresh : freshName s.images f = f ++ ".001" := freshName_of_mem_succ _ _ hfm hno
    have hlast : lastFour (f ++ ".001") = ".001".data := by
      rw [lastFour_append f ".001" (by decide)]
      decide
    have hdrop : dropLastFour (f ++ ".001") = f := dropLastFour_append f ".001" (by decide)
    rw [hfresh, if_pos hlast]
    rw [if_pos (by
      rw [hdrop]
      exact List.mem_append_left _ hfm)]
    simp only [hdrop]
    have h1 : (f ++ ".001") ∈ (s.images ++ [f ++ ".001"]).erase f :=
      (List.mem_erase_of_ne (ne_append_of_ne_nil f ".001" (by decide))).mpr
        (List.mem_append_right _ (List.mem_singleton.mpr rfl))
    have := List.mem_map_of_mem (fun x => if x = f ++ ".001" then f else x) h1
    simpa using this
  · have hfresh : freshName s.images f = f := freshName_of_not_mem _ _ hfm
    rw [hfresh]
    rw [if_neg (by
      rw [hf]
      decide)]
    exact List.mem_append_right _ (List.mem_singleton.mpr rfl)

theorem loadImage_mem_mono (s : RState) (f x : String)
    (hx : x ∈ s.images) (hxpng : lastFour x = ".png".data)
    (hf : lastFour f = ".png".data) (hno : f ++ ".001" ∉ s.images) :
    x ∈ (loadImage s f).images := by
  by_cases hxf : x = f
  · rw [hxf]
    exact loadImage_self_mem s f hf hno
  · unfold loadImage
    by_cases hfm : f ∈ s.images
    · have hfresh : freshName s.images f = f ++ ".001" := freshName_of_mem_succ _ _ hfm hno
      have hlast : lastFour (f ++ ".001") = ".001".data := by
        rw [lastFour_append f ".001" (by decide)]
        decide
      have hdrop : dropLastFour (f ++ ".001") = f := dropLastFour_append f ".001" (by decide)
      rw [hfresh, if_pos hlast]
      rw [if_pos (by
        rw [hdrop]
        exact List.mem_append_left _ hfm)]
      simp only [hdrop]
      have h1 : x ∈ (s.images ++ [f ++ ".001"]).erase f :=
        (List.mem_erase_of_ne hxf).mpr (List.mem_append_left _ hx)
      refine mem_subst_self h1 ?_
      intro h
      rw [h, lastFour_append f ".001" (by decide)] at hxpng
      exact absurd hxpng (by decide)
    · have hfresh : freshName s.images f = f := freshName_of_not_mem _ _ hfm
      rw [hfresh]
      rw [if_neg (by
        rw [hf]
        decide)]
      exact List.mem_append_left _ hx

/-- Invariant of the loading loop: every image name either was already
present (with no stale `.001` suffix) or is one of the loaded `*.png`
files; present `.png` names survive every later load; and every file of
loadable length ends up present. -/
theorem loadPhase_images_spec (files base : List String)
    (hpng : ∀ f ∈ files, lastFour f = ".png".data)
    (hbase : ∀ x ∈ base, lastFour x ≠ ".001".data) :
    ∀ (l : List String), (∀ f ∈ l, f ∈ files) →
      ∀ (s : RState), (∀ x ∈ s.images, x ∈ base ∨ (x ∈ files ∧ x.data.length ≤ 63)) →
      (∀ x ∈ (loadPhase l s).images, x ∈ base ∨ (x ∈ files ∧ x.data.length ≤ 63)) ∧
      (∀ x ∈ s.images, lastFour x = ".png".data → x ∈ (loadPhase l s).images) ∧
      (∀ f ∈ l, f.data.length ≤ 63 → f ∈ (loadPhase l s).images) := by
  intro l
  induction l with
  | nil =>
    intro _ s hs
    exact ⟨hs, fun x hx _ => hx, fun f hf => absurd hf (List.not_mem_nil f)⟩
  | cons f t ih =>
    intro hl s hs
    rw [loadPhase_cons]
    by_cases hflen : f.data.length ≤ 63
    · rw [if_pos hflen]
      have hffiles : f ∈ files := hl f (by simp)
      have hfpng : lastFour f = ".png".data := hpng f hffiles
      have hno : f ++ ".001" ∉ s.images := by
        intro hmem
        rcases hs _ hmem with h | h
        · exact hbase _ h (by
            rw [lastFour_append f ".001" (by decide)]
            decide)
        · have := hpng _ h.1
          rw [lastFour_append f ".001" (by decide)] at this
          exact absurd this (by decide)
      have hs2 : ∀ x ∈ (loadImage s f).images,
          x ∈ base ∨ (x ∈ files ∧ x.data.length ≤ 63) := by
        intro x hx
        rcases loadImage_images_mem s f hfpng hno x hx with h | h
        · exact hs x h
        · exact .inr ⟨h ▸ hffiles, h ▸ hflen⟩
      obtain ⟨ih1, ih2, ih3⟩ := ih (fun g hg => hl g (by simp [hg])) (loadImage s f) hs2
      refine ⟨ih1, ?_, ?_⟩
      · intro x hx hxpng
        exact ih2 x (loadImage_mem_mono s f x hx hxpng hfpng hno) hxpng
      · intro g hg hglen
        rcases List.mem_cons.mp hg with h | h
        · subst h
          exact ih2 g (loadImage_self_mem s g hfpng hno) hfpng
        · exact ih3 g h hglen
    · rw [if_neg hflen]
      obtain ⟨ih1, ih2, ih3⟩ := ih (fun g hg => hl g (by simp [hg]))
        { s with logs := s.logs ++
            ["Could not load in file because the name exceeds 64 characters: " ++ f] } hs
      refine ⟨ih1, ih2, ?_⟩
      intro g hg hglen
      rcases List.mem_cons.mp hg with h | h
      · exact absurd (h ▸ hglen) hflen
      · exact ih3 g h hglen

/-! ## The third branch of the rebind loop (lines 300-343) -/

theorem createSimpleCore_eq (bt img cn : String) (i : Nat) (mat : RMaterial) (s : RState) :
    createSimpleCore bt img cn i mat s =
      { csWithTmpl mat s with
        materials := (updateMatR (csWithTmpl mat s).materials (csOrgName mat s)
            (fun m => { m with fakeUser := true })) ++ [csNewMat bt img cn mat s],
        slots := (csWithTmpl mat s).slots.set i (csSimpleName mat s) } := rfl

theorem csWithTmpl_slots (mat : RMaterial) (s : RState) :
    (csWithTmpl mat s).slots = (csWithOrg mat s).slots := by
  unfold csWithTmpl
  split <;> rfl

theorem csWithTmpl_images (mat : RMaterial) (s : RState) :
    (csWithTmpl mat s).images = s.images := by
  unfold csWithTmpl
  split <;> rfl

theorem csWithTmpl_shader (mat : RMaterial) (s : RState) :
    (csWithTmpl mat s).shaderDropdown = s.shaderDropdown := by
  unfold csWithTmpl
  split <;> rfl

theorem csWithTmpl_appMajor (mat : RMaterial) (s : RState) :
    (csWithTmpl mat s).appMajor = s.appMajor := by
  unfold csWithTmpl
  split <;> rfl

theorem findMatR_isSome_iff (ms : List RMaterial) (x : String) :
    (findMatR ms x).isSome = true ↔ x ∈ ms.map RMaterial.name := by
  constructor
  · exact findMatR_isSome_mem ms x
  · intro h
    obtain ⟨m, hm, hmn⟩ := List.mem_map.mp h
    unfold findMatR
    rw [List.find?_isSome]
    exact ⟨m, hm, by simp [hmn]⟩

theorem findMatR_none_not_mem (ms : List RMaterial) (x : String)
    (h : findMatR ms x = none) : x ∉ ms.map RMaterial.name := by
  intro hmem
  have := (findMatR_isSome_iff ms x).mpr hmem
  rw [h] at this
  cases this

theorem texOf_set_name_group (bt2 a c : String) (m : RMaterial) :
    texOf bt2 { m with name := a, texGroupName := c } = texOf bt2 m := by
  unfold texOf
  split
  · rfl
  · split <;> rfl

theorem texOf_fakeUser (bt2 : String) (m : RMaterial) :
    texOf bt2 { m with fakeUser := true } = texOf bt2 m := by
  unfold texOf
  split
  · rfl
  · split <;> rfl

theorem kkSimpleTemplate_texOf (bt2 k : String) :
    texOf bt2 kkSimpleTemplate ≠ some k := by
  unfold texOf kkSimpleTemplate
  split
  · simp
  · split <;> simp

theorem ORGfree_KKSimple : ORGfree "KK Simple" := by
  unfold ORGfree
  decide

theorem not_ORGfree_append (b : String) : ¬ ORGfree (b ++ "-ORG") := by
  unfold ORGfree
  rw [hasSub_org_suffix]
  decide

theorem nodup_append_singleton {l : List String} {a : String}
    (hl : l.Nodup) (ha : a ∉ l) : (l ++ [a]).Nodup := by
  rw [List.nodup_append]
  refine ⟨hl, List.nodup_singleton a, ?_⟩
  intro x hx hxa
  rw [List.mem_singleton.mp hxa] at hx
  exact ha hx

theorem texOf_set_name (bt2 a : String) (m : RMaterial) :
    texOf bt2 { m with name := a } = texOf bt2 m := by
  unfold texOf
  split
  · rfl
  · split <;> rfl

/-- Everything the rebind loop needs to know about the state produced by
the create-simplified branch (lines 300-332) when it runs on a slot whose
material is an `-ORG`-free non-simple original. -/
theorem createSimpleCore_spec (bt img cn : String) (i : Nat) (mat : RMaterial)
    (s : RState) (n : String)
    (hbt : bt = "light" ∨ bt = "dark" ∨ bt = "normal")
    (hinv : RInv s)
    (hi : s.slots[i]? = some n)
    (hname : mat.name = n)
    (hfind : findMatR s.materials n = some mat)
    (hsimple : mat.simple = false)
    (himg : findImage s.images (imageKeyName mat.name bt) = some img) :
    (createSimpleCore bt img cn i mat s).images = s.images ∧
    (createSimpleCore bt img cn i mat s).slots = s.slots ∧
    (createSimpleCore bt img cn i mat s).shaderDropdown = s.shaderDropdown ∧
    (createSimpleCore bt img cn i mat s).appMajor = s.appMajor ∧
    (∀ x, ORGfree x → x ≠ "KK Simple" → x ≠ n →
      findMatR (createSimpleCore bt img cn i mat s).materials x = findMatR s.materials x) ∧
    findMatR (createSimpleCore bt img cn i mat s).materials n
      = some (csNewMat bt img cn mat s) ∧
    (csNewMat bt img cn mat s).simple = true ∧
    texOf bt (csNewMat bt img cn mat s) = some img ∧
    (bt = "light" → (csNewMat bt img cn mat s).texDark = some img) ∧
    RInv (createSimpleCore bt img cn i mat s) := by
  -- names of the slot material and of the renamed original
  have hn_slot : n ∈ s.slots := List.getElem?_mem hi
  have hnfree : ORGfree n := hinv.slotsFree n hn_slot
  have hnKK : n ≠ "KK Simple" := fun h => hinv.noTemplateSlot (h ▸ hn_slot)
  have horgnotin : (n ++ "-ORG") ∉ s.materials.map RMaterial.name := by
    intro hmem
    obtain ⟨mo, hmo, hmoname⟩ := List.mem_map.mp hmem
    obtain ⟨msb, hmsb, hmsbname, hmsbsimple⟩ := hinv.orgBase mo hmo n hmoname
    have heq : msb = mat := findMatR_unique hinv.nodup hfind msb hmsb hmsbname
    rw [heq, hsimple] at hmsbsimple
    cases hmsbsimple
  have horg : csOrgName mat s = n ++ "-ORG" := by
    unfold csOrgName
    rw [hname]
    exact freshName_of_not_mem _ _ horgnotin
  -- the state after the rename
  have hWOmats : (csWithOrg mat s).materials
      = updateMatR s.materials n (fun m => { m with name := n ++ "-ORG" }) := by
    show updateMatR s.materials mat.name (fun m => { m with name := csOrgName mat s }) = _
    rw [hname, horg]
  have hWOslots : (csWithOrg mat s).slots = s.slots.set i (n ++ "-ORG") := by
    show s.slots.map (fun x => if x = mat.name then csOrgName mat s else x) = _
    rw [hname, horg]
    exact map_rename_eq_set _ hinv.slotsNodup hi
  have hWOnames : (csWithOrg mat s).materials.map RMaterial.name
      = (s.materials.map RMaterial.name).map (fun x => if x = n then n ++ "-ORG" else x) := by
    rw [hWOmats]
    exact names_rename s.materials n (n ++ "-ORG")
  have hWOnodup : ((csWithOrg mat s).materials.map RMaterial.name).Nodup := by
    rw [hWOnames]
    exact nodup_subst n (n ++ "-ORG") hinv.nodup horgnotin
  have hWOn_none : findMatR (csWithOrg mat s).materials n = none := by
    rw [hWOmats]
    exact find_rename_gone s.materials n (n ++ "-ORG") (ne_append_org n)
  have hWO_other : ∀ x, x ≠ n → x ≠ n ++ "-ORG" →
      findMatR (csWithOrg mat s).materials x = findMatR s.materials x := by
    intro x hx1 hx2
    rw [hWOmats]
    exact find_rename_other s.materials n (n ++ "-ORG") x hx1 hx2
  have hWOmem : ∀ m0 ∈ (csWithOrg mat s).materials,
      ∃ m1 ∈ s.materials, (m0 = m1 ∧ m1.name ≠ n) ∨
        (m0 = { m1 with name := n ++ "-ORG" } ∧ m1.name = n) := by
    intro m0 hm0
    rw [hWOmats] at hm0
    obtain ⟨m1, hm1, he⟩ := mem_updateMatR_inv hm0
    by_cases h : m1.name = n
    · rw [if_pos h] at he
      exact ⟨m1, hm1, .inr ⟨he, h⟩⟩
    · rw [if_neg h] at he
      exact ⟨m1, hm1, .inl ⟨he, h⟩⟩
  -- the state after the template import
  have hW_cases : (csWithTmpl mat s).materials = (csWithOrg mat s).materials ∨
      ((csWithTmpl mat s).materials = (csWithOrg mat s).materials ++ [kkSimpleTemplate] ∧
        "KK Simple" ∉ (csWithOrg mat s).materials.map RMaterial.name) := by
    unfold csWithTmpl
    by_cases h : (findMatR (csWithOrg mat s).materials "KK Simple").isSome
    · rw [if_pos h]
      exact .inl rfl
    · rw [if_neg h]
      refine .inr ⟨rfl, ?_⟩
      intro hmem
      exact h ((findMatR_isSome_iff _ _).mpr hmem)
  have hWfacts :
      (∀ x, x ≠ n → x ≠ (n ++ "-ORG") → x ≠ "KK Simple" →
        findMatR (csWithTmpl mat s).materials x = findMatR s.materials x) ∧
      findMatR (csWithTmpl mat s).materials n = none ∧
      ((csWithTmpl mat s).materials.map RMaterial.name).Nodup ∧
      (∀ m0 ∈ (csWithTmpl mat s).materials, m0 = kkSimpleTemplate ∨
        ∃ m1 ∈ s.materials, (m0 = m1 ∧ m1.name ≠ n) ∨
          (m0 = { m1 with name := n ++ "-ORG" } ∧ m1.name = n)) ∧
      (∀ m0 ∈ (csWithOrg mat s).materials, m0 ∈ (csWithTmpl mat s).materials) := by
    rcases hW_cases with hWe | ⟨hWe, hKKnot⟩
    · refine ⟨?_, ?_, ?_, ?_, ?_⟩
      · intro x hx1 hx2 _
        rw [hWe]
        exact hWO_other x hx1 hx2
      · rw [hWe]
        exact hWOn_none
      · rw [hWe]
        exact hWOnodup
      · intro m0 hm0
        rw [hWe] at hm0
        exact .inr (hWOmem m0 hm0)
      · intro m0 hm0
        rw [hWe]
        exact hm0
    · refine ⟨?_, ?_, ?_, ?_, ?_⟩
      · intro x hx1 hx2 hx3
        rw [hWe, findMatR_append, hWO_other x hx1 hx2,
            findMatR_singleton_ne kkSimpleTemplate x (Ne.symm hx3)]
        cases hfs : findMatR s.materials x <;> rfl
      · rw [hWe, findMatR_append, hWOn_none,
            findMatR_singleton_ne kkSimpleTemplate n (Ne.symm hnKK)]
      · rw [hWe, List.map_append]
        exact nodup_append_singleton hWOnodup (by simpa using hKKnot)
      · intro m0 hm0
        rw [hWe] at hm0
        rcases List.mem_append.mp hm0 with h | h
        · exact .inr (hWOmem m0 h)
        · exact .inl (List.mem_singleton.mp h)
      · intro m0 hm0
        rw [hWe]
        exact List.mem_append_left _ hm0
  obtain ⟨hW_other, hWn_none, hWnodup, hWmem, hWO_sub⟩ := hWfacts
  -- the cloned material's name
  have hstrip : stripORG (csOrgName mat s) = n := by
    rw [horg]
    exact stripORG_append_org hnfree
  have hnW : n ∉ (csWithTmpl mat s).materials.map RMaterial.name :=
    findMatR_none_not_mem _ _ hWn_none
  have hsimpleName : csSimpleName mat s = n := by
    unfold csSimpleName
    rw [hstrip]
    exact freshName_of_not_mem _ _ hnW
  have hnewname : (csNewMat bt img cn mat s).name = n := by
    unfold csNewMat
    rw [replaceMatFields_name, bindNewImages_name]
    exact hsimpleName
  have hnewsimple : (csNewMat bt img cn mat s).simple = true :=
    replaceMatFields_simple _ _ _ _
  have hnewtex : texOf bt (csNewMat bt img cn mat s) = some img := by
    unfold csNewMat
    rw [texOf_replaceMatFields]
    exact texOf_bindNewImages_self bt img _ hbt
  have hnewdark : bt = "light" → (csNewMat bt img cn mat s).texDark = some img := by
    intro hbl
    subst hbl
    unfold csNewMat
    rw [replaceMatFields_texDark]
    exact bindNewImages_texDark_light img _
  have hnewtexcases : ∀ bt2 k, texOf bt2 (csNewMat bt img cn mat s) = some k →
      lastFour k ≠ ".001".data := by
    intro bt2 k hk
    unfold csNewMat at hk
    rw [texOf_replaceMatFields] at hk
    rcases texOf_bindNewImages_cases bt bt2 img k _ hk with h | h
    · obtain ⟨himgkey, _⟩ := findImage_some _ _ _ himg
      rw [h, himgkey]
      exact key_ne_dot001 mat.name bt
    · rw [texOf_set_name_group] at h
      unfold csTmpl at h
      cases htm : findMatR (csWithTmpl mat s).materials "KK Simple" with
      | none =>
        rw [htm] at h
        exact absurd h (kkSimpleTemplate_texOf bt2 k)
      | some tm =>
        rw [htm] at h
        simp only [Option.getD_some] at h
        rcases hWmem tm (findMatR_mem htm) with h1 | ⟨m1, hm1, h1 | h1⟩
        · rw [h1] at h
          exact absurd h (kkSimpleTemplate_texOf bt2 k)
        · rw [h1.1] at h
          exact hinv.texShape m1 hm1 bt2 k h
        · rw [h1.1, texOf_set_name] at h
          exact hinv.texShape m1 hm1 bt2 k h
  -- the final state
  have hSt := createSimpleCore_eq bt img cn i mat s
  have hStslots : (createSimpleCore bt img cn i mat s).slots = s.slots := by
    rw [hSt]
    show ((csWithTmpl mat s).slots).set i (csSimpleName mat s) = s.slots
    rw [csWithTmpl_slots, hWOslots, hsimpleName, List.set_set]
    exact set_getElem_self hi
  have hStimages : (createSimpleCore bt img cn i mat s).images = s.images := by
    rw [hSt]
    show (csWithTmpl mat s).images = s.images
    exact csWithTmpl_images mat s
  have hStshader : (createSimpleCore bt img cn i mat s).shaderDropdown = s.shaderDropdown := by
    rw [hSt]
    show (csWithTmpl mat s).shaderDropdown = s.shaderDropdown
    exact csWithTmpl_shader mat s
  have hStapp : (createSimpleCore bt img cn i mat s).appMajor = s.appMajor := by
    rw [hSt]
    show (csWithTmpl mat s).appMajor = s.appMajor
    exact csWithTmpl_appMajor mat s
  have hStmats : (createSimpleCore bt img cn i mat s).materials
      = (updateMatR (csWithTmpl mat s).materials (n ++ "-ORG")
          (fun m => { m with fakeUser := true })) ++ [csNewMat bt img cn mat s] := by
    rw [hSt]
    show (updateMatR (csWithTmpl mat s).materials (csOrgName mat s)
        (fun m => { m with fakeUser := true })) ++ [csNewMat bt img cn mat s] = _
    rw [horg]
  have hg : ∀ m : RMaterial,
      ((fun m => if m.name = n ++ "-ORG" then { m with fakeUser := true } else m) m).name
        = m.name := by
    intro m
    by_cases h : m.name = n ++ "-ORG" <;> simp [h]
  have hSt_find_other : ∀ x, ORGfree x → x ≠ "KK Simple" → x ≠ n →
      findMatR (createSimpleCore bt img cn i mat s).materials x = findMatR s.materials x := by
    intro x hxfree hxKK hxn
    have hxorg : x ≠ n ++ "-ORG" := ne_org_suffix_of_free hxfree
    rw [hStmats, findMatR_append, updateMatR_map_eq, findMatR_map hg,
        hW_other x hxn hxorg hxKK,
        findMatR_singleton_ne _ x (by rw [hnewname]; exact Ne.symm hxn)]
    cases hfs : findMatR s.materials x with
    | none => rfl
    | some m =>
      have hmn : m.name = x := findMatR_name hfs
      show some (if m.name = n ++ "-ORG" then { m with fakeUser := true } else m) = some m
      rw [if_neg (by rw [hmn]; exact hxorg)]
  have hSt_find_n : findMatR (createSimpleCore bt img cn i mat s).materials n
      = some (csNewMat bt img cn mat s) := by
    rw [hStmats, findMatR_append, updateMatR_map_eq, findMatR_map hg, hWn_none]
    show findMatR [csNewMat bt img cn mat s] n = some (csNewMat bt img cn mat s)
    exact findMatR_singleton_eq _ n hnewname
  -- membership characterization of the final registry
  have hfk_name : ∀ mw : RMaterial,
      (if mw.name = n ++ "-ORG" then ({ mw with fakeUser := true } : RMaterial) else mw).name
        = mw.name := hg
  have hfk_simple : ∀ mw : RMaterial,
      (if mw.name = n ++ "-ORG" then ({ mw with fakeUser := true } : RMaterial) else mw).simple
        = mw.simple := by
    intro mw
    by_cases h : mw.name = n ++ "-ORG" <;> simp [h]
  have hfk_tex : ∀ mw : RMaterial, ∀ bt2,
      texOf bt2 (if mw.name = n ++ "-ORG" then ({ mw with fakeUser := true } : RMaterial)
        else mw) = texOf bt2 mw := by
    intro mw bt2
    by_cases h : mw.name = n ++ "-ORG"
    · rw [if_pos h]
      exact texOf_fakeUser bt2 mw
    · rw [if_neg h]
  have hmemSt : ∀ m0 ∈ (createSimpleCore bt img cn i mat s).materials,
      m0 = csNewMat bt img cn mat s ∨
      ∃ mw ∈ (csWithTmpl mat s).materials,
        m0 = (if mw.name = n ++ "-ORG" then { mw with fakeUser := true } else mw) := by
    intro m0 hm0
    rw [hStmats] at hm0
    rcases List.mem_append.mp hm0 with h | h
    · exact .inr (mem_updateMatR_inv h)
    · exact .inl (List.mem_singleton.mp h)
  have hnew_memSt : csNewMat bt img cn mat s ∈ (createSimpleCore bt img cn i mat s).materials := by
    rw [hStmats]
    exact List.mem_append_right _ (List.mem_singleton.mpr rfl)
  -- the invariant of the final state
  refine ⟨hStimages, hStslots, hStshader, hStapp, hSt_find_other, hSt_find_n,
    hnewsimple, hnewtex, hnewdark, ?_⟩
  constructor
  case nodup =>
    have hStnames : (createSimpleCore bt img cn i mat s).materials.map RMaterial.name
        = (csWithTmpl mat s).materials.map RMaterial.name ++ [n] := by
      rw [hStmats, List.map_append]
      congr 1
      · exact updateMatR_names _ _ _ (fun m => rfl)
      · rw [List.map_singleton, hnewname]
    rw [hStnames]
    exact nodup_append_singleton hWnodup hnW
  case nameForm =>
    intro m0 hm0
    rcases hmemSt m0 hm0 with h | ⟨mw, hmw, he⟩
    · rw [h, hnewname]
      exact .inl hnfree
    · rw [he, hfk_name]
      rcases hWmem mw hmw with h1 | ⟨m1, hm1, h1 | h1⟩
      · rw [h1]
        exact .inl ORGfree_KKSimple
      · rw [h1.1]
        exact hinv.nameForm m1 hm1
      · rw [h1.1]
        exact .inr ⟨n, hnfree, rfl⟩
  case slotsFree =>
    rw [hStslots]
    exact hinv.slotsFree
  case slotsNodup =>
    rw [hStslots]
    exact hinv.slotsNodup
  case slotsResolve =>
    rw [hStslots]
    intro x hx
    by_cases hxn : x = n
    · rw [hxn, hSt_find_n]
      rfl
    · rw [hSt_find_other x (hinv.slotsFree x hx)
        (fun h => hinv.noTemplateSlot (h ▸ hx)) hxn]
      exact hinv.slotsResolve x hx
  case orgBase =>
    intro m0 hm0 b hb
    rcases hmemSt m0 hm0 with h | ⟨mw, hmw, he⟩
    · rw [h, hnewname] at hb
      exact absurd (hb ▸ hnfree) (not_ORGfree_append b)
    · rw [he, hfk_name] at hb
      rcases hWmem mw hmw with h1 | ⟨m1, hm1, h1 | h1⟩
      · rw [h1] at hb
        exact absurd hb (not_org_form_of_lastFour "KK Simple" (by decide) b)
      · rw [h1.1] at hb
        obtain ⟨msb, hmsb, hmsbname, hmsbsimple⟩ := hinv.orgBase m1 hm1 b hb
        have hbn : b ≠ n := by
          intro hbe
          refine horgnotin ?_
          rw [← hbe, ← hb]
          exact List.mem_map_of_mem RMaterial.name hm1
        have hmsbWO : msb ∈ (csWithOrg mat s).materials := by
          rw [hWOmats]
          have hmm : (if msb.name = n then
              ({ msb with name := n ++ "-ORG" } : RMaterial) else msb)
              ∈ updateMatR s.materials n (fun m => { m with name := n ++ "-ORG" }) :=
            mem_updateMatR hmsb
          rwa [if_neg (by rw [hmsbname]; exact hbn)] at hmm
        have hmsbW : msb ∈ (csWithTmpl mat s).materials := hWO_sub msb hmsbWO
        refine ⟨(if msb.name = n ++ "-ORG" then { msb with fakeUser := true } else msb), ?_, ?_, ?_⟩
        · rw [hStmats]
          exact List.mem_append_left _ (mem_updateMatR hmsbW)
        · rw [hfk_name, hmsbname]
        · rw [hfk_simple, hmsbsimple]
      · rw [h1.1] at hb
        have hbn : n = b := append_org_inj (show n ++ "-ORG" = b ++ "-ORG" from hb)
        refine ⟨csNewMat bt img cn mat s, hnew_memSt, ?_, hnewsimple⟩
        rw [hnewname, hbn]
  case noTemplateSlot =>
    rw [hStslots]
    exact hinv.noTemplateSlot
  case texShape =>
    intro m0 hm0 bt2 k hk
    rcases hmemSt m0 hm0 with h | ⟨mw, hmw, he⟩
    · rw [h] at hk
      exact hnewtexcases bt2 k hk
    · rw [he, hfk_tex] at hk
      rcases hWmem mw hmw with h1 | ⟨m1, hm1, h1 | h1⟩
      · rw [h1] at hk
        exact absurd hk (kkSimpleTemplate_texOf bt2 k)
      · rw [h1.1] at hk
        exact hinv.texShape m1 hm1 bt2 k hk
      · rw [h1.1, texOf_set_name] at hk
        exact hinv.texShape m1 hm1 bt2 k hk
  case slotsSB =>
    rw [hStslots]
    intro x hx mx hmx
    by_cases hxn : x = n
    · rw [hxn, hSt_find_n] at hmx
      cases hmx
      exact .inl hnewsimple
    · rw [hSt_find_other x (hinv.slotsFree x hx)
        (fun h => hinv.noTemplateSlot (h ▸ hx)) hxn] at hmx
      exact hinv.slotsSB x hx mx hmx

theorem nodup_getElem?_inj {α : Type _} {l : List α} (h : l.Nodup) {i j : Nat} {a : α}
    (hi : l[i]? = some a) (hj : l[j]? = some a) : i = j := by
  induction l generalizing i j with
  | nil => cases hi
  | cons c t ih =>
    rw [List.nodup_cons] at h
    cases i with
    | zero =>
      cases j with
      | zero => rfl
      | succ j =>
        simp only [List.getElem?_cons_zero, Option.some.injEq] at hi
        simp only [List.getElem?_cons_succ] at hj
        exact absurd (by rw [hi]; exact List.getElem?_mem hj) h.1
    | succ i =>
      cases j with
      | zero =>
        simp only [List.getElem?_cons_zero, Option.some.injEq] at hj
        simp only [List.getElem?_cons_succ] at hi
        exact absurd (by rw [hj]; exact List.getElem?_mem hi) h.1
      | succ j =>
        simp only [List.getElem?_cons_succ] at hi hj
        rw [ih h.2 hi hj]

/-- Lines 285-288, first branch: binding the image into the already
simplified slot material only rewrites that material's image node. -/
theorem setTexUpdate_spec (bt img : String) (s : RState) (n : String) (mat : RMaterial)
    (hinv : RInv s) (hfind : findMatR s.materials n = some mat)
    (hkey : lastFour img ≠ ".001".data) :
    (∀ x, x ≠ n →
      findMatR (updateMatR s.materials n (setTex bt img)) x = findMatR s.materials x) ∧
    findMatR (updateMatR s.materials n (setTex bt img)) n = some (setTex bt img mat) ∧
    RInv { s with materials := updateMatR s.materials n (setTex bt img) } := by
  have hmatname : mat.name = n := findMatR_name hfind
  have hgs : ∀ m : RMaterial,
      ((fun m => if m.name = n then setTex bt img m else m) m).name = m.name := by
    intro m
    by_cases h : m.name = n <;> simp [h]
  have hframe : ∀ x, x ≠ n →
      findMatR (updateMatR s.materials n (setTex bt img)) x = findMatR s.materials x := by
    intro x hx
    rw [updateMatR_map_eq, findMatR_map hgs]
    cases hfs : findMatR s.materials x with
    | none => rfl
    | some m =>
      have hmn : m.name = x := findMatR_name hfs
      show some (if m.name = n then setTex bt img m else m) = some m
      rw [if_neg (by rw [hmn]; exact hx)]
  have hfindn : findMatR (updateMatR s.materials n (setTex bt img)) n
      = some (setTex bt img mat) := by
    rw [updateMatR_map_eq, findMatR_map hgs, hfind]
    show some (if mat.name = n then setTex bt img mat else mat) = _
    rw [if_pos hmatname]
  have hmemT : ∀ m0 ∈ updateMatR s.materials n (setTex bt img),
      ∃ m1 ∈ s.materials, m0 = (if m1.name = n then setTex bt img m1 else m1) :=
    fun m0 hm0 => mem_updateMatR_inv hm0
  have hif_name : ∀ m1 : RMaterial,
      (if m1.name = n then setTex bt img m1 else m1).name = m1.name := hgs
  have hif_simple : ∀ m1 : RMaterial,
      (if m1.name = n then setTex bt img m1 else m1).simple = m1.simple := by
    intro m1
    by_cases h : m1.name = n <;> simp [h]
  have hif_bake : ∀ m1 : RMaterial,
      (if m1.name = n then setTex bt img m1 else m1).bake = m1.bake := by
    intro m1
    by_cases h : m1.name = n <;> simp [h]
  refine ⟨hframe, hfindn, ?_⟩
  constructor
  case nodup =>
    show ((updateMatR s.materials n (setTex bt img)).map RMaterial.name).Nodup
    rw [updateMatR_names _ _ _ (setTex_name bt img)]
    exact hinv.nodup
  case nameForm =>
    intro m0 hm0
    obtain ⟨m1, hm1, he⟩ := hmemT m0 hm0
    rw [he, hif_name]
    exact hinv.nameForm m1 hm1
  case slotsFree => exact hinv.slotsFree
  case slotsNodup => exact hinv.slotsNodup
  case slotsResolve =>
    intro x hx
    by_cases hxn : x = n
    · rw [hxn]
      show (findMatR (updateMatR s.materials n (setTex bt img)) n).isSome = true
      rw [hfindn]
      rfl
    · show (findMatR (updateMatR s.materials n (setTex bt img)) x).isSome = true
      rw [hframe x hxn]
      exact hinv.slotsResolve x hx
  case orgBase =>
    intro m0 hm0 b hb
    obtain ⟨m1, hm1, he⟩ := hmemT m0 hm0
    rw [he, hif_name] at hb
    obtain ⟨msb, hmsb, hmsbname, hmsbsimple⟩ := hinv.orgBase m1 hm1 b hb
    refine ⟨(if msb.name = n then setTex bt img msb else msb), mem_updateMatR hmsb, ?_, ?_⟩
    · rw [hif_name, hmsbname]
    · rw [hif_simple, hmsbsimple]
  case noTemplateSlot => exact hinv.noTemplateSlot
  case texShape =>
    intro m0 hm0 bt2 k hk
    obtain ⟨m1, hm1, he⟩ := hmemT m0 hm0
    rw [he] at hk
    by_cases h : m1.name = n
    · rw [if_pos h] at hk
      rcases texOf_setTex_cases bt bt2 img k m1 hk with hh | hh
      · rw [hh]
        exact hkey
      · exact hinv.texShape m1 hm1 bt2 k hh
    · rw [if_neg h] at hk
      exact hinv.texShape m1 hm1 bt2 k hk
  case slotsSB =>
    intro x hx mx hmx
    by_cases hxn : x = n
    · rw [hxn, hfindn] at hmx
      cases hmx
      rw [setTex_simple, setTex_bake]
      exact hinv.slotsSB x hx mat (hxn ▸ hfind)
    · rw [hframe x hxn] at hmx
      exact hinv.slotsSB x hx mx hmx

/-- One iteration of the rebind slot loop (lines 281-343), on a state
satisfying the rebind invariant: it succeeds, keeps the invariant, the
images, the slot list and the settings, touches no other slot's material,
leaves the processed slot bound and done for the current pass type, and
preserves done-ness of every slot for every pass type. -/
theorem slotStep_spec (bt cn : String) (s : RState) (i : Nat) (n : String)
    (hbt : bt = "light" ∨ bt = "dark" ∨ bt = "normal")
    (hinv : RInv s)
    (hi : s.slots[i]? = some n)
    (hsh : s.shaderDropdown ≠ "C") :
    ∃ t, slotStep bt cn s i = .ok t ∧
      RInv t ∧
      t.images = s.images ∧
      t.slots = s.slots ∧
      t.shaderDropdown = s.shaderDropdown ∧
      t.appMajor = s.appMajor ∧
      (∀ x, ORGfree x → x ≠ "KK Simple" → x ≠ n →
        findMatR t.materials x = findMatR s.materials x) ∧
      SlotDone bt t i ∧
      (∀ bt2, (bt2 = "light" ∨ bt2 = "dark" ∨ bt2 = "normal") →
        ∀ j, SlotDone bt2 s j → SlotDone bt2 t j) ∧
      (bt = "light" → ∀ j, SlotDarkFilled s j → SlotDarkFilled t j) ∧
      (bt = "light" → ∀ mat, findMatR s.materials n = some mat →
        mat.simple = false → SlotDarkFilled t i) := by
  have hn_slot : n ∈ s.slots := List.getElem?_mem hi
  have hnfree : ORGfree n := hinv.slotsFree n hn_slot
  obtain ⟨mat, hfind⟩ := Option.isSome_iff_exists.mp (hinv.slotsResolve n hn_slot)
  have hmatname : mat.name = n := findMatR_name hfind
  have hstep0 : slotStep bt cn s i =
      (match findImage s.images (imageKeyName mat.name bt) with
      | none => Except.ok s
      | some img =>
        if mat.simple = true then
          .ok { s with materials := updateMatR s.materials mat.name (setTex bt img) }
        else if mat.bake = true ∧ hasSub orgPat mat.name.data = true ∧
            (findMatR s.materials (stripORG mat.name)).isSome then
          match findMatR s.materials (stripORG mat.name) with
          | some simpleM =>
            .ok { s with slots := s.slots.set i simpleM.name,
                         materials := updateMatR s.materials simpleM.name (setTex bt img) }
          | none => .error "unreachable: guard checked the simplified sibling"
        else if mat.bake = true then
          createSimple bt img cn i mat s
        else .ok s) := by
    simp only [slotStep, hi, hfind]
  cases himg : findImage s.images (imageKeyName mat.name bt) with
  | none =>
    simp only [himg] at hstep0
    have himgN : findImage s.images (imageKeyName n bt) = none := by
      rw [← hmatname]
      exact himg
    refine ⟨s, hstep0, hinv, rfl, rfl, rfl, rfl, fun x _ _ _ => rfl, ?_, ?_, ?_, ?_⟩
    · intro n2 hn2 img2 himg2
      rw [hi] at hn2
      cases hn2
      rw [himgN] at himg2
      cases himg2
    · intro bt2 _ j hdone
      exact hdone
    · intro _ j hdone
      exact hdone
    · intro hbl mat2 hfind2 hsimple2
      intro n2 hn2 img2 himg2
      rw [hi] at hn2
      cases hn2
      rw [hbl] at himgN
      rw [himgN] at himg2
      cases himg2
  | some img =>
    simp only [himg] at hstep0
    have himgN : findImage s.images (imageKeyName n bt) = some img := by
      rw [← hmatname]
      exact himg
    obtain ⟨himgkey, hkeymem⟩ := findImage_some _ _ _ himg
    have hkpng : lastFour img ≠ ".001".data := by
      rw [himgkey]
      exact key_ne_dot001 mat.name bt
    by_cases hsimpleb : mat.simple = true
    · -- first branch (lines 285-288): rebind into the simplified material
      rw [if_pos hsimpleb, hmatname] at hstep0
      obtain ⟨hframe, hfindn, hinvT⟩ := setTexUpdate_spec bt img s n mat hinv hfind hkpng
      refine ⟨{ s with materials := updateMatR s.materials n (setTex bt img) },
        hstep0, hinvT, rfl, rfl, rfl, rfl,
        (fun x _ _ hxn => hframe x hxn), ?_, ?_, ?_, ?_⟩
      · intro n2 hn2 img2 himg2
        have hn2s : s.slots[i]? = some n2 := hn2
        rw [hi] at hn2s
        cases hn2s
        have himg2s : findImage s.images (imageKeyName n bt) = some img2 := himg2
        rw [himgN] at himg2s
        cases himg2s
        exact ⟨setTex bt img mat, hfindn,
          by rw [setTex_simple]; exact hsimpleb, texOf_setTex_self bt img mat⟩
      · intro bt2 hbt2 j hdone n2 hn2 img2 himg2
        have hn2s : s.slots[j]? = some n2 := hn2
        have himg2s : findImage s.images (imageKeyName n2 bt2) = some img2 := himg2
        by_cases hn2n : n2 = n
        · subst hn2n
          have hj : j = i := nodup_getElem?_inj hinv.slotsNodup hn2s hi
          subst hj
          by_cases hbteq : bt2 = bt
          · subst hbteq
            rw [himgN] at himg2s
            cases himg2s
            exact ⟨setTex bt2 img mat, hfindn,
              by rw [setTex_simple]; exact hsimpleb, texOf_setTex_self bt2 img mat⟩
          · obtain ⟨m2, hfind2, hsimple2, htex2⟩ := hdone n2 hn2s img2 himg2s
            rw [hfind] at hfind2
            cases hfind2
            refine ⟨setTex bt img mat, hfindn, by rw [setTex_simple]; exact hsimpleb, ?_⟩
            rw [texOf_setTex_ne bt bt2 img mat hbt hbt2 hbteq]
            exact htex2
        · obtain ⟨m2, hfind2, hsimple2, htex2⟩ := hdone n2 hn2s img2 himg2s
          refine ⟨m2, ?_, hsimple2, htex2⟩
          show findMatR (updateMatR s.materials n (setTex bt img)) n2 = some m2
          rw [hframe n2 hn2n]
          exact hfind2
      · intro hbl j hdone n2 hn2 img2 himg2
        subst hbl
        have hn2s : s.slots[j]? = some n2 := hn2
        have himg2s : findImage s.images (imageKeyName n2 "light") = some img2 := himg2
        by_cases hn2n : n2 = n
        · subst hn2n
          have hj : j = i := nodup_getElem?_inj hinv.slotsNodup hn2s hi
          subst hj
          obtain ⟨m2, hfind2, hsimple2, htexL, htexD⟩ := hdone n2 hn2s img2 himg2s
          rw [hfind] at hfind2
          cases hfind2
          rw [himgN] at himg2s
          cases himg2s
          refine ⟨setTex "light" img mat, hfindn,
            by rw [setTex_simple]; exact hsimpleb, ?_, ?_⟩
          · show ({ mat with texLight := some img } : RMaterial).texLight = some img
            rfl
          · show ({ mat with texLight := some img } : RMaterial).texDark = some img
            show mat.texDark = some img
            exact htexD
        · obtain ⟨m2, hfind2, hsimple2, htexL, htexD⟩ := hdone n2 hn2s img2 himg2s
          refine ⟨m2, ?_, hsimple2, htexL, htexD⟩
          show findMatR (updateMatR s.materials n (setTex "light" img)) n2 = some m2
          rw [hframe n2 hn2n]
          exact hfind2
      · intro hbl mat2 hfind2 hsimple2
        rw [hfind] at hfind2
        cases hfind2
        rw [hsimpleb] at hsimple2
        cases hsimple2
    · -- the slot material is not simplified yet
      have hsimplef : mat.simple = false := by
        cases hms : mat.simple
        · rfl
        · exact absurd hms hsimpleb
      rw [if_neg hsimpleb] at hstep0
      have hhs : hasSub orgPat mat.name.data = false := by
        rw [hmatname]
        exact hnfree
      have hguard2 : ¬(mat.bake = true ∧ hasSub orgPat mat.name.data = true ∧
          (findMatR s.materials (stripORG mat.name)).isSome = true) := by
        intro hc
        rw [hhs] at hc
        exact absurd hc.2.1 (by decide)
      rw [if_neg hguard2] at hstep0
      by_cases hbake : mat.bake = true
      · -- third branch (lines 300-332): create the simplified material
        rw [if_pos hbake] at hstep0
        have hcs : createSimple bt img cn i mat s
            = .ok (createSimpleCore bt img cn i mat s) := by
          unfold createSimple
          rw [if_neg hsh]
        rw [hcs] at hstep0
        obtain ⟨hIm, hSl, hSh, hAp, hFr, hFn, hNs, hNt, hNd, hInv⟩ :=
          createSimpleCore_spec bt img cn i mat s n hbt hinv hi hmatname hfind hsimplef himg
        refine ⟨_, hstep0, hInv, hIm, hSl, hSh, hAp, hFr, ?_, ?_, ?_, ?_⟩
        · intro n2 hn2 img2 himg2
          rw [hSl, hi] at hn2
          cases hn2
          rw [hIm, himgN] at himg2
          cases himg2
          exact ⟨csNewMat bt img cn mat s, hFn, hNs, hNt⟩
        · intro bt2 hbt2 j hdone n2 hn2 img2 himg2
          rw [hSl] at hn2
          rw [hIm] at himg2
          by_cases hn2n : n2 = n
          · subst hn2n
            have hj : j = i := nodup_getElem?_inj hinv.slotsNodup hn2 hi
            subst hj
            by_cases hbteq : bt2 = bt
            · subst hbteq
              rw [himgN] at himg2
              cases himg2
              exact ⟨csNewMat bt2 img cn mat s, hFn, hNs, hNt⟩
            · obtain ⟨m2, hfind2, hsimple2, _⟩ := hdone n2 hn2 img2 himg2
              rw [hfind] at hfind2
              cases hfind2
              rw [hsimplef] at hsimple2
              cases hsimple2
          · obtain ⟨m2, hfind2, hsimple2, htex2⟩ := hdone n2 hn2 img2 himg2
            refine ⟨m2, ?_, hsimple2, htex2⟩
            have hn2mem : n2 ∈ s.slots := List.getElem?_mem hn2
            rw [hFr n2 (hinv.slotsFree n2 hn2mem)
              (fun h => hinv.noTemplateSlot (h ▸ hn2mem)) hn2n]
            exact hfind2
        · intro hbl j hdone n2 hn2 img2 himg2
          subst hbl
          rw [hSl] at hn2
          rw [hIm] at himg2
          by_cases hn2n : n2 = n
          · subst hn2n
            have hj : j = i := nodup_getElem?_inj hinv.slotsNodup hn2 hi
            subst hj
            obtain ⟨m2, hfind2, hsimple2, _, _⟩ := hdone n2 hn2 img2 himg2
            rw [hfind] at hfind2
            cases hfind2
            rw [hsimplef] at hsimple2
            cases hsimple2
          · obtain ⟨m2, hfind2, hsimple2, htexL, htexD⟩ := hdone n2 hn2 img2 himg2
            refine ⟨m2, ?_, hsimple2, htexL, htexD⟩
            have hn2mem : n2 ∈ s.slots := List.getElem?_mem hn2
            rw [hFr n2 (hinv.slotsFree n2 hn2mem)
              (fun h => hinv.noTemplateSlot (h ▸ hn2mem)) hn2n]
            exact hfind2
        · intro hbl mat2 hfind2 hsimple2
          subst hbl
          intro n2 hn2 img2 himg2
          rw [hSl, hi] at hn2
          cases hn2
          rw [hIm, himgN] at himg2
          cases himg2
          refine ⟨csNewMat "light" img cn mat s, hFn, hNs, ?_, hNd rfl⟩
          show texOf "light" (csNewMat "light" img cn mat s) = some img
          exact hNt
      · -- neither simple nor bake-tagged: excluded by the slot invariant
        exfalso
        rcases hinv.slotsSB n hn_slot mat hfind with h | h
        · rw [hsimplef] at h
          cases h
        · exact hbake h

/-- The rebind slot loop over any index list within bounds. -/
theorem passLoop_spec (bt cn : String) :
    ∀ (l : List Nat) (s : RState),
      RInv s → s.shaderDropdown ≠ "C" →
      (bt = "light" ∨ bt = "dark" ∨ bt = "normal") →
      (∀ i ∈ l, i < s.slots.length) →
      ∃ t, List.foldlM (slotStep bt cn) s l = .ok t ∧
        RInv t ∧ t.images = s.images ∧ t.slots = s.slots ∧
        t.shaderDropdown = s.shaderDropdown ∧ t.appMajor = s.appMajor ∧
        (∀ bt2, (bt2 = "light" ∨ bt2 = "dark" ∨ bt2 = "normal") →
          ∀ j, SlotDone bt2 s j → SlotDone bt2 t j) ∧
        (bt = "light" → ∀ j, SlotDarkFilled s j → SlotDarkFilled t j) ∧
        (∀ i ∈ l, SlotDone bt t i) ∧
        (bt = "light" → l.Nodup →
          (∀ i ∈ l, ∀ n mat, s.slots[i]? = some n → findMatR s.materials n = some mat →
            mat.simple = false) →
          ∀ i ∈ l, SlotDarkFilled t i) := by
  intro l
  induction l with
  | nil =>
    intro s hinv hsh hbt hbound
    refine ⟨s, rfl, hinv, rfl, rfl, rfl, rfl, fun bt2 _ j h => h, fun _ j h => h,
      fun i hi => absurd hi (List.not_mem_nil i),
      fun _ _ _ i hi => absurd hi (List.not_mem_nil i)⟩
  | cons i0 rest ih =>
    intro s hinv hsh hbt hbound
    have hi0 : i0 < s.slots.length := hbound i0 (by simp)
    obtain ⟨n0, hn0⟩ : ∃ n0, s.slots[i0]? = some n0 := by
      rw [List.getElem?_eq_getElem hi0]
      exact ⟨_, rfl⟩
    obtain ⟨t1, hstep, hinv1, him1, hsl1, hsh1, hap1, hfr1, hdone1, hpres1, hdkpres1,
      hdkest1⟩ := slotStep_spec bt cn s i0 n0 hbt hinv hn0 hsh
    obtain ⟨t, hfold, hinvT, himT, hslT, hshT, hapT, hpresT, hdkpresT, hdoneT, hdkT⟩ :=
      ih t1 hinv1 (by rw [hsh1]; exact hsh) hbt
        (by rw [hsl1]; intro i hi; exact hbound i (by simp [hi]))
    refine ⟨t, ?_, hinvT, by rw [himT, him1], by rw [hslT, hsl1], by rw [hshT, hsh1],
      by rw [hapT, hap1], ?_, ?_, ?_, ?_⟩
    · simp only [List.foldlM]
      rw [hstep]
      simp only [bind, Except.bind]
      exact hfold
    · intro bt2 hbt2 j h
      exact hpresT bt2 hbt2 j (hpres1 bt2 hbt2 j h)
    · intro hbl j h
      exact hdkpresT hbl j (hdkpres1 hbl j h)
    · intro i hi
      rcases List.mem_cons.mp hi with h | h
      · subst h
        exact hpresT bt hbt i hdone1
      · exact hdoneT i h
    · intro hbl hnodup hfresh i hi
      rcases List.mem_cons.mp hi with h | h
      · subst h
        obtain ⟨mat0, hfind0⟩ :=
          Option.isSome_iff_exists.mp (hinv.slotsResolve n0 (List.getElem?_mem hn0))
        have hfr0 : mat0.simple = false := hfresh i (by simp) n0 mat0 hn0 hfind0
        exact hdkpresT hbl i (hdkest1 hbl mat0 hfind0 hfr0)
      · rw [List.nodup_cons] at hnodup
        refine hdkT hbl hnodup.2 ?_ i h
        intro i2 hi2 n2 mat2 hn2 hfind2
        rw [hsl1] at hn2
        have hne : i2 ≠ i0 := fun he => hnodup.1 (he ▸ hi2)
        have hn2ne : n2 ≠ n0 := by
          intro he
          exact hne (nodup_getElem?_inj hinv.slotsNodup (he ▸ hn2) hn0)
        have hn2mem : n2 ∈ s.slots := List.getElem?_mem hn2
        rw [hfr1 n2 (hinv.slotsFree n2 hn2mem)
          (fun hh => hinv.noTemplateSlot (hh ▸ hn2mem)) hn2ne] at hfind2
        exact hfresh i2 (by simp [hi2]) n2 mat2 hn2 hfind2

/-- One full pass of the rebind loop (line 280's inner loop). -/
theorem passPhase_spec (bt cn : String) (s : RState)
    (hbt : bt = "light" ∨ bt = "dark" ∨ bt = "normal")
    (hinv : RInv s) (hsh : s.shaderDropdown ≠ "C") :
    ∃ t, passPhase bt cn s = .ok t ∧ RInv t ∧ t.images = s.images ∧ t.slots = s.slots ∧
      t.shaderDropdown = s.shaderDropdown ∧ t.appMajor = s.appMajor ∧
      (∀ bt2, (bt2 = "light" ∨ bt2 = "dark" ∨ bt2 = "normal") →
        ∀ j, SlotDone bt2 s j → SlotDone bt2 t j) ∧
      (bt = "light" → ∀ j, SlotDarkFilled s j → SlotDarkFilled t j) ∧
      (∀ i, SlotDone bt t i) ∧
      (bt = "light" →
        (∀ (i : Nat) (n : String) (mat : RMaterial), s.slots[i]? = some n →
          findMatR s.materials n = some mat → mat.simple = false) →
        ∀ i, SlotDarkFilled t i) := by
  obtain ⟨t, hfold, hinvT, himT, hslT, hshT, hapT, hpresT, hdkpresT, hdoneT, hdkT⟩ :=
    passLoop_spec bt cn (List.range s.slots.length) s hinv hsh hbt
      (fun i hi => List.mem_range.mp hi)
  refine ⟨t, hfold, hinvT, himT, hslT, hshT, hapT, hpresT, hdkpresT, ?_, ?_⟩
  · intro i
    by_cases hilt : i < s.slots.length
    · exact hdoneT i (List.mem_range.mpr hilt)
    · intro n hn
      rw [hslT, List.getElem?_eq_none (Nat.le_of_not_lt hilt)] at hn
      cases hn
  · intro hbl hfresh i
    by_cases hilt : i < s.slots.length
    · exact hdkT hbl (List.nodup_range _) (fun i2 _ => hfresh i2) i (List.mem_range.mpr hilt)
    · intro n hn
      rw [hslT, List.getElem?_eq_none (Nat.le_of_not_lt hilt)] at hn
      cases hn

/-- A slot whose simplified material already carries the pass image is a
no-op of the loop body. -/
theorem slotStep_id (bt cn : String) (s : RState) (i : Nat) (n : String)
    (hinv : RInv s) (hi : s.slots[i]? = some n)
    (hdone : SlotDone bt s i) :
    slotStep bt cn s i = .ok s := by
  obtain ⟨mat, hfind⟩ :=
    Option.isSome_iff_exists.mp (hinv.slotsResolve n (List.getElem?_mem hi))
  have hmatname : mat.name = n := findMatR_name hfind
  have hstep0 : slotStep bt cn s i =
      (match findImage s.images (imageKeyName mat.name bt) with
      | none => Except.ok s
      | some img =>
        if mat.simple = true then
          .ok { s with materials := updateMatR s.materials mat.name (setTex bt img) }
        else if mat.bake = true ∧ hasSub orgPat mat.name.data = true ∧
            (findMatR s.materials (stripORG mat.name)).isSome then
          match findMatR s.materials (stripORG mat.name) with
          | some simpleM =>
            .ok { s with slots := s.slots.set i simpleM.name,
                         materials := updateMatR s.materials simpleM.name (setTex bt img) }
          | none => .error "unreachable: guard checked the simplified sibling"
        else if mat.bake = true then
          createSimple bt img cn i mat s
        else .ok s) := by
    simp only [slotStep, hi, hfind]
  cases himg : findImage s.images (imageKeyName mat.name bt) with
  | none =>
    simp only [himg] at hstep0
    exact hstep0
  | some img =>
    simp only [himg] at hstep0
    have himgN : findImage s.images (imageKeyName n bt) = some img := by
      rw [← hmatname]
      exact himg
    obtain ⟨m2, hfind2, hsimple2, htex2⟩ := hdone n hi img himgN
    rw [hfind] at hfind2
    cases hfind2
    rw [if_pos hsimple2] at hstep0
    have hupd : updateMatR s.materials mat.name (setTex bt img) = s.materials := by
      rw [hmatname]
      apply updateMatR_id
      intro m hm hmn
      have hmm : m = mat := findMatR_unique hinv.nodup hfind m hm hmn
      rw [hmm]
      exact setTex_self bt img mat htex2
    rw [hupd] at hstep0
    exact hstep0

theorem foldlM_slotStep_id (bt cn : String) (s : RState) (l : List Nat)
    (h : ∀ i ∈ l, slotStep bt cn s i = .ok s) :
    List.foldlM (slotStep bt cn) s l = .ok s := by
  induction l with
  | nil => rfl
  | cons a t ih =>
    simp only [List.foldlM]
    rw [h a (by simp)]
    simp only [bind, Except.bind]
    exact ih (fun i hi => h i (by simp [hi]))

/-- A pass whose every slot is already done is a no-op. -/
theorem passPhase_id (bt cn : String) (s : RState)
    (hinv : RInv s) (hdone : ∀ i, SlotDone bt s i) :
    passPhase bt cn s = .ok s := by
  unfold passPhase
  apply foldlM_slotStep_id
  intro i hi
  have hilt : i < s.slots.length := List.mem_range.mp hi
  obtain ⟨n, hn⟩ : ∃ n, s.slots[i]? = some n := by
    rw [List.getElem?_eq_getElem hilt]
    exact ⟨_, rfl⟩
  exact slotStep_id bt cn s i n hinv hn (hdone i)

/-- A slot whose pass image is absent is a no-op of the loop body. -/
theorem slotStep_id_nokey (bt cn : String) (s : RState) (i : Nat) (n : String)
    (hinv : RInv s) (hi : s.slots[i]? = some n)
    (hnone : findImage s.images (imageKeyName n bt) = none) :
    slotStep bt cn s i = .ok s := by
  obtain ⟨mat, hfind⟩ :=
    Option.isSome_iff_exists.mp (hinv.slotsResolve n (List.getElem?_mem hi))
  have hmatname : mat.name = n := findMatR_name hfind
  have hnone2 : findImage s.images (imageKeyName mat.name bt) = none := by
    rw [hmatname]
    exact hnone
  simp only [slotStep, hi, hfind, hnone2]

/-- A pass whose images are all absent is a no-op. -/
theorem passPhase_id_nokey (bt cn : String) (s : RState)
    (hinv : RInv s)
    (hnone : ∀ n ∈ s.slots, findImage s.images (imageKeyName n bt) = none) :
    passPhase bt cn s = .ok s := by
  unfold passPhase
  apply foldlM_slotStep_id
  intro i hi
  have hilt : i < s.slots.length := List.mem_range.mp hi
  obtain ⟨n, hn⟩ : ∃ n, s.slots[i]? = some n := by
    rw [List.getElem?_eq_getElem hilt]
    exact ⟨_, rfl⟩
  exact slotStep_id_nokey bt cn s i n hinv hn (hnone n (List.getElem?_mem hn))

/-- The rebind invariant only reads the materials and the slots. -/
theorem RInv_of_eq {s t : RState} (hinv : RInv s) (hm : t.materials = s.materials)
    (hs : t.slots = s.slots) : RInv t := by
  constructor
  case nodup =>
    rw [hm]
    exact hinv.nodup
  case nameForm =>
    rw [hm]
    exact hinv.nameForm
  case slotsFree =>
    rw [hs]
    exact hinv.slotsFree
  case slotsNodup =>
    rw [hs]
    exact hinv.slotsNodup
  case slotsResolve =>
    rw [hs, hm]
    exact hinv.slotsResolve
  case orgBase =>
    rw [hm]
    exact hinv.orgBase
  case noTemplateSlot =>
    rw [hs]
    exact hinv.noTemplateSlot
  case texShape =>
    rw [hm]
    exact hinv.texShape
  case slotsSB =>
    rw [hs, hm]
    exact hinv.slotsSB

/-- **C6**: a second run of `replace_all_baked_materials` on the same
output directory succeeds and leaves every material and every slot
binding exactly as the first run left them: no name is `-ORG`-suffixed a
second time, no second simplified material is created, and each slot's
material and image bindings coincide after the two runs. -/
theorem rebind_idempotent (files : List String) (cn : String) (s0 s1 : RState)
    (hinv : RInv s0)
    (hsh : s0.shaderDropdown ≠ "C")
    (hpng : ∀ f ∈ files, lastFour f = ".png".data)
    (himg : ∀ x ∈ s0.images, lastFour x ≠ ".001".data)
    (h1 : replace_all_baked_materials files cn s0 = .ok s1) :
    ∃ s2, replace_all_baked_materials files cn s1 = .ok s2 ∧
      s2.materials = s1.materials ∧ s2.slots = s1.slots := by
  -- the first run: load phase
  obtain ⟨hLm, hLs, hLd, hLa⟩ := loadPhase_frame files s0 hinv.texShape
  have hinvL : RInv (loadPhase files s0) := RInv_of_eq hinv hLm hLs
  have hshL : (loadPhase files s0).shaderDropdown ≠ "C" := by
    rw [hLd]
    exact hsh
  -- the first run: the three passes
  obtain ⟨ta, hPa, hinva, hima, hsla, hsha, hapa, hpresa, _, hdonea, _⟩ :=
    passPhase_spec "light" cn (loadPhase files s0) (.inl rfl) hinvL hshL
  obtain ⟨tb, hPb, hinvb, himb, hslb, hshb, hapb, hpresb, _, hdoneb, _⟩ :=
    passPhase_spec "dark" cn ta (.inr (.inl rfl)) hinva (by rw [hsha]; exact hshL)
  obtain ⟨tc, hPc, hinvc, himc, hslc, hshc, hapc, hpresc, _, hdonec, _⟩ :=
    passPhase_spec "normal" cn tb (.inr (.inr rfl)) hinvb (by rw [hshb, hsha]; exact hshL)
  have h1' : replace_all_baked_materials files cn s0 = .ok tc := by
    unfold replace_all_baked_materials
    rw [hPa]
    simp only [Except.bind]
    rw [hPb]
    simp only [Except.bind]
    exact hPc
  have hs1 : s1 = tc := by
    rw [h1'] at h1
    injection h1 with h
    exact h.symm
  subst hs1
  -- every slot is done for every pass type after the first run
  have hdoneC1 : ∀ i, SlotDone "light" s1 i := fun i =>
    hpresc "light" (.inl rfl) i (hpresb "light" (.inl rfl) i (hdonea i))
  have hdoneC2 : ∀ i, SlotDone "dark" s1 i := fun i =>
    hpresc "dark" (.inr (.inl rfl)) i (hdoneb i)
  have hdoneC3 : ∀ i, SlotDone "normal" s1 i := hdonec
  -- the second run: load phase
  obtain ⟨hL2m, hL2s, hL2d, hL2a⟩ := loadPhase_frame files s1 hinvc.texShape
  have hinvL2 : RInv (loadPhase files s1) := RInv_of_eq hinvc hL2m hL2s
  -- image bookkeeping of the two load phases
  obtain ⟨himgsub, _, hfilesin⟩ := loadPhase_images_spec files s0.images hpng himg
    files (fun f hf => hf) s0 (fun x hx => .inl hx)
  have himgc : ∀ x ∈ s1.images, lastFour x ≠ ".001".data := by
    intro x hx
    rw [himc, himb, hima] at hx
    rcases himgsub x hx with h | h
    · exact himg x h
    · rw [hpng x h.1]
      decide
  obtain ⟨himgsub2, _, _⟩ := loadPhase_images_spec files s1.images hpng himgc
    files (fun f hf => hf) s1 (fun x hx => .inl hx)
  have hkeyback : ∀ k, lastFour k = ".png".data → k ∈ (loadPhase files s1).images →
      k ∈ s1.images := by
    intro k hk hkm
    rcases himgsub2 k hkm with h | h
    · exact h
    · rw [himc, himb, hima]
      exact hfilesin k h.1 h.2
  -- done-ness transfers to the reloaded state
  have hdoneL2 : ∀ bt, (bt = "light" ∨ bt = "dark" ∨ bt = "normal") →
      ∀ i, SlotDone bt (loadPhase files s1) i := by
    intro bt hbt i n hn img2 himg2
    have hn2 : s1.slots[i]? = some n := by
      rw [← hL2s]
      exact hn
    obtain ⟨hkey, hkmem⟩ := findImage_some _ _ _ himg2
    have hkmem2 : imageKeyName n bt ∈ s1.images :=
      hkeyback _ (imageKeyName_lastFour n bt) hkmem
    have himg2c : findImage s1.images (imageKeyName n bt) = some img2 := by
      rw [hkey]
      exact findImage_mem _ _ hkmem2
    have hd : SlotDone bt s1 i := by
      rcases hbt with rfl | rfl | rfl
      · exact hdoneC1 i
      · exact hdoneC2 i
      · exact hdoneC3 i
    obtain ⟨m, hm, hsimp, htex⟩ := hd n hn2 img2 himg2c
    refine ⟨m, ?_, hsimp, htex⟩
    rw [hL2m]
    exact hm
  -- the three passes of the second run change nothing
  have hid1 : passPhase "light" cn (loadPhase files s1) = .ok (loadPhase files s1) :=
    passPhase_id "light" cn _ hinvL2 (hdoneL2 "light" (.inl rfl))
  have hid2 : passPhase "dark" cn (loadPhase files s1) = .ok (loadPhase files s1) :=
    passPhase_id "dark" cn _ hinvL2 (hdoneL2 "dark" (.inr (.inl rfl)))
  have hid3 : passPhase "normal" cn (loadPhase files s1) = .ok (loadPhase files s1) :=
    passPhase_id "normal" cn _ hinvL2 (hdoneL2 "normal" (.inr (.inr rfl)))
  refine ⟨loadPhase files s1, ?_, hL2m, hL2s⟩
  unfold replace_all_baked_materials
  rw [hid1]
  simp only [Except.bind]
  rw [hid2]
  simp only [Except.bind]
  exact hid3

/-- **C7**: on a scene whose slot materials have not been simplified yet,
when only the light pass type was baked, every simplified material
created by the rebind has its `dark` image node filled with the light
image (lines 313-316), so no dark slot is left empty. -/
theorem rebind_fills_dark (files : List String) (cn : String) (s0 s1 : RState)
    (hinv : RInv s0)
    (hsh : s0.shaderDropdown ≠ "C")
    (hpng : ∀ f ∈ files, lastFour f = ".png".data)
    (himg : ∀ x ∈ s0.images, lastFour x ≠ ".001".data)
    (hfresh : ∀ (i : Nat) (n : String) (mat : RMaterial), s0.slots[i]? = some n →
      findMatR s0.materials n = some mat → mat.simple = false)
    (hnokey : ∀ n ∈ s0.slots, ∀ bt2, bt2 = "dark" ∨ bt2 = "normal" →
      imageKeyName n bt2 ∉ s0.images ∧ imageKeyName n bt2 ∉ files)
    (h1 : replace_all_baked_materials files cn s0 = .ok s1) :
    ∀ (i : Nat) (n : String), s1.slots[i]? = some n →
      ∀ img, findImage s1.images (imageKeyName n "light") = some img →
        ∃ m, findMatR s1.materials n = some m ∧ m.simple = true ∧
          m.texLight = some img ∧ m.texDark = some img := by
  -- load phase
  obtain ⟨hLm, hLs, hLd, hLa⟩ := loadPhase_frame files s0 hinv.texShape
  have hinvL : RInv (loadPhase files s0) := RInv_of_eq hinv hLm hLs
  have hshL : (loadPhase files s0).shaderDropdown ≠ "C" := by
    rw [hLd]
    exact hsh
  obtain ⟨himgsub, _, _⟩ := loadPhase_images_spec files s0.images hpng himg
    files (fun f hf => hf) s0 (fun x hx => .inl hx)
  -- the light pass fills every dark node
  obtain ⟨ta, hPa, hinva, hima, hsla, hsha, hapa, _, _, _, hdkT⟩ :=
    passPhase_spec "light" cn (loadPhase files s0) (.inl rfl) hinvL hshL
  have hdk : ∀ i, SlotDarkFilled ta i := by
    refine hdkT rfl ?_
    intro i n mat hn hfind
    rw [hLs] at hn
    rw [hLm] at hfind
    exact hfresh i n mat hn hfind
  -- the dark and normal passes find no images and change nothing
  have hnone : ∀ bt2, bt2 = "dark" ∨ bt2 = "normal" →
      ∀ n ∈ ta.slots, findImage ta.images (imageKeyName n bt2) = none := by
    intro bt2 hbt2 n hn
    rw [hsla, hLs] at hn
    apply findImage_not_mem
    rw [hima]
    intro hmem
    rcases himgsub _ hmem with h | h
    · exact (hnokey n hn bt2 hbt2).1 h
    · exact (hnokey n hn bt2 hbt2).2 h.1
  have hid2 : passPhase "dark" cn ta = .ok ta :=
    passPhase_id_nokey "dark" cn ta hinva (hnone "dark" (.inl rfl))
  have hid3 : passPhase "normal" cn ta = .ok ta :=
    passPhase_id_nokey "normal" cn ta hinva (hnone "normal" (.inr rfl))
  have h1' : replace_all_baked_materials files cn s0 = .ok ta := by
    unfold replace_all_baked_materials
    rw [hPa]
    simp only [Except.bind]
    rw [hid2]
    simp only [Except.bind]
    exact hid3
  have hs1 : s1 = ta := by
    rw [h1'] at h1
    injection h1 with h
    exact h.symm
  subst hs1
  intro i n hn img himg2
  exact hdk i n hn img himg2

theorem texOf_none (bt : String) (m : RMaterial) (h1 : m.texLight = none)
    (h2 : m.texDark = none) (h3 : m.texNormal = none) : texOf bt m = none := by
  unfold texOf
  split
  · exact h1
  · split
    · exact h2
    · exact h3

/-- The fresh two-slot scene satisfies the rebind invariant. -/
theorem rFreshState_RInv : RInv rFreshState := by
  constructor
  case nodup => decide
  case nameForm =>
    intro m hm
    have hm2 : m ∈ [rMatA, rMatB] := hm
    left
    rcases List.mem_cons.mp hm2 with rfl | hm3
    · unfold ORGfree
      decide
    · rcases List.mem_singleton.mp hm3 with rfl
      unfold ORGfree
      decide
  case slotsFree =>
    intro n hn
    have hn2 : n ∈ ["Body", "Face"] := hn
    rcases List.mem_cons.mp hn2 with rfl | hn3
    · unfold ORGfree
      decide
    · rcases List.mem_singleton.mp hn3 with rfl
      unfold ORGfree
      decide
  case slotsNodup => decide
  case slotsResolve =>
    intro n hn
    have hn2 : n ∈ ["Body", "Face"] := hn
    rcases List.mem_cons.mp hn2 with rfl | hn3
    · decide
    · rcases List.mem_singleton.mp hn3 with rfl
      decide
  case orgBase =>
    intro m hm b hb
    have hm2 : m ∈ [rMatA, rMatB] := hm
    rcases List.mem_cons.mp hm2 with rfl | hm3
    · exact absurd hb (not_org_form_of_lastFour rMatA.name (by decide) b)
    · rcases List.mem_singleton.mp hm3 with rfl
      exact absurd hb (not_org_form_of_lastFour rMatB.name (by decide) b)
  case noTemplateSlot => decide
  case texShape =>
    intro m hm bt k hk
    have hm2 : m ∈ [rMatA, rMatB] := hm
    rcases List.mem_cons.mp hm2 with rfl | hm3
    · rw [texOf_none bt rMatA rfl rfl rfl] at hk
      cases hk
    · rcases List.mem_singleton.mp hm3 with rfl
      rw [texOf_none bt rMatB rfl rfl rfl] at hk
      cases hk
  case slotsSB =>
    intro n hn mat hmat
    have hn2 : n ∈ ["Body", "Face"] := hn
    rcases List.mem_cons.mp hn2 with rfl | hn3
    · have hmat2 : some rMatA = some mat := hmat
      cases hmat2
      right
      rfl
    · rcases List.mem_singleton.mp hn3 with rfl
      have hmat2 : some rMatB = some mat := hmat
      cases hmat2
      right
      rfl

theorem rebind_idempotent_witness :
    ∃ s2, replace_all_baked_materials rFiles "Mc" rRun1State = .ok s2 ∧
      s2.materials = rRun1State.materials ∧ s2.slots = rRun1State.slots :=
  rebind_idempotent rFiles "Mc" rFreshState rRun1State rFreshState_RInv
    (by decide) (by decide) (by decide) (by rfl)

theorem rebind_fills_dark_witness :
    ∃ m, findMatR rRun1State.materials "Body" = some m ∧ m.simple = true ∧
      m.texLight = some "Body light.png" ∧ m.texDark = some "Body light.png" :=
  rebind_fills_dark rFiles "Mc" rFreshState rRun1State rFreshState_RInv
    (by decide) (by decide) (by decide)
    (by
      intro i n mat hn hmat
      match i with
      | 0 =>
        have hn2 : some "Body" = some n := hn
        cases hn2
        have hmat2 : some rMatA = some mat := hmat
        cases hmat2
        rfl
      | 1 =>
        have hn2 : some "Face" = some n := hn
        cases hn2
        have hmat2 : some rMatB = some mat := hmat
        cases hmat2
        rfl
      | (k + 2) =>
        have hn2 : (none : Option String) = some n := hn
        cases hn2)
    (by
      intro n hn bt2 hbt2
      have hn2 : n ∈ ["Body", "Face"] := hn
      rcases hbt2 with rfl | rfl
      · rcases List.mem_cons.mp hn2 with rfl | hn3
        · exact ⟨by decide, by decide⟩
        · rcases List.mem_singleton.mp hn3 with rfl
          exact ⟨by decide, by decide⟩
      · rcases List.mem_cons.mp hn2 with rfl | hn3
        · exact ⟨by decide, by decide⟩
        · rcases List.mem_singleton.mp hn3 with rfl
          exact ⟨by decide, by decide⟩)
    (by rfl) 0 "Body" (by rfl) "Body light.png" (by rfl)

end KKBPE
